import Mathlib

/-!
# Fitness Tracker: streaks, meals, workouts and progress aggregation

A shallow embedding of `server/routes/extras.js` (the `/streak` and `/stats`
handlers), `server/models/Meal.js` (the `pre('save')` hook),
`server/models/Workout.js` (the validators), `server/routes/meals.js`,
`server/routes/workouts.js` (the handlers and `getExerciseSteps`) and
`server/routes/progress.js` (the `/summary`, `/nutrition` and `/workouts`
handlers).

Modelling conventions

* A JavaScript `Date` is its time value: an `Int` number of milliseconds since
  the epoch.  Differences of two dates divided by `1000 * 60 * 60 * 24` and
  passed through `Math.floor` are floor divisions of integers (`Int` division
  by a positive number); within the range of valid dates the double-precision
  quotient has the same floor.
* The time zone of the server is a `Zone`: an offset (milliseconds, local =
  UTC + offset) and its changes.  `setHours`, `setDate` and `setMonth` go
  through `LocalTime` and `UTC` of ECMAScript (`setHoursZeroIn`, `setDateAddIn`,
  `setMonthPrevIn`), `setMonth(getMonth() - 1)` and `setFullYear(getFullYear() - 1)`
  follow `MakeDay` in the proleptic Gregorian calendar.  The handlers `streakIn`,
  `progressSummaryIn` and `nutritionBreakdownIn` take the zone; the handlers with
  an argument `tz` are those of a server whose zone keeps the offset `tz`, where
  a local day has 24 hours (`streakIn_fixedZone`, `progressSummaryIn_fixedZone`,
  `nutritionBreakdownIn_fixedZone`).
* A `Set` of ISO strings is a duplicate-free list in insertion order
  (`toISOString` is injective on time values); the date text
  `toISOString().split('T')[0]` is held as the index of the UTC day.
* An object used as a map (`dailyData`, `typeDistribution`, `weeklyData`, the
  table of exercises) is the list of its entries in key insertion order.
* The numbers of a meal, of a workout and of the answers are rationals;
  `Math.round(a / b)` is `none` when `b = 0` (`NaN` or infinite, `null` in the
  JSON answer).
* The two calls of `new Date()` of a handler give the same value `now`.
* A collection is the list of its documents; a handler that writes returns
  the new collection.  The `_id` of a new document is an argument.
* A string is the list of its characters; `trim` strips the white space and
  line terminators of ECMAScript, and the length that `maxLength` compares is
  the number of UTF-16 code units.  `String.prototype.toLowerCase` is an
  argument of `getExerciseSteps` and of the handlers that call it;
  `asciiLowerCase` is its value on strings of ASCII characters.
-/

namespace FitnessTracker

/-! ## Dates -/

/-- The constant `1000 * 60 * 60 * 24` of `extras.js`. -/
def msPerDay : Int := 1000 * 60 * 60 * 24

/-- `d.setHours(0, 0, 0, 0)` on a clock that keeps the offset `tz`: local
midnight of the local day of `t` (`setHoursZeroIn` takes a zone with changes of
offset). -/
def setHoursZero (tz t : Int) : Int := t - (t + tz) % msPerDay

/-- `d.setDate(d.getDate() - 1)` on a clock that keeps one offset: the same
local time one day, 24 hours, earlier (`setDateAddIn` takes a zone with changes
of offset). -/
def setDatePrev (t : Int) : Int := t - msPerDay

/-- `Math.floor((a - b) / (1000 * 60 * 60 * 24))`. -/
def daysDiff (a b : Int) : Int := (a - b) / msPerDay

/-- Calendar day (index of the local day) of a time value on a clock that
keeps the offset `tz`. -/
def dayOf (tz t : Int) : Int := (t + tz) / msPerDay

/-- Local midnight of the calendar day with index `d`. -/
def midnightOf (tz d : Int) : Int := d * msPerDay - tz

/-! ## The `/streak` handler -/

/-- `Workout.find({ userId }).sort({ date: -1 }).select('date')`: the dates of
the user's stored workouts, most recent first. -/
def findWorkouts (stored : List Int) : List Int :=
  stored.insertionSort (· ≥ ·)

/-- `Set.prototype.add`. -/
def setAdd (s : List Int) (x : Int) : List Int :=
  if x ∈ s then s else s ++ [x]

/-- The `forEach` of lines 69-74: the set of local midnights of the workouts,
on a clock that keeps the offset `tz`. -/
def workoutDates (tz : Int) (workouts : List Int) : List Int :=
  workouts.foldl (fun s w => setAdd s (setHoursZero tz w)) []

/-- `Array.from(workoutDates).map(date => new Date(date)).sort((a, b) => b - a)`. -/
def sortedDates (tz : Int) (workouts : List Int) : List Int :=
  (workoutDates tz workouts).insertionSort (· ≥ ·)

/-- The `for ... of sortedDates` loop of lines 82-92, from the state
`(checkDate, currentStreak)` over the dates still to visit, on a clock that
keeps one offset. -/
def currentStreakLoop : Int → List Int → Nat → Nat
  | _, [], currentStreak => currentStreak
  | checkDate, workoutDate :: rest, currentStreak =>
    if daysDiff checkDate workoutDate ≤ 1 then
      currentStreakLoop (setDatePrev workoutDate) rest (currentStreak + 1)
    else
      currentStreak

/-- The inner `for (let j = i + 1; ...)` loop of lines 100-108: `prev` is
`allDates[j-1]`, the list holds `allDates[j], allDates[j+1], ...`. -/
def innerLoop : Int → List Int → Nat → Nat
  | _, [], tempStreak => tempStreak
  | prev, x :: rest, tempStreak =>
    if daysDiff x prev ≤ 1 then innerLoop x rest (tempStreak + 1) else tempStreak

/-- The outer `for (let i = 0; ...)` loop of lines 97-111 over
`allDates[i], allDates[i+1], ...`. -/
def outerLoop : List Int → Nat → Nat
  | [], longestStreak => longestStreak
  | x :: rest, longestStreak => outerLoop rest (max longestStreak (innerLoop x rest 1))

/-- The JSON body answered by `/streak`; the fields absent from the
no-workout answer are `none` there. -/
structure StreakResponse where
  currentStreak : Nat
  longestStreak : Nat
  lastWorkoutDate : Option Int
  daysSinceLastWorkout : Option Int
  totalWorkouts : Option Nat
  message : String
  deriving DecidableEq, Repr

/-- Lines 116-129: the message. -/
def streakMessage (currentStreak : Nat) (daysSinceLastWorkout : Int) : String :=
  if currentStreak = 0 then
    if daysSinceLastWorkout = 0 then
      "Great job working out today! Keep the momentum going!"
    else if daysSinceLastWorkout = 1 then
      "You worked out yesterday! Start a new streak today!"
    else
      "It's been " ++ toString daysSinceLastWorkout ++
        " days since your last workout. Time to get back on track!"
  else if currentStreak = 1 then
    "You're on a 1-day streak! Keep it up!"
  else
    "Amazing! You're on a " ++ toString currentStreak ++ "-day streak!"

/-- The handler `router.get('/streak')` on a server clock that keeps one
offset: `tz` is that offset, `now` the value of `new Date()`, `stored` the
dates of the user's workouts (`streakIn` takes a zone with changes of
offset). -/
def streak (tz now : Int) (stored : List Int) : StreakResponse :=
  match findWorkouts stored with
  | [] =>
    { currentStreak := 0
      longestStreak := 0
      lastWorkoutDate := none
      daysSinceLastWorkout := none
      totalWorkouts := none
      message := "Start your fitness journey today!" }
  | lastWorkoutDate :: more =>
    let workouts := lastWorkoutDate :: more
    let today := setHoursZero tz now
    let sorted := sortedDates tz workouts
    let currentStreak := currentStreakLoop today sorted 0
    let allDates := sorted.reverse
    let longestStreak := outerLoop allDates 0
    let daysSinceLastWorkout := daysDiff today lastWorkoutDate
    { currentStreak := currentStreak
      longestStreak := longestStreak
      lastWorkoutDate := some lastWorkoutDate
      daysSinceLastWorkout := some daysSinceLastWorkout
      totalWorkouts := some workouts.length
      message := streakMessage currentStreak daysSinceLastWorkout }

/-! ## Meals -/

/-- A sub-document of `foodItemSchema`. -/
structure FoodItem where
  name : String
  calories : ℚ
  protein : ℚ
  carbs : ℚ
  fats : ℚ
  quantity : ℚ
  unit : String
  deriving DecidableEq, Repr

/-- A document of `mealSchema`. -/
structure Meal where
  id : Nat
  userId : Nat
  date : Int
  mealType : String
  items : List FoodItem
  totalCalories : ℚ
  totalProtein : ℚ
  totalCarbs : ℚ
  totalFats : ℚ
  deriving DecidableEq, Repr

/-- The hook `mealSchema.pre('save')`: the four `reduce` calls. -/
def preSave (m : Meal) : Meal :=
  { m with
    totalCalories := m.items.foldl (fun sum item => sum + item.calories * item.quantity) 0
    totalProtein := m.items.foldl (fun sum item => sum + item.protein * item.quantity) 0
    totalCarbs := m.items.foldl (fun sum item => sum + item.carbs * item.quantity) 0
    totalFats := m.items.foldl (fun sum item => sum + item.fats * item.quantity) 0 }

/-- An element of `req.body.items`.  `name` is `""` when absent; `calories` is
`some c` when `typeof item.calories === 'number'`; `protein`, `carbs`, `fats`
and `quantity` hold the value of `parseFloat` (`none` for `NaN`); `unit` is
`none` when falsy. -/
structure ItemInput where
  name : String
  calories : Option ℚ
  protein : Option ℚ
  carbs : Option ℚ
  fats : Option ℚ
  quantity : Option ℚ
  unit : Option String
  deriving DecidableEq, Repr

/-- The body of `POST /meals` and `PUT /meals/:id`.  `mealType` is `""` when
absent; `items` is `none` when absent or not an array. -/
structure MealBody where
  date : Option Int
  mealType : String
  items : Option (List ItemInput)
  deriving DecidableEq, Repr

/-- `parseFloat(x) || d`. -/
def parseFloatOr (x : Option ℚ) (d : ℚ) : ℚ :=
  match x with
  | some v => if v = 0 then d else v
  | none => d

/-- The code points `WhiteSpace` and `LineTerminator` of ECMAScript: tab, line
feed, vertical tab, form feed, carriage return, space, U+00A0, U+1680, U+2000
to U+200A, U+2028, U+2029, U+202F, U+205F, U+3000 and U+FEFF. -/
def isWhiteSpace (c : Char) : Bool :=
  decide (c.toNat ∈ [9, 10, 11, 12, 13, 32, 160, 5760, 8232, 8233, 8239, 8287, 12288, 65279]) ||
    (decide (8192 ≤ c.toNat) && decide (c.toNat ≤ 8202))

/-- `String.prototype.trim`: the string without its leading and trailing
white space and line terminators. -/
def trim (s : String) : String :=
  String.mk ((s.data.dropWhile isWhiteSpace).reverse.dropWhile isWhiteSpace).reverse

/-- The `length` of a JavaScript string: its number of UTF-16 code units, two
for a character above U+FFFF. -/
def utf16Length (s : String) : Nat :=
  (s.data.map (fun c => if c.toNat < 65536 then 1 else 2)).sum

/-- The callback of `items.map(...)` in both handlers. -/
def toFoodItem (item : ItemInput) : FoodItem :=
  { name := trim item.name
    calories := parseFloatOr item.calories 0
    protein := parseFloatOr item.protein 0
    carbs := parseFloatOr item.carbs 0
    fats := parseFloatOr item.fats 0
    quantity := parseFloatOr item.quantity 1
    unit := item.unit.getD "serving" }

/-- The test of the `for (const item of items)` loop, negated: the item is
accepted. -/
def itemAccepted (item : ItemInput) : Bool :=
  match item.calories with
  | some c => decide (item.name ≠ "") && !decide (c < 0)
  | none => false

/-- The request checks shared by `POST /` and `PUT /:id` (lines 12-25 and
154-167): the items when the request passes them. -/
def acceptedItems (body : MealBody) : Option (List ItemInput) :=
  match body.items with
  | none => none
  | some items =>
    if body.mealType = "" ∨ items.length = 0 then none
    else if items.all itemAccepted then some items else none

/-- The `enum` of `mealType`. -/
def mealTypes : List String := ["breakfast", "lunch", "dinner", "snack"]

/-- The `enum` of `unit`. -/
def units : List String := ["serving", "cup", "tbsp", "tsp", "gram", "oz", "piece"]

/-- The validators of `foodItemSchema`. -/
def validFoodItem (i : FoodItem) : Bool :=
  decide (i.name ≠ "") && decide (0 ≤ i.calories) && decide (0 ≤ i.protein) &&
    decide (0 ≤ i.carbs) && decide (0 ≤ i.fats) && decide ((1 : ℚ) / 10 ≤ i.quantity) &&
    decide (i.unit ∈ units)

/-- The validators of the paths `mealType` and `items` of `mealSchema`. -/
def validMealPaths (mealType : String) (items : List FoodItem) : Bool :=
  decide (mealType ∈ mealTypes) && items.all validFoodItem

/-- The answer of a meal handler: the status and the `meal` of the body. -/
structure MealReply where
  status : Nat
  meal : Option Meal
  deriving DecidableEq, Repr

/-- The handler `router.post('/')` of `meals.js` on the collection `db`:
`newId` is the `_id` given to the new document, `now` the value of
`new Date()`.  `meal.save()` validates, runs `pre('save')` and inserts. -/
def postMeal (userId newId : Nat) (now : Int) (db : List Meal) (body : MealBody) :
    MealReply × List Meal :=
  match acceptedItems body with
  | none => ({ status := 400, meal := none }, db)
  | some items =>
    let meal : Meal :=
      { id := newId
        userId := userId
        date := body.date.getD now
        mealType := body.mealType
        items := items.map toFoodItem
        totalCalories := 0
        totalProtein := 0
        totalCarbs := 0
        totalFats := 0 }
    if validMealPaths meal.mealType meal.items then
      let saved := preSave meal
      ({ status := 201, meal := some saved }, db ++ [saved])
    else
      ({ status := 400, meal := none }, db)

/-- `Meal.findOneAndUpdate({ _id, userId }, updateData, { new: true })` on the
collection: the first matching document gets the paths of `updateData` and
nothing else; no `save` middleware runs. -/
def findOneAndUpdate (id userId : Nat) (mealType : String) (items : List FoodItem) :
    List Meal → Option Meal × List Meal
  | [] => (none, [])
  | m :: rest =>
    if m.id = id ∧ m.userId = userId then
      let updated := { m with mealType := mealType, items := items }
      (some updated, updated :: rest)
    else
      let r := findOneAndUpdate id userId mealType items rest
      (r.1, m :: r.2)

/-- The handler `router.put('/:id')` of `meals.js` on the collection `db`. -/
def putMeal (userId id : Nat) (db : List Meal) (body : MealBody) : MealReply × List Meal :=
  match acceptedItems body with
  | none => ({ status := 400, meal := none }, db)
  | some items =>
    let updateItems := items.map toFoodItem
    if validMealPaths body.mealType updateItems then
      match findOneAndUpdate id userId body.mealType updateItems db with
      | (none, _) => ({ status := 404, meal := none }, db)
      | (some meal, db1) => ({ status := 200, meal := some meal }, db1)
    else
      ({ status := 400, meal := none }, db)

/-- The sum over the items of `metric * quantity`. -/
def itemsTotal (metric : FoodItem → ℚ) (items : List FoodItem) : ℚ :=
  (items.map (fun item => metric item * item.quantity)).sum

/-- The stored totals of a meal agree with its items. -/
def TotalsConsistent (m : Meal) : Prop :=
  m.totalCalories = itemsTotal FoodItem.calories m.items ∧
  m.totalProtein = itemsTotal FoodItem.protein m.items ∧
  m.totalCarbs = itemsTotal FoodItem.carbs m.items ∧
  m.totalFats = itemsTotal FoodItem.fats m.items

/-- A request item: 100 calories per unit, quantity `q`. -/
def riceItem (q : ℚ) : ItemInput :=
  { name := "rice", calories := some 100, protein := some 2, carbs := some 22, fats := none,
    quantity := some q, unit := none }

/-- A request body with the single item `riceItem q`. -/
def lunchBody (q : ℚ) : MealBody :=
  { date := none, mealType := "lunch", items := some [riceItem q] }

/-! ## Calendar days of a workout history -/

/-- The distinct calendar days that have a workout, most recent first: the
days of `sortedDates`. -/
def workoutDays (tz : Int) (stored : List Int) : List Int :=
  (sortedDates tz (findWorkouts stored)).map (dayOf tz)

/-- The condition of the current streak on the first `k` days of the
descending list `ds`, for today `t`: the first day is at most one day before
`t`, and each further day at most two days before the one before it. -/
def StreakUpTo (t : Int) (ds : List Int) (k : Nat) : Prop :=
  k ≤ ds.length ∧ (0 < k → t - ds.getD 0 0 ≤ 1) ∧
    ∀ i, i + 1 < k → ds.getD i 0 - ds.getD (i + 1) 0 ≤ 2

/-- Some workout of the history is on calendar day `d`. -/
def HasWorkoutOn (tz : Int) (stored : List Int) (d : Int) : Prop :=
  ∃ w ∈ stored, dayOf tz w = d

/-- What `currentStreakLoop` adds to the counter, read on calendar days: `c` is
the day of `checkDate`, the list the days still to visit. -/
def streakDays : Int → List Int → Nat
  | _, [] => 0
  | c, d :: ds => if c - d ≤ 1 then streakDays (d - 1) ds + 1 else 0

/-- The `n` consecutive calendar days ending at day `s`, most recent first. -/
def daysEndingAt (s : Int) : Nat → List Int
  | 0 => []
  | n + 1 => s :: daysEndingAt (s - 1) n

/-- What `innerLoop` adds to `tempStreak`, read on calendar days. -/
def runDays : Int → List Int → Nat
  | _, [] => 0
  | prev, x :: rest => if x - prev ≤ 1 then runDays x rest + 1 else 0

/-- What `outerLoop` computes, read on calendar days. -/
def longestDays : List Int → Nat
  | [] => 0
  | x :: rest => max (runDays x rest + 1) (longestDays rest)

/-! ## Progress summary and nutrition breakdown (`progress.js`) -/

/-- A document of `workoutSchema`. -/
structure Workout where
  id : Nat
  userId : Nat
  date : Int
  name : String
  type : String
  duration : ℚ
  calories : ℚ
  notes : Option String
  deriving DecidableEq, Repr

/-- `d.toISOString().split('T')[0]`: the UTC date of a time value, held as the
index of the UTC day (the text `YYYY-MM-DD` is an injective function of it). -/
def dateKey (t : Int) : Int := t / msPerDay

/-- `d.setDate(d.getDate() + n)` on a clock that keeps one offset: the same
local time `n` days, `n` times 24 hours, later. -/
def setDateAdd (t n : Int) : Int := t + n * msPerDay

/-- Year, month (1 to 12) and day of the month of the day with index `z` (days
since 1970-01-01), proleptic Gregorian calendar: `YearFromTime`,
`MonthFromTime + 1` and `DateFromTime` of ECMAScript.  The day is counted from
1 March of year 0 and split into cycles of 400, 100, 4 and 1 years (years
beginning in March, so that the leap day ends a cycle). -/
def civilFromDays (z : Int) : Int × Int × Int :=
  let z := z + 719468
  let era := z / 146097
  let doe := z % 146097
  let c := if doe / 36524 = 4 then 3 else doe / 36524
  let r1 := doe - c * 36524
  let q := r1 / 1461
  let r2 := r1 - q * 1461
  let yr := if r2 / 365 = 4 then 3 else r2 / 365
  let doy := r2 - yr * 365
  let y := era * 400 + c * 100 + q * 4 + yr
  let mp := (5 * doy + 2) / 153
  let d := doy - (153 * mp + 2) / 5 + 1
  let m := if mp < 10 then mp + 3 else mp - 9
  (if m ≤ 2 then y + 1 else y, m, d)

/-- Index of the day `d` of month `m` (1 to 12) of year `y`; `d` may lie
outside the month, as in `MakeDay` of ECMAScript. -/
def daysFromCivil (y m d : Int) : Int :=
  let y := if m ≤ 2 then y - 1 else y
  let era := y / 400
  let yoe := y - era * 400
  let doy := (153 * (if m > 2 then m - 3 else m + 9) + 2) / 5 + d - 1
  let doe := yoe * 365 + yoe / 4 - yoe / 100 + doy
  era * 146097 + doe - 719468

/-- `MakeDay(year, month - 1, date)` for the date of the day with index `day`:
the day of the month before with the same number, which runs over into the
next month when that month is shorter. -/
def prevMonthDay (day : Int) : Int :=
  let c := civilFromDays day
  let first := if c.2.1 = 1 then daysFromCivil (c.1 - 1) 12 1 else daysFromCivil c.1 (c.2.1 - 1) 1
  first + (c.2.2 - 1)

/-- `d.setMonth(d.getMonth() - 1)` on a clock that keeps the offset `tz`: the
same local time on `prevMonthDay` of the local day. -/
def setMonthPrev (tz t : Int) : Int :=
  prevMonthDay ((t + tz) / msPerDay) * msPerDay + (t + tz) % msPerDay - tz

/-- The `switch (period)` of `/summary` (lines 16-35) on a clock that keeps the
offset `tz`: `startDate`. -/
def summaryStart (tz now : Int) (period : String) : Int :=
  if period = "day" then setHoursZero tz now
  else if period = "week" then setHoursZero tz (setDateAdd now (-7))
  else if period = "month" then setHoursZero tz (setMonthPrev tz now)
  else setHoursZero tz (setDateAdd now (-7))

/-- The `switch (period)` of `/nutrition` (lines 129-145) on a clock that keeps
the offset `tz`: `startDate`. -/
def nutritionStart (tz now : Int) (period : String) : Int :=
  if period = "day" then setHoursZero tz now
  else if period = "week" then setDateAdd now (-7)
  else if period = "month" then setMonthPrev tz now
  else setDateAdd now (-7)

/-- `Workout.find({ userId, date: { $gte: startDate, $lte: endDate } })`. -/
def findWorkoutsBetween (userId : Nat) (startDate endDate : Int) (db : List Workout) :
    List Workout :=
  db.filter (fun w => decide (w.userId = userId ∧ startDate ≤ w.date ∧ w.date ≤ endDate))

/-- `Meal.find({ userId, date: { $gte: startDate, $lte: endDate } })`. -/
def findMealsBetween (userId : Nat) (startDate endDate : Int) (db : List Meal) : List Meal :=
  db.filter (fun m => decide (m.userId = userId ∧ startDate ≤ m.date ∧ m.date ≤ endDate))

/-- An entry of `dailyData`. -/
structure DayBucket where
  date : Int
  caloriesBurned : ℚ
  caloriesConsumed : ℚ
  workoutCount : Nat
  mealCount : Nat
  netCalories : ℚ
  deriving DecidableEq, Repr

/-- The object literal of lines 56-63. -/
def emptyBucket (key : Int) : DayBucket :=
  { date := key
    caloriesBurned := 0
    caloriesConsumed := 0
    workoutCount := 0
    mealCount := 0
    netCalories := 0 }

/-- `dailyData[b.date] = b` on an object held as the list of its values in key
order: an existing key keeps its place. -/
def setBucket : List DayBucket → DayBucket → List DayBucket
  | [], b => [b]
  | x :: rest, b => if x.date = b.date then b :: rest else x :: setBucket rest b

/-- The `while (currentDate <= endDate)` loop of lines 54-65 on a clock that
keeps one offset; the first argument bounds the number of iterations. -/
def initDates : Nat → Int → Int → List DayBucket → List DayBucket
  | 0, _, _, dailyData => dailyData
  | fuel + 1, currentDate, endDate, dailyData =>
    if currentDate ≤ endDate then
      initDates fuel (setDateAdd currentDate 1) endDate
        (setBucket dailyData (emptyBucket (dateKey currentDate)))
    else
      dailyData

/-- The callback of `workouts.forEach` (lines 68-74). -/
def addWorkout (dailyData : List DayBucket) (workout : Workout) : List DayBucket :=
  dailyData.map (fun day =>
    if day.date = dateKey workout.date then
      { day with
        caloriesBurned := day.caloriesBurned + workout.calories
        workoutCount := day.workoutCount + 1 }
    else day)

/-- The callback of `meals.forEach` (lines 77-83). -/
def addMeal (dailyData : List DayBucket) (meal : Meal) : List DayBucket :=
  dailyData.map (fun day =>
    if day.date = dateKey meal.date then
      { day with
        caloriesConsumed := day.caloriesConsumed + meal.totalCalories
        mealCount := day.mealCount + 1 }
    else day)

/-- The callback of lines 86-88. -/
def setNet (day : DayBucket) : DayBucket :=
  { day with netCalories := day.caloriesConsumed - day.caloriesBurned }

/-- `Math.round(a / b)`; `none` when the quotient is `NaN` or infinite (the
field is then `null` in the JSON answer). -/
def roundDiv (a b : ℚ) : Option Int :=
  if b = 0 then none else some ⌊a / b + 1 / 2⌋

/-- The object `totals` of `/summary`. -/
structure SummaryTotals where
  totalCaloriesBurned : ℚ
  totalCaloriesConsumed : ℚ
  totalWorkouts : Nat
  totalMeals : Nat
  netCalories : ℚ
  averageCaloriesBurned : Option Int
  averageCaloriesConsumed : Option Int
  deriving DecidableEq, Repr

/-- The JSON body answered by `/summary`. -/
structure SummaryResponse where
  period : String
  startDate : Int
  endDate : Int
  dailyData : List DayBucket
  totals : SummaryTotals
  deriving DecidableEq, Repr

/-- The buckets of `/summary` after lines 49-88, for the fetched records. -/
def dailyDataOf (startDate endDate : Int) (workouts : List Workout) (meals : List Meal) :
    List DayBucket :=
  let init := initDates ((endDate - startDate).toNat + 1) startDate endDate []
  ((meals.foldl addMeal (workouts.foldl addWorkout init)).map setNet)

/-- The handler `router.get('/summary')` on a server clock that keeps the
offset `tz`: `query` is `req.query.period`, `workoutDb` and `mealDb` the two
collections (`progressSummaryIn` takes a zone with changes of offset). -/
def progressSummary (tz now : Int) (userId : Nat) (query : Option String)
    (workoutDb : List Workout) (mealDb : List Meal) : SummaryResponse :=
  let period := query.getD "week"
  let endDate := now
  let startDate := summaryStart tz now period
  let workouts := (findWorkoutsBetween userId startDate endDate workoutDb).insertionSort
    (fun a b => a.date ≤ b.date)
  let meals := (findMealsBetween userId startDate endDate mealDb).insertionSort
    (fun a b => a.date ≤ b.date)
  let dailyData := dailyDataOf startDate endDate workouts meals
  let totalCaloriesBurned := dailyData.foldl (fun acc day => acc + day.caloriesBurned) 0
  let totalCaloriesConsumed := dailyData.foldl (fun acc day => acc + day.caloriesConsumed) 0
  let totalWorkouts := dailyData.foldl (fun acc day => acc + day.workoutCount) 0
  let totalMeals := dailyData.foldl (fun acc day => acc + day.mealCount) 0
  { period := period
    startDate := startDate
    endDate := endDate
    dailyData := dailyData
    totals :=
      { totalCaloriesBurned := totalCaloriesBurned
        totalCaloriesConsumed := totalCaloriesConsumed
        totalWorkouts := totalWorkouts
        totalMeals := totalMeals
        netCalories := totalCaloriesConsumed - totalCaloriesBurned
        averageCaloriesBurned := roundDiv totalCaloriesBurned dailyData.length
        averageCaloriesConsumed := roundDiv totalCaloriesConsumed dailyData.length } }

/-- The object `nutritionTotals`. -/
structure NutritionTotals where
  calories : ℚ
  protein : ℚ
  carbs : ℚ
  fats : ℚ
  deriving DecidableEq, Repr

/-- The object `averages` of `/nutrition`. -/
structure NutritionAverages where
  calories : Option Int
  protein : Option Int
  carbs : Option Int
  fats : Option Int
  deriving DecidableEq, Repr

/-- The JSON body answered by `/nutrition`. -/
structure NutritionResponse where
  period : String
  totals : NutritionTotals
  averages : NutritionAverages
  mealCount : Nat
  deriving DecidableEq, Repr

/-- `Math.ceil((endDate - startDate) / (1000 * 60 * 60 * 24))`. -/
def ceilDays (endDate startDate : Int) : Int := -((startDate - endDate) / msPerDay)

/-- The handler `router.get('/nutrition')` on a server clock that keeps the
offset `tz` (`nutritionBreakdownIn` takes a zone with changes of offset). -/
def nutritionBreakdown (tz now : Int) (userId : Nat) (query : Option String)
    (mealDb : List Meal) : NutritionResponse :=
  let period := query.getD "week"
  let endDate := now
  let startDate := nutritionStart tz now period
  let meals := findMealsBetween userId startDate endDate mealDb
  let nutritionTotals : NutritionTotals :=
    meals.foldl (fun acc meal =>
      { calories := acc.calories + meal.totalCalories
        protein := acc.protein + meal.totalProtein
        carbs := acc.carbs + meal.totalCarbs
        fats := acc.fats + meal.totalFats })
      { calories := 0, protein := 0, carbs := 0, fats := 0 }
  let days := ceilDays endDate startDate
  { period := period
    totals := nutritionTotals
    averages :=
      { calories := roundDiv nutritionTotals.calories days
        protein := roundDiv nutritionTotals.protein days
        carbs := roundDiv nutritionTotals.carbs days
        fats := roundDiv nutritionTotals.fats days }
    mealCount := meals.length }

/-- A stored workout of user `userId` at `date` that burned `calories`. -/
def runAt (userId : Nat) (date : Int) (calories : ℚ) : Workout :=
  { id := 1, userId := userId, date := date, name := "run", type := "cardio", duration := 30,
    calories := calories, notes := none }

/-- A stored meal of user `userId` at `date`, of one item with quantity 1. -/
def mealAt (userId : Nat) (date : Int) (calories protein : ℚ) : Meal :=
  { id := 1, userId := userId, date := date, mealType := "lunch",
    items := [{ name := "dal", calories := calories, protein := protein, carbs := 0, fats := 0,
                quantity := 1, unit := "serving" }],
    totalCalories := calories, totalProtein := protein, totalCarbs := 0, totalFats := 0 }

/-- The UTC day indices `k, k + 1, ...` of `n` consecutive buckets. -/
def dayKeys (k : Int) : Nat → List Int
  | 0 => []
  | n + 1 => k :: dayKeys (k + 1) n

/-! ## Exercise instructions (`workouts.js`, lines 8-132) -/

/-- Lower-casing of the letters `A` to `Z`, the other characters kept: the
value of `String.prototype.toLowerCase` on a string of ASCII characters. -/
def asciiLowerCase (s : String) : String := String.mk (s.data.map Char.toLower)

/-- The string holds ASCII characters only. -/
def isAscii (s : String) : Bool := s.data.all (fun c => decide (c.toNat < 128))

/-- `String.prototype.toUpperCase` on a string of ASCII characters and dotless
i's (U+0131, whose upper case is `I`); `none` for a string with another
character, which this table does not cover. -/
def toUpperCase (s : String) : Option String :=
  if s.data.all (fun c => decide (c.toNat < 128) || decide (c.toNat = 305)) then
    some (String.mk (s.data.map (fun c => if c.toNat = 305 then 'I' else c.toUpper)))
  else
    none

/-- `s.includes(sub)`: `sub` occurs in `s`. -/
def includes (s sub : String) : Bool :=
  s.data.tails.any (fun t => sub.data.isPrefixOf t)

/-- The object `exerciseInstructions`: the types in key order, each with its
exercises in key order. -/
def exerciseInstructions : List (String × List (String × List String)) :=
  [("cardio",
      [("running",
          ["Start with a 5-minute warm-up walk",
           "Begin jogging at a comfortable pace",
           "Maintain steady breathing rhythm",
           "Keep your posture upright",
           "Land on the balls of your feet",
           "Cool down with a 5-minute walk",
           "Stretch your calves and hamstrings"]),
       ("cycling",
          ["Adjust bike seat to hip height",
           "Start with easy pedaling for 5 minutes",
           "Maintain 80-100 RPM cadence",
           "Keep your core engaged",
           "Alternate between sitting and standing",
           "Cool down with easy pedaling",
           "Stretch your quads and hip flexors"]),
       ("swimming",
          ["Start with 5 minutes of easy swimming",
           "Focus on proper breathing technique",
           "Keep your body horizontal in water",
           "Use long, smooth strokes",
           "Alternate between different strokes",
           "Cool down with easy backstroke",
           "Stretch shoulders and back"])]),
   ("strength",
      [("push-ups",
          ["Start in plank position",
           "Place hands slightly wider than shoulders",
           "Keep your body in straight line",
           "Lower chest to ground",
           "Push back up to starting position",
           "Keep core tight throughout",
           "Breathe in down, breathe out up"]),
       ("squats",
          ["Stand with feet shoulder-width apart",
           "Keep your chest up and core tight",
           "Lower by pushing hips back",
           "Go down until thighs are parallel",
           "Push through heels to stand up",
           "Keep knees aligned with toes",
           "Squeeze glutes at the top"]),
       ("deadlifts",
          ["Stand with feet hip-width apart",
           "Grip bar with hands outside legs",
           "Keep back straight and chest up",
           "Lift by extending hips and knees",
           "Keep bar close to your body",
           "Stand tall at the top",
           "Lower with control"])]),
   ("flexibility",
      [("yoga",
          ["Start with deep breathing exercises",
           "Begin with gentle warm-up poses",
           "Hold each pose for 5-8 breaths",
           "Focus on proper alignment",
           "Listen to your body",
           "Transition slowly between poses",
           "End with relaxation pose"]),
       ("stretching",
          ["Warm up with light movement",
           "Hold each stretch for 30 seconds",
           "Breathe deeply and relax",
           "Never force a stretch",
           "Feel gentle tension, not pain",
           "Stretch both sides equally",
           "Cool down gradually"])]),
   ("sports",
      [("basketball",
          ["Warm up with light dribbling",
           "Practice shooting form",
           "Focus on footwork",
           "Play at game intensity",
           "Stay hydrated throughout",
           "Cool down with free throws",
           "Stretch arms and legs"]),
       ("tennis",
          ["Start with gentle rallying",
           "Work on different strokes",
           "Focus on footwork and positioning",
           "Practice serving technique",
           "Play points or games",
           "Cool down with easy hitting",
           "Stretch shoulders and wrists"])])]

/-- The array of lines 123-131. -/
def defaultSteps : List String :=
  ["Start with a proper warm-up",
   "Focus on correct form and technique",
   "Maintain steady breathing throughout",
   "Listen to your body and adjust intensity",
   "Stay hydrated during the workout",
   "Cool down with light activity",
   "Finish with appropriate stretching"]

/-- The `for ... of Object.entries(...)` loop of lines 115-119 over the entries
still to visit: the steps returned, if any. -/
def findSteps (normalizedName : String) : List (String × List String) → Option (List String)
  | [] => none
  | (exerciseName, steps) :: rest =>
    if includes normalizedName exerciseName || includes exerciseName normalizedName then
      some steps
    else
      findSteps normalizedName rest

/-- The function `getExerciseSteps`; its first argument is
`String.prototype.toLowerCase`, the lower-casing of the language, which the
function takes from outside the repository.  A `type` that is no key of the
table (also the name of a property of `Object.prototype`, which has no own
enumerable entries) gives the default steps. -/
def getExerciseSteps (toLowerCase : String → String) (type name : String) : List String :=
  let normalizedType := toLowerCase type
  let normalizedName := toLowerCase name
  match exerciseInstructions.lookup normalizedType with
  | some exercises =>
    match findSteps normalizedName exercises with
    | some steps => steps
    | none => defaultSteps
  | none => defaultSteps

/-! ## Workouts (`workouts.js`, `Workout.js`) -/

/-- The `enum` of `type`. -/
def workoutTypes : List String := ["cardio", "strength", "flexibility", "sports", "other"]

/-- A numeric field of a request body as the handlers read it: `falsy` when
`!x` holds (absent, `null`, `0`, `""`), otherwise the value of `parseInt(x)`,
`none` for `NaN`. -/
inductive NumInput where
  | falsy : NumInput
  | parsed (n : Option Int) : NumInput
  deriving DecidableEq, Repr

/-- The body of `POST /workouts` and `PUT /workouts/:id`.  `name` and `type` are
`""` when falsy; `notes` is `none` when `undefined`, otherwise a string. -/
structure WorkoutBody where
  date : Option Int
  name : String
  type : String
  duration : NumInput
  calories : NumInput
  notes : Option String
  deriving DecidableEq, Repr

/-- The answer of a workout handler: the status, the `workout` and the
`exerciseSteps` of the body. -/
structure WorkoutReply where
  status : Nat
  workout : Option Workout
  exerciseSteps : Option (List String)
  deriving DecidableEq, Repr

/-- The validators of `workoutSchema` on a document (`required`, `enum`,
`min`, `maxLength`). -/
def validWorkout (w : Workout) : Bool :=
  decide (w.name ≠ "") && decide (w.type ∈ workoutTypes) && decide (1 ≤ w.duration) &&
    decide (1 ≤ w.calories) &&
    (match w.notes with
     | some n => decide (utf16Length n ≤ 500)
     | none => true)

/-- The handler `router.post('/')` of `workouts.js` on the collection `db`:
`newId` is the `_id` given to the new document, `now` the value of
`new Date()`.  A `NaN` does not cast to `Number`, which fails the validation
of `save()`. -/
def postWorkout (toLowerCase : String → String) (userId newId : Nat) (now : Int)
    (db : List Workout) (body : WorkoutBody) : WorkoutReply × List Workout :=
  match body.duration, body.calories with
  | NumInput.parsed duration, NumInput.parsed calories =>
    if body.name = "" ∨ body.type = "" then
      ({ status := 400, workout := none, exerciseSteps := none }, db)
    else
      match duration, calories with
      | some d, some c =>
        let workout : Workout :=
          { id := newId
            userId := userId
            date := body.date.getD now
            name := trim body.name
            type := body.type
            duration := d
            calories := c
            notes := body.notes.map trim }
        if validWorkout workout then
          ({ status := 201, workout := some workout,
             exerciseSteps := some (getExerciseSteps toLowerCase body.type body.name) }, db ++ [workout])
        else
          ({ status := 400, workout := none, exerciseSteps := none }, db)
      | _, _ => ({ status := 400, workout := none, exerciseSteps := none }, db)
  | _, _ => ({ status := 400, workout := none, exerciseSteps := none }, db)

/-- The object `updateData` of `router.put('/:id')` (lines 272-277): the paths
to set. -/
structure WorkoutUpdate where
  name : Option String
  type : Option String
  duration : Option ℚ
  calories : Option ℚ
  notes : Option String
  deriving DecidableEq, Repr

/-- A value of `NumInput` in `updateData`: `none` when the path is not set. -/
def updateNumber : NumInput → Option ℚ
  | NumInput.parsed (some n) => some (n : ℚ)
  | _ => none

/-- Lines 272-277. -/
def updateDataOf (body : WorkoutBody) : WorkoutUpdate :=
  { name := if body.name = "" then none else some (trim body.name)
    type := if body.type = "" then none else some body.type
    duration := updateNumber body.duration
    calories := updateNumber body.calories
    notes := body.notes.map trim }

/-- The update validators (`runValidators: true`) on the paths of
`updateData`: `required` (a name that is set is not empty), `enum`, `min` and
`maxLength`. -/
def validUpdate (u : WorkoutUpdate) : Bool :=
  (match u.name with
   | some n => decide (n ≠ "")
   | none => true) &&
  (match u.type with
   | some t => decide (t ∈ workoutTypes)
   | none => true) &&
  (match u.duration with
   | some d => decide (1 ≤ d)
   | none => true) &&
  (match u.calories with
   | some c => decide (1 ≤ c)
   | none => true) &&
  (match u.notes with
   | some n => decide (utf16Length n ≤ 500)
   | none => true)

/-- The document `w` with the paths of `u` set. -/
def applyUpdate (u : WorkoutUpdate) (w : Workout) : Workout :=
  { w with
    name := u.name.getD w.name
    type := u.type.getD w.type
    duration := u.duration.getD w.duration
    calories := u.calories.getD w.calories
    notes := match u.notes with
      | some n => some n
      | none => w.notes }

/-- `Workout.findOneAndUpdate({ _id, userId }, updateData, { new: true })` on
the collection. -/
def updateWorkout (id userId : Nat) (u : WorkoutUpdate) :
    List Workout → Option Workout × List Workout
  | [] => (none, [])
  | w :: rest =>
    if w.id = id ∧ w.userId = userId then
      (some (applyUpdate u w), applyUpdate u w :: rest)
    else
      let r := updateWorkout id userId u rest
      (r.1, w :: r.2)

/-- The handler `router.put('/:id')` of `workouts.js`.  A `NaN` in `updateData`
fails the cast of the update (status 500), a failed validator gives 400, both
before the collection is touched. -/
def putWorkout (userId id : Nat) (db : List Workout) (body : WorkoutBody) :
    WorkoutReply × List Workout :=
  if body.duration = NumInput.parsed none ∨ body.calories = NumInput.parsed none then
    ({ status := 500, workout := none, exerciseSteps := none }, db)
  else if validUpdate (updateDataOf body) then
    match updateWorkout id userId (updateDataOf body) db with
    | (none, _) => ({ status := 404, workout := none, exerciseSteps := none }, db)
    | (some workout, db1) => ({ status := 200, workout := some workout, exerciseSteps := none }, db1)
  else
    ({ status := 400, workout := none, exerciseSteps := none }, db)

/-- The handler `router.get('/:id')` of `workouts.js`. -/
def getWorkout (toLowerCase : String → String) (userId id : Nat) (db : List Workout) :
    WorkoutReply :=
  match db.find? (fun w => decide (w.id = id ∧ w.userId = userId)) with
  | none => { status := 404, workout := none, exerciseSteps := none }
  | some workout =>
    { status := 200, workout := some workout,
      exerciseSteps := some (getExerciseSteps toLowerCase workout.type workout.name) }

/-- `Workout.findOneAndDelete({ _id, userId })` on the collection. -/
def removeWorkout (id userId : Nat) : List Workout → Option Workout × List Workout
  | [] => (none, [])
  | w :: rest =>
    if w.id = id ∧ w.userId = userId then (some w, rest)
    else
      let r := removeWorkout id userId rest
      (r.1, w :: r.2)

/-- The handler `router.delete('/:id')` of `workouts.js`: the status and the
collection. -/
def deleteWorkout (userId id : Nat) (db : List Workout) : Nat × List Workout :=
  match removeWorkout id userId db with
  | (none, _) => (404, db)
  | (some _, db1) => (200, db1)

/-- The query of `GET /workouts` and `GET /meals`: the optional bounds and
type of `req.query`, and `limit` and `skip` after `parseInt`. -/
structure ListQuery where
  startDate : Option Int
  endDate : Option Int
  type : Option String
  limit : Nat
  skip : Nat
  deriving DecidableEq, Repr

/-- The test of `query.date` of a list handler. -/
def inListRange (q : ListQuery) (date : Int) : Bool :=
  (match q.startDate with
   | some s => decide (s ≤ date)
   | none => true) &&
  (match q.endDate with
   | some e => decide (date ≤ e)
   | none => true)

/-- `.limit(n)` of a cursor: `0` is no limit. -/
def limitTo {α : Type} (n : Nat) (l : List α) : List α :=
  if n = 0 then l else l.take n

/-- The answer of `GET /workouts`. -/
structure WorkoutList where
  workouts : List Workout
  totalCount : Nat
  hasMore : Bool
  deriving DecidableEq, Repr

/-- The handler `router.get('/')` of `workouts.js`. -/
def listWorkouts (userId : Nat) (q : ListQuery) (db : List Workout) : WorkoutList :=
  let found := db.filter (fun w => decide (w.userId = userId) && inListRange q w.date &&
    (match q.type with
     | some t => decide (w.type = t)
     | none => true))
  let sorted := found.insertionSort (fun a b => a.date ≥ b.date)
  { workouts := limitTo q.limit (sorted.drop q.skip)
    totalCount := found.length
    hasMore := decide (q.skip + q.limit < found.length) }

/-! ## Meals: read, list and delete (`meals.js`) -/

/-- The handler `router.get('/:id')` of `meals.js`. -/
def getMeal (userId id : Nat) (db : List Meal) : MealReply :=
  match db.find? (fun m => decide (m.id = id ∧ m.userId = userId)) with
  | none => { status := 404, meal := none }
  | some meal => { status := 200, meal := some meal }

/-- `Meal.findOneAndDelete({ _id, userId })` on the collection. -/
def removeMeal (id userId : Nat) : List Meal → Option Meal × List Meal
  | [] => (none, [])
  | m :: rest =>
    if m.id = id ∧ m.userId = userId then (some m, rest)
    else
      let r := removeMeal id userId rest
      (r.1, m :: r.2)

/-- The handler `router.delete('/:id')` of `meals.js`: the status and the
collection. -/
def deleteMeal (userId id : Nat) (db : List Meal) : Nat × List Meal :=
  match removeMeal id userId db with
  | (none, _) => (404, db)
  | (some _, db1) => (200, db1)

/-- The answer of `GET /meals`. -/
structure MealList where
  meals : List Meal
  totalCount : Nat
  hasMore : Bool
  deriving DecidableEq, Repr

/-- The handler `router.get('/')` of `meals.js`; `q.type` is `mealType`. -/
def listMeals (userId : Nat) (q : ListQuery) (db : List Meal) : MealList :=
  let found := db.filter (fun m => decide (m.userId = userId) && inListRange q m.date &&
    (match q.type with
     | some t => decide (m.mealType = t)
     | none => true))
  let sorted := found.insertionSort (fun a b => a.date ≥ b.date)
  { meals := limitTo q.limit (sorted.drop q.skip)
    totalCount := found.length
    hasMore := decide (q.skip + q.limit < found.length) }

/-! ## Stats, workout analytics and the streak of a user -/

/-- `m[type] = (m[type] || 0) + 1` on an object held as the list of its
entries in key order.  The keys are workout types (the `enum` of the schema),
none of which names a property of `Object.prototype`. -/
def countType : List (String × Nat) → String → List (String × Nat)
  | [], t => [(t, 1)]
  | (k, v) :: rest, t => if k = t then (k, v + 1) :: rest else (k, v) :: countType rest t

/-- The `forEach` that fills `typeDistribution` / `stats.workoutTypes`. -/
def typeCounts (workouts : List Workout) : List (String × Nat) :=
  workouts.foldl (fun m w => countType m w.type) []

/-- The JSON body answered by `/stats`. -/
structure StatsResponse where
  totalWorkouts : Nat
  totalCaloriesBurned : ℚ
  totalDuration : ℚ
  averageCaloriesPerWorkout : Option Int
  averageDurationPerWorkout : Option Int
  workoutTypes : List (String × Nat)
  deriving DecidableEq, Repr

/-- The handler `router.get('/stats')` of `extras.js`. -/
def workoutStats (now : Int) (userId : Nat) (db : List Workout) : StatsResponse :=
  let thirtyDaysAgo := setDateAdd now (-30)
  let workouts := db.filter (fun w => decide (w.userId = userId ∧ thirtyDaysAgo ≤ w.date))
  { totalWorkouts := workouts.length
    totalCaloriesBurned := workouts.foldl (fun sum w => sum + w.calories) 0
    totalDuration := workouts.foldl (fun sum w => sum + w.duration) 0
    averageCaloriesPerWorkout :=
      if workouts.length > 0 then
        roundDiv (workouts.foldl (fun sum w => sum + w.calories) 0) workouts.length
      else some 0
    averageDurationPerWorkout :=
      if workouts.length > 0 then
        roundDiv (workouts.foldl (fun sum w => sum + w.duration) 0) workouts.length
      else some 0
    workoutTypes := typeCounts workouts }

/-- `MakeDay(year - 1, month, date)` for the date of the day with index `day`. -/
def prevYearDay (day : Int) : Int :=
  let c := civilFromDays day
  daysFromCivil (c.1 - 1) c.2.1 1 + (c.2.2 - 1)

/-- `d.setFullYear(d.getFullYear() - 1)`: the same local time on `prevYearDay`
of the local day. -/
def setYearPrev (tz t : Int) : Int :=
  prevYearDay ((t + tz) / msPerDay) * msPerDay + (t + tz) % msPerDay - tz

/-- The `switch (period)` of `/workouts` (lines 193-209): `startDate`. -/
def analyticsStart (tz now : Int) (period : String) : Int :=
  if period = "week" then setDateAdd now (-7)
  else if period = "month" then setMonthPrev tz now
  else if period = "year" then setYearPrev tz now
  else setMonthPrev tz now

/-- `d.getDay()`: the local day of the week, 0 for Sunday (1 January 1970 was
a Thursday). -/
def getDay (tz t : Int) : Int := (dayOf tz t + 4) % 7

/-- An entry of `weeklyData`. -/
structure WeekBucket where
  week : Int
  workouts : Nat
  totalCalories : ℚ
  totalDuration : ℚ
  deriving DecidableEq, Repr

/-- Lines 229-240 for the key `weekKey` on an object held as the list of its
values in key order: an entry is created when missing and then updated. -/
def addToWeek (workout : Workout) (weekKey : Int) : List WeekBucket → List WeekBucket
  | [] =>
    [{ week := weekKey, workouts := 0 + 1, totalCalories := 0 + workout.calories,
       totalDuration := 0 + workout.duration }]
  | b :: rest =>
    if b.week = weekKey then
      { b with
        workouts := b.workouts + 1
        totalCalories := b.totalCalories + workout.calories
        totalDuration := b.totalDuration + workout.duration } :: rest
    else b :: addToWeek workout weekKey rest

/-- The callback of the second `workouts.forEach` (lines 224-241). -/
def addWeekly (tz : Int) (weeklyData : List WeekBucket) (workout : Workout) : List WeekBucket :=
  let weekStart := setDateAdd workout.date (-(getDay tz workout.date))
  addToWeek workout (dateKey weekStart) weeklyData

/-- The object `totals` of `/workouts`. -/
structure AnalyticsTotals where
  totalWorkouts : Nat
  totalCalories : ℚ
  totalDuration : ℚ
  deriving DecidableEq, Repr

/-- The JSON body answered by `/workouts`. -/
structure AnalyticsResponse where
  period : String
  totals : AnalyticsTotals
  typeDistribution : List (String × Nat)
  weeklyTrends : List WeekBucket
  averageCaloriesPerWorkout : Option Int
  averageDurationPerWorkout : Option Int
  deriving DecidableEq, Repr

/-- The handler `router.get('/workouts')` of `progress.js`. -/
def workoutAnalytics (tz now : Int) (userId : Nat) (query : Option String)
    (db : List Workout) : AnalyticsResponse :=
  let period := query.getD "month"
  let endDate := now
  let startDate := analyticsStart tz now period
  let workouts := findWorkoutsBetween userId startDate endDate db
  let totals : AnalyticsTotals :=
    workouts.foldl (fun acc workout =>
      { totalWorkouts := acc.totalWorkouts + 1
        totalCalories := acc.totalCalories + workout.calories
        totalDuration := acc.totalDuration + workout.duration })
      { totalWorkouts := 0, totalCalories := 0, totalDuration := 0 }
  { period := period
    totals := totals
    typeDistribution := typeCounts workouts
    weeklyTrends := (workouts.foldl (addWeekly tz) []).insertionSort (fun a b => a.week ≤ b.week)
    averageCaloriesPerWorkout :=
      if totals.totalWorkouts > 0 then roundDiv totals.totalCalories totals.totalWorkouts
      else some 0
    averageDurationPerWorkout :=
      if totals.totalWorkouts > 0 then roundDiv totals.totalDuration totals.totalWorkouts
      else some 0 }

/-- The handler `/streak` on the collection: the dates of the workouts of the
user are fetched and passed to `streak`. -/
def streakOf (tz now : Int) (userId : Nat) (db : List Workout) : StreakResponse :=
  streak tz now ((db.filter (fun w => decide (w.userId = userId))).map Workout.date)

/-- The meal of the example of the specification: 100 calories at quantity 2
and 50 calories at quantity 1, before the totals are derived. -/
def exampleMeal : Meal :=
  { id := 1, userId := 1, date := 0, mealType := "lunch",
    items :=
      [{ name := "rice", calories := 100, protein := 2, carbs := 22, fats := 0, quantity := 2,
         unit := "serving" },
       { name := "dal", calories := 50, protein := 3, carbs := 8, fats := 1, quantity := 1,
         unit := "serving" }],
    totalCalories := 0, totalProtein := 0, totalCarbs := 0, totalFats := 0 }

/-- The invariant of a stored workout: its type is one of the five types, its
duration and its calories are positive. -/
def StoredWorkoutOk (w : Workout) : Prop :=
  w.type ∈ workoutTypes ∧ 0 < w.duration ∧ 0 < w.calories

/-- The invariant of a stored food item: no negative value and a positive
quantity. -/
def StoredItemOk (i : FoodItem) : Prop :=
  0 ≤ i.calories ∧ 0 ≤ i.protein ∧ 0 ≤ i.carbs ∧ 0 ≤ i.fats ∧ 0 < i.quantity

/-! ## The time zone of the server

The handlers above take the offset `tz` of a server clock whose zone keeps one
offset.  The definitions of this section take the zone of the server with its
changes of offset (daylight-saving time); on a zone without changes they are
the definitions above. -/

/-- A time zone: the offset `base` (milliseconds, local = UTC + offset) in force
before the first change, and the changes of offset in ascending order, each
with the time value of the change and the offset from then on. -/
structure Zone where
  base : Int
  changes : List (Int × Int)
  deriving DecidableEq, Repr

/-- The offset in force at the time value `t`: `cur` until the first of the
changes still ahead. -/
def offsetFrom : Int → List (Int × Int) → Int → Int
  | cur, [], _ => cur
  | cur, c :: rest, t => if c.1 ≤ t then offsetFrom c.2 rest t else cur

/-- The offset of the local time `t`: a local time that a change skips or
repeats is read with the offset before the change, as in `UTC(t)` of
ECMAScript. -/
def localOffsetFrom : Int → List (Int × Int) → Int → Int
  | cur, [], _ => cur
  | cur, c :: rest, t => if c.1 + max cur c.2 ≤ t then localOffsetFrom c.2 rest t else cur

/-- `LocalTime(t)` of ECMAScript. -/
def localTime (z : Zone) (t : Int) : Int := t + offsetFrom z.base z.changes t

/-- `UTC(t)` of ECMAScript. -/
def utcOf (z : Zone) (t : Int) : Int := t - localOffsetFrom z.base z.changes t

/-- Index of the local calendar day of a time value. -/
def localDay (z : Zone) (t : Int) : Int := localTime z t / msPerDay

/-- `d.setHours(0, 0, 0, 0)`: `UTC(MakeDate(Day(LocalTime(t)), 0))`, the local
midnight of the local day of `t`. -/
def setHoursZeroIn (z : Zone) (t : Int) : Int :=
  utcOf z (localTime z t - localTime z t % msPerDay)

/-- `d.setDate(d.getDate() + n)`: the local time of day of `t` on the local day
`n` days later. -/
def setDateAddIn (z : Zone) (t n : Int) : Int :=
  utcOf z (localTime z t + n * msPerDay)

/-- `d.setMonth(d.getMonth() - 1)`: the local time of day of `t` on
`prevMonthDay` of the local day. -/
def setMonthPrevIn (z : Zone) (t : Int) : Int :=
  utcOf z (prevMonthDay (localTime z t / msPerDay) * msPerDay + localTime z t % msPerDay)

/-- The zone of a server clock that keeps the offset `tz`. -/
def fixedZone (tz : Int) : Zone := { base := tz, changes := [] }

/-- The zone America/New_York over the year 2024: UTC-5, UTC-4 from 10 March
07:00 UTC, UTC-5 again from 3 November 06:00 UTC. -/
def newYork : Zone :=
  { base := -18000000, changes := [(1710054000000, -14400000), (1730613600000, -18000000)] }

/-- The zone Europe/London over the year 2024: UTC, UTC+1 from 31 March 01:00
UTC, UTC again from 27 October 01:00 UTC. -/
def london : Zone :=
  { base := 0, changes := [(1711846800000, 3600000), (1729990800000, 0)] }

/-- The `forEach` of lines 69-74 of `extras.js` in the zone `z`. -/
def workoutDatesIn (z : Zone) (workouts : List Int) : List Int :=
  workouts.foldl (fun s w => setAdd s (setHoursZeroIn z w)) []

/-- `Array.from(workoutDates).map(date => new Date(date)).sort((a, b) => b - a)`
in the zone `z`. -/
def sortedDatesIn (z : Zone) (workouts : List Int) : List Int :=
  (workoutDatesIn z workouts).insertionSort (· ≥ ·)

/-- The `for ... of sortedDates` loop of lines 82-92 in the zone `z`. -/
def currentStreakLoopIn (z : Zone) : Int → List Int → Nat → Nat
  | _, [], currentStreak => currentStreak
  | checkDate, workoutDate :: rest, currentStreak =>
    if daysDiff checkDate workoutDate ≤ 1 then
      currentStreakLoopIn z (setDateAddIn z workoutDate (-1)) rest (currentStreak + 1)
    else
      currentStreak

/-- The handler `router.get('/streak')` on a server in the zone `z`. -/
def streakIn (z : Zone) (now : Int) (stored : List Int) : StreakResponse :=
  match findWorkouts stored with
  | [] =>
    { currentStreak := 0
      longestStreak := 0
      lastWorkoutDate := none
      daysSinceLastWorkout := none
      totalWorkouts := none
      message := "Start your fitness journey today!" }
  | lastWorkoutDate :: more =>
    let workouts := lastWorkoutDate :: more
    let today := setHoursZeroIn z now
    let sorted := sortedDatesIn z workouts
    let currentStreak := currentStreakLoopIn z today sorted 0
    let allDates := sorted.reverse
    let longestStreak := outerLoop allDates 0
    let daysSinceLastWorkout := daysDiff today lastWorkoutDate
    { currentStreak := currentStreak
      longestStreak := longestStreak
      lastWorkoutDate := some lastWorkoutDate
      daysSinceLastWorkout := some daysSinceLastWorkout
      totalWorkouts := some workouts.length
      message := streakMessage currentStreak daysSinceLastWorkout }

/-- The `switch (period)` of `/summary` in the zone `z`: `startDate`. -/
def summaryStartIn (z : Zone) (now : Int) (period : String) : Int :=
  if period = "day" then setHoursZeroIn z now
  else if period = "week" then setHoursZeroIn z (setDateAddIn z now (-7))
  else if period = "month" then setHoursZeroIn z (setMonthPrevIn z now)
  else setHoursZeroIn z (setDateAddIn z now (-7))

/-- The `switch (period)` of `/nutrition` in the zone `z`: `startDate`. -/
def nutritionStartIn (z : Zone) (now : Int) (period : String) : Int :=
  if period = "day" then setHoursZeroIn z now
  else if period = "week" then setDateAddIn z now (-7)
  else if period = "month" then setMonthPrevIn z now
  else setDateAddIn z now (-7)

/-- The `while (currentDate <= endDate)` loop of lines 54-65 of `progress.js`
in the zone `z`; the first argument bounds the number of iterations. -/
def initDatesIn (z : Zone) : Nat → Int → Int → List DayBucket → List DayBucket
  | 0, _, _, dailyData => dailyData
  | fuel + 1, currentDate, endDate, dailyData =>
    if currentDate ≤ endDate then
      initDatesIn z fuel (setDateAddIn z currentDate 1) endDate
        (setBucket dailyData (emptyBucket (dateKey currentDate)))
    else
      dailyData

/-- The buckets of `/summary` after lines 49-88 in the zone `z`. -/
def dailyDataOfIn (z : Zone) (startDate endDate : Int) (workouts : List Workout)
    (meals : List Meal) : List DayBucket :=
  let init := initDatesIn z ((endDate - startDate).toNat + 1) startDate endDate []
  ((meals.foldl addMeal (workouts.foldl addWorkout init)).map setNet)

/-- The handler `router.get('/summary')` on a server in the zone `z`. -/
def progressSummaryIn (z : Zone) (now : Int) (userId : Nat) (query : Option String)
    (workoutDb : List Workout) (mealDb : List Meal) : SummaryResponse :=
  let period := query.getD "week"
  let endDate := now
  let startDate := summaryStartIn z now period
  let workouts := (findWorkoutsBetween userId startDate endDate workoutDb).insertionSort
    (fun a b => a.date ≤ b.date)
  let meals := (findMealsBetween userId startDate endDate mealDb).insertionSort
    (fun a b => a.date ≤ b.date)
  let dailyData := dailyDataOfIn z startDate endDate workouts meals
  let totalCaloriesBurned := dailyData.foldl (fun acc day => acc + day.caloriesBurned) 0
  let totalCaloriesConsumed := dailyData.foldl (fun acc day => acc + day.caloriesConsumed) 0
  let totalWorkouts := dailyData.foldl (fun acc day => acc + day.workoutCount) 0
  let totalMeals := dailyData.foldl (fun acc day => acc + day.mealCount) 0
  { period := period
    startDate := startDate
    endDate := endDate
    dailyData := dailyData
    totals :=
      { totalCaloriesBurned := totalCaloriesBurned
        totalCaloriesConsumed := totalCaloriesConsumed
        totalWorkouts := totalWorkouts
        totalMeals := totalMeals
        netCalories := totalCaloriesConsumed - totalCaloriesBurned
        averageCaloriesBurned := roundDiv totalCaloriesBurned dailyData.length
        averageCaloriesConsumed := roundDiv totalCaloriesConsumed dailyData.length } }

/-- The handler `router.get('/nutrition')` on a server in the zone `z`. -/
def nutritionBreakdownIn (z : Zone) (now : Int) (userId : Nat) (query : Option String)
    (mealDb : List Meal) : NutritionResponse :=
  let period := query.getD "week"
  let endDate := now
  let startDate := nutritionStartIn z now period
  let meals := findMealsBetween userId startDate endDate mealDb
  let nutritionTotals : NutritionTotals :=
    meals.foldl (fun acc meal =>
      { calories := acc.calories + meal.totalCalories
        protein := acc.protein + meal.totalProtein
        carbs := acc.carbs + meal.totalCarbs
        fats := acc.fats + meal.totalFats })
      { calories := 0, protein := 0, carbs := 0, fats := 0 }
  let days := ceilDays endDate startDate
  { period := period
    totals := nutritionTotals
    averages :=
      { calories := roundDiv nutritionTotals.calories days
        protein := roundDiv nutritionTotals.protein days
        carbs := roundDiv nutritionTotals.carbs days
        fats := roundDiv nutritionTotals.fats days }
    mealCount := meals.length }

/-! ## Arithmetic of days -/

theorem setHoursZero_eq (tz t : Int) : setHoursZero tz t = midnightOf tz (dayOf tz t) := by
  simp only [setHoursZero, midnightOf, dayOf, msPerDay]
  omega

theorem dayOf_midnightOf (tz d : Int) : dayOf tz (midnightOf tz d) = d := by
  simp only [midnightOf, dayOf, msPerDay]
  omega

theorem daysDiff_midnightOf (tz a b : Int) :
    daysDiff (midnightOf tz a) (midnightOf tz b) = a - b := by
  simp only [daysDiff, midnightOf, msPerDay]
  omega

theorem setDatePrev_midnightOf (tz d : Int) :
    setDatePrev (midnightOf tz d) = midnightOf tz (d - 1) := by
  simp only [setDatePrev, midnightOf, msPerDay]
  omega

theorem midnightOf_lt (tz : Int) {a b : Int} (h : midnightOf tz a < midnightOf tz b) : a < b := by
  simp only [midnightOf, msPerDay] at h
  omega

theorem dayOf_mono (tz : Int) {a b : Int} (h : a ≤ b) : dayOf tz a ≤ dayOf tz b := by
  simp only [dayOf, msPerDay]
  omega

/-! ## The set of workout dates and its sorted array -/

theorem mem_setAdd (s : List Int) (x y : Int) : y ∈ setAdd s x ↔ y ∈ s ∨ y = x := by
  unfold setAdd
  split
  · constructor
    · intro h; exact Or.inl h
    · rintro (h | h)
      · exact h
      · subst h; assumption
  · simp

theorem nodup_setAdd (s : List Int) (x : Int) (h : s.Nodup) : (setAdd s x).Nodup := by
  unfold setAdd
  split
  · exact h
  · rename_i hx
    rw [List.nodup_append]
    refine ⟨h, List.nodup_singleton x, ?_⟩
    intro a ha hb
    rw [List.mem_singleton] at hb
    subst hb
    exact hx ha

theorem foldl_setAdd_spec (f : Int → Int) (ws : List Int) :
    ∀ s : List Int, s.Nodup →
      (ws.foldl (fun s w => setAdd s (f w)) s).Nodup ∧
      ∀ y, y ∈ ws.foldl (fun s w => setAdd s (f w)) s ↔ y ∈ s ∨ ∃ w ∈ ws, f w = y := by
  induction ws with
  | nil => intro s hs; simp [hs]
  | cons w ws ih =>
    intro s hs
    obtain ⟨h1, h2⟩ := ih (setAdd s (f w)) (nodup_setAdd s (f w) hs)
    refine ⟨h1, ?_⟩
    intro y
    rw [List.foldl_cons, h2, mem_setAdd]
    constructor
    · rintro ((h | h) | ⟨v, hv, h⟩)
      · exact Or.inl h
      · exact Or.inr ⟨w, List.mem_cons_self _ _, h.symm⟩
      · exact Or.inr ⟨v, List.mem_cons_of_mem _ hv, h⟩
    · rintro (h | ⟨v, hv, h⟩)
      · exact Or.inl (Or.inl h)
      · rcases List.mem_cons.mp hv with rfl | hv
        · exact Or.inl (Or.inr h.symm)
        · exact Or.inr ⟨v, hv, h⟩

theorem nodup_workoutDates (tz : Int) (ws : List Int) : (workoutDates tz ws).Nodup :=
  (foldl_setAdd_spec (setHoursZero tz) ws [] List.nodup_nil).1

theorem mem_workoutDates (tz : Int) (ws : List Int) (y : Int) :
    y ∈ workoutDates tz ws ↔ ∃ w ∈ ws, setHoursZero tz w = y := by
  have h := (foldl_setAdd_spec (setHoursZero tz) ws [] List.nodup_nil).2 y
  simpa using h

theorem mem_findWorkouts (stored : List Int) (w : Int) : w ∈ findWorkouts stored ↔ w ∈ stored :=
  (List.perm_insertionSort _ stored).mem_iff

theorem mem_sortedDates (tz : Int) (ws : List Int) (y : Int) :
    y ∈ sortedDates tz ws ↔ ∃ w ∈ ws, setHoursZero tz w = y := by
  rw [← mem_workoutDates]
  exact (List.perm_insertionSort _ _).mem_iff

theorem sortedDates_sorted (tz : Int) (ws : List Int) :
    (sortedDates tz ws).Sorted (· > ·) := by
  have h1 : (sortedDates tz ws).Sorted (· ≥ ·) := List.sorted_insertionSort _ _
  have h2 : (sortedDates tz ws).Nodup :=
    (List.perm_insertionSort _ _).nodup_iff.mpr (nodup_workoutDates tz ws)
  exact (List.Pairwise.and h1 h2).imp (fun h => lt_of_le_of_ne h.1 (Ne.symm h.2))

theorem mem_workoutDays (tz : Int) (stored : List Int) (d : Int) :
    d ∈ workoutDays tz stored ↔ HasWorkoutOn tz stored d := by
  unfold workoutDays HasWorkoutOn
  rw [List.mem_map]
  constructor
  · rintro ⟨y, hy, rfl⟩
    obtain ⟨w, hw, rfl⟩ := (mem_sortedDates tz _ y).mp hy
    exact ⟨w, (mem_findWorkouts stored w).mp hw, by rw [setHoursZero_eq, dayOf_midnightOf]⟩
  · rintro ⟨w, hw, rfl⟩
    refine ⟨setHoursZero tz w, (mem_sortedDates tz _ _).mpr ⟨w, (mem_findWorkouts stored w).mpr hw, rfl⟩, ?_⟩
    rw [setHoursZero_eq, dayOf_midnightOf]

theorem sortedDates_eq_map (tz : Int) (stored : List Int) :
    sortedDates tz (findWorkouts stored) = (workoutDays tz stored).map (midnightOf tz) := by
  unfold workoutDays
  rw [List.map_map]
  symm
  conv_rhs => rw [← List.map_id (sortedDates tz (findWorkouts stored))]
  apply List.map_congr_left
  intro y hy
  obtain ⟨w, _, rfl⟩ := (mem_sortedDates tz _ y).mp hy
  simp [setHoursZero_eq, dayOf_midnightOf]

theorem workoutDays_sorted (tz : Int) (stored : List Int) :
    (workoutDays tz stored).Sorted (· > ·) := by
  have h := sortedDates_sorted tz (findWorkouts stored)
  rw [sortedDates_eq_map] at h
  unfold List.Sorted at h ⊢
  rw [List.pairwise_map] at h
  exact h.imp (fun h => midnightOf_lt tz h)

/-! ## The loops read on calendar days -/

theorem currentStreakLoop_days (tz : Int) (ds : List Int) :
    ∀ (c : Int) (acc : Nat),
      currentStreakLoop (midnightOf tz c) (ds.map (midnightOf tz)) acc = acc + streakDays c ds := by
  induction ds with
  | nil => intro c acc; simp [currentStreakLoop, streakDays]
  | cons d ds ih =>
    intro c acc
    simp only [List.map_cons, currentStreakLoop, streakDays, daysDiff_midnightOf,
      setDatePrev_midnightOf]
    split
    · rw [ih]; omega
    · rfl

theorem innerLoop_days (tz : Int) (rest : List Int) :
    ∀ (prev : Int) (temp : Nat),
      innerLoop (midnightOf tz prev) (rest.map (midnightOf tz)) temp = temp + runDays prev rest := by
  induction rest with
  | nil => intro prev temp; simp [innerLoop, runDays]
  | cons x rest ih =>
    intro prev temp
    simp only [List.map_cons, innerLoop, runDays, daysDiff_midnightOf]
    split
    · rw [ih]; omega
    · rfl

theorem outerLoop_days (tz : Int) (ds : List Int) :
    ∀ longest : Nat,
      outerLoop (ds.map (midnightOf tz)) longest = max longest (longestDays ds) := by
  induction ds with
  | nil => intro longest; simp [outerLoop, longestDays]
  | cons x rest ih =>
    intro longest
    simp only [List.map_cons, outerLoop, longestDays, innerLoop_days, ih]
    omega

theorem findWorkouts_eq_nil (stored : List Int) (h : findWorkouts stored = []) : stored = [] := by
  have hp := List.perm_insertionSort (· ≥ ·) stored
  unfold findWorkouts at h
  rw [h] at hp
  exact List.Perm.eq_nil hp.symm

theorem workoutDays_nil (tz : Int) : workoutDays tz [] = [] := by
  simp [workoutDays, findWorkouts, sortedDates, workoutDates]

theorem streak_currentStreak (tz now : Int) (stored : List Int) :
    (streak tz now stored).currentStreak = streakDays (dayOf tz now) (workoutDays tz stored) := by
  unfold streak
  split
  · rename_i h
    rw [findWorkouts_eq_nil stored h, workoutDays_nil]
    rfl
  · rename_i w more h
    simp only
    rw [← h, sortedDates_eq_map, setHoursZero_eq, currentStreakLoop_days]
    omega

theorem streak_longestStreak (tz now : Int) (stored : List Int) :
    (streak tz now stored).longestStreak = longestDays (workoutDays tz stored).reverse := by
  unfold streak
  split
  · rename_i h
    rw [findWorkouts_eq_nil stored h, workoutDays_nil]
    rfl
  · rename_i w more h
    simp only
    rw [← h, sortedDates_eq_map, ← List.map_reverse, outerLoop_days]
    omega

/-! ## The current streak as a longest admissible prefix -/

theorem streakUpTo_zero (t : Int) (ds : List Int) : StreakUpTo t ds 0 := by
  refine ⟨Nat.zero_le _, ?_, ?_⟩
  · intro h; omega
  · intro i h; omega

theorem streakUpTo_cons_succ (t d : Int) (ds : List Int) (k : Nat) :
    StreakUpTo t (d :: ds) (k + 1) ↔ t - d ≤ 1 ∧ StreakUpTo (d - 1) ds k := by
  unfold StreakUpTo
  constructor
  · rintro ⟨h1, h2, h3⟩
    refine ⟨?_, ?_, ?_, ?_⟩
    · simpa using h2 (Nat.succ_pos k)
    · simpa using h1
    · intro hk
      have := h3 0 (by omega)
      simp only [List.getD_cons_zero, List.getD_cons_succ] at this
      omega
    · intro i hi
      have := h3 (i + 1) (by omega)
      simpa only [List.getD_cons_succ] using this
  · rintro ⟨h0, h1, h2, h3⟩
    refine ⟨?_, ?_, ?_⟩
    · simpa using h1
    · intro _; simpa using h0
    · intro i hi
      cases i with
      | zero =>
        have := h2 (by omega)
        simp only [List.getD_cons_zero, List.getD_cons_succ]
        omega
      | succ i =>
        have := h3 i (by omega)
        simpa only [List.getD_cons_succ] using this

theorem streakDays_upTo (ds : List Int) : ∀ t : Int, StreakUpTo t ds (streakDays t ds) := by
  induction ds with
  | nil => intro t; exact streakUpTo_zero t []
  | cons d ds ih =>
    intro t
    unfold streakDays
    split
    · rename_i h
      exact (streakUpTo_cons_succ t d ds _).mpr ⟨h, ih (d - 1)⟩
    · exact streakUpTo_zero t _

theorem streakDays_max (ds : List Int) :
    ∀ (t : Int) (j : Nat), StreakUpTo t ds j → j ≤ streakDays t ds := by
  induction ds with
  | nil =>
    intro t j h
    have := h.1
    simp at this
    omega
  | cons d ds ih =>
    intro t j h
    cases j with
    | zero => exact Nat.zero_le _
    | succ j =>
      obtain ⟨h0, h1⟩ := (streakUpTo_cons_succ t d ds j).mp h
      have := ih (d - 1) j h1
      unfold streakDays
      rw [if_pos h0]
      omega

/-! ## The longest streak as a longest run of consecutive days -/

theorem runDays_mem (rest : List Int) :
    ∀ a : Int, (a :: rest).Sorted (· < ·) →
      ∀ i : Nat, i ≤ runDays a rest → a + (i : Int) ∈ a :: rest := by
  induction rest with
  | nil =>
    intro a _ i hi
    simp only [runDays] at hi
    have : i = 0 := by omega
    subst this
    simp
  | cons x r ih =>
    intro a hs i hi
    have hax : a < x := List.rel_of_sorted_cons hs x (List.mem_cons_self _ _)
    cases i with
    | zero => simp
    | succ i =>
      unfold runDays at hi
      split at hi
      · rename_i hx
        have hxa : x = a + 1 := by omega
        have := ih x hs.of_cons i (by omega)
        apply List.mem_cons_of_mem
        have e : a + ((i + 1 : Nat) : Int) = x + (i : Int) := by push_cast; omega
        rw [e]
        exact this
      · omega

theorem run_le_runDays (rest : List Int) :
    ∀ (a : Int) (k : Nat), (a :: rest).Sorted (· < ·) →
      (∀ i : Nat, i < k → a + (i : Int) ∈ a :: rest) → k ≤ runDays a rest + 1 := by
  induction rest with
  | nil =>
    intro a k _ h
    by_contra hk
    have := h 1 (by omega)
    simp at this
  | cons x r ih =>
    intro a k hs h
    by_cases hk : k ≤ 1
    · omega
    · have hax : a < x := List.rel_of_sorted_cons hs x (List.mem_cons_self _ _)
      have hxr : ∀ y ∈ r, x < y := List.rel_of_sorted_cons hs.of_cons
      have h1 := h 1 (by omega)
      have hxa : x = a + 1 := by
        rcases List.mem_cons.mp h1 with h1 | h1
        · simp at h1
        · rcases List.mem_cons.mp h1 with h1 | h1
          · simpa using h1.symm
          · have := hxr _ h1
            push_cast at this
            omega
      have hrec := ih x (k - 1) hs.of_cons (by
        intro i hi
        have hm := h (i + 1) (by omega)
        rcases List.mem_cons.mp hm with hm | hm
        · push_cast at hm; omega
        · have e : a + ((i + 1 : Nat) : Int) = x + (i : Int) := by push_cast; omega
          rw [e] at hm
          exact hm)
      unfold runDays
      rw [if_pos (by omega)]
      omega

theorem longestDays_attained (l : List Int) (hne : l ≠ []) :
    ∃ a rest, (a :: rest) <:+ l ∧ longestDays l = runDays a rest + 1 := by
  induction l with
  | nil => exact absurd rfl hne
  | cons x r ih =>
    by_cases hmax : longestDays r ≤ runDays x r + 1
    · refine ⟨x, r, List.suffix_refl _, ?_⟩
      simp only [longestDays]
      omega
    · have hr : r ≠ [] := by
        rintro rfl
        simp [longestDays] at hmax
      obtain ⟨a, rest, hsuf, heq⟩ := ih hr
      refine ⟨a, rest, hsuf.trans (List.suffix_cons x r), ?_⟩
      simp only [longestDays]
      omega

theorem le_longestDays (l : List Int) :
    ∀ (a : Int) (rest : List Int), (a :: rest) <:+ l → runDays a rest + 1 ≤ longestDays l := by
  induction l with
  | nil =>
    intro a rest h
    simp at h
  | cons x r ih =>
    intro a rest h
    rcases List.suffix_cons_iff.mp h with h | h
    · injection h with h1 h2
      subst h1 h2
      simp only [longestDays]
      omega
    · have := ih a rest h
      simp only [longestDays]
      omega

theorem longestDays_run_exists (l : List Int) (hs : l.Sorted (· < ·)) :
    ∃ a : Int, ∀ i : Nat, i < longestDays l → a + (i : Int) ∈ l := by
  by_cases hne : l = []
  · subst hne
    exact ⟨0, fun i hi => by simp [longestDays] at hi⟩
  · obtain ⟨a, rest, hsuf, heq⟩ := longestDays_attained l hne
    refine ⟨a, fun i hi => ?_⟩
    have hs1 : (a :: rest).Sorted (· < ·) := List.Pairwise.sublist hsuf.sublist hs
    exact hsuf.subset (runDays_mem rest a hs1 i (by omega))

theorem run_le_longestDays (l : List Int) (hs : l.Sorted (· < ·)) (a : Int) (k : Nat)
    (h : ∀ i : Nat, i < k → a + (i : Int) ∈ l) : k ≤ longestDays l := by
  by_cases hk : k = 0
  · omega
  · have ha : a ∈ l := by simpa using h 0 (by omega)
    obtain ⟨pre, rest, rfl⟩ := List.append_of_mem ha
    have hpre : ∀ y ∈ pre, y < a := by
      intro y hy
      have := List.pairwise_append.mp hs
      exact this.2.2 y hy a (List.mem_cons_self _ _)
    have hs1 : (a :: rest).Sorted (· < ·) := (List.pairwise_append.mp hs).2.1
    have h1 : k ≤ runDays a rest + 1 := by
      apply run_le_runDays rest a k hs1
      intro i hi
      rcases List.mem_append.mp (h i hi) with hm | hm
      · have := hpre _ hm
        omega
      · exact hm
    exact le_trans h1 (le_longestDays _ a rest (List.suffix_append pre (a :: rest)))

theorem sorted_gt_ext {l1 l2 : List Int} (h1 : l1.Sorted (· > ·)) (h2 : l2.Sorted (· > ·))
    (h : ∀ d, d ∈ l1 ↔ d ∈ l2) : l1 = l2 :=
  List.eq_of_perm_of_sorted ((List.perm_ext_iff_of_nodup h1.nodup h2.nodup).mpr h) h1 h2

theorem workoutDays_eq_of_mem (tz : Int) (stored es : List Int) (hs : es.Sorted (· > ·))
    (h : ∀ d, HasWorkoutOn tz stored d ↔ d ∈ es) : workoutDays tz stored = es :=
  sorted_gt_ext (workoutDays_sorted tz stored) hs
    (fun d => (mem_workoutDays tz stored d).trans (h d))

theorem workoutDays_reverse_sorted (tz : Int) (stored : List Int) :
    (workoutDays tz stored).reverse.Sorted (· < ·) := by
  unfold List.Sorted
  rw [List.pairwise_reverse]
  exact workoutDays_sorted tz stored

/-! ## Meals: create and update -/

theorem foldl_add_eq_sum (f : FoodItem → ℚ) (items : List FoodItem) :
    ∀ acc : ℚ, items.foldl (fun sum item => sum + f item) acc = acc + (items.map f).sum := by
  induction items with
  | nil => intro acc; simp
  | cons x xs ih =>
    intro acc
    simp only [List.foldl_cons, List.map_cons, List.sum_cons, ih]
    ring

theorem preSave_consistent (m : Meal) : TotalsConsistent (preSave m) := by
  simp [TotalsConsistent, preSave, itemsTotal, foldl_add_eq_sum]

theorem trim_rice : trim "rice" = "rice" := by decide

theorem acceptedItems_lunchBody (q : ℚ) : acceptedItems (lunchBody q) = some [riceItem q] := by
  simp [acceptedItems, lunchBody, riceItem, itemAccepted]

theorem postMeal_lunchBody_two :
    postMeal 1 7 0 [] (lunchBody 2) =
      ({ status := 201,
         meal := some
          { id := 7, userId := 1, date := 0, mealType := "lunch",
            items := [{ name := "rice", calories := 100, protein := 2, carbs := 22, fats := 0,
                        quantity := 2, unit := "serving" }],
            totalCalories := 200, totalProtein := 4, totalCarbs := 44, totalFats := 0 } },
       [{ id := 7, userId := 1, date := 0, mealType := "lunch",
          items := [{ name := "rice", calories := 100, protein := 2, carbs := 22, fats := 0,
                      quantity := 2, unit := "serving" }],
          totalCalories := 200, totalProtein := 4, totalCarbs := 44, totalFats := 0 }]) := by
  simp only [postMeal, acceptedItems_lunchBody]
  norm_num [riceItem, lunchBody, toFoodItem, parseFloatOr, validMealPaths, validFoodItem,
    mealTypes, units, preSave, trim_rice]
  decide

theorem putMeal_lunchBody_three :
    putMeal 1 7 (postMeal 1 7 0 [] (lunchBody 2)).2 (lunchBody 3) =
      ({ status := 200,
         meal := some
          { id := 7, userId := 1, date := 0, mealType := "lunch",
            items := [{ name := "rice", calories := 100, protein := 2, carbs := 22, fats := 0,
                        quantity := 3, unit := "serving" }],
            totalCalories := 200, totalProtein := 4, totalCarbs := 44, totalFats := 0 } },
       [{ id := 7, userId := 1, date := 0, mealType := "lunch",
          items := [{ name := "rice", calories := 100, protein := 2, carbs := 22, fats := 0,
                      quantity := 3, unit := "serving" }],
          totalCalories := 200, totalProtein := 4, totalCarbs := 44, totalFats := 0 }]) := by
  rw [postMeal_lunchBody_two]
  simp only [putMeal, acceptedItems_lunchBody]
  norm_num [riceItem, lunchBody, toFoodItem, parseFloatOr, validMealPaths, validFoodItem,
    mealTypes, units, findOneAndUpdate, trim_rice]
  decide

theorem postMeal_consistent (userId newId : Nat) (now : Int) (db : List Meal) (body : MealBody)
    (m : Meal) (h : (postMeal userId newId now db body).1.meal = some m) : TotalsConsistent m := by
  unfold postMeal at h
  split at h
  · simp at h
  · simp only at h
    split at h
    · simp only [Option.some.injEq] at h
      rw [← h]
      exact preSave_consistent _
    · simp at h

/-! ## Consecutive days and the most recent day -/

theorem mem_daysEndingAt (n : Nat) : ∀ (s d : Int),
    d ∈ daysEndingAt s n ↔ s - (n : Int) < d ∧ d ≤ s := by
  induction n with
  | zero => intro s d; simp [daysEndingAt]
  | succ n ih =>
    intro s d
    simp only [daysEndingAt, List.mem_cons, ih]
    push_cast
    omega

theorem daysEndingAt_sorted (n : Nat) : ∀ s : Int, (daysEndingAt s n).Sorted (· > ·) := by
  induction n with
  | zero => intro s; simp [daysEndingAt]
  | succ n ih =>
    intro s
    simp only [daysEndingAt, List.sorted_cons]
    refine ⟨?_, ih (s - 1)⟩
    intro b hb
    have := (mem_daysEndingAt n (s - 1) b).mp hb
    omega

theorem streakDays_daysEndingAt (n : Nat) : ∀ (t s : Int), t - s ≤ 1 →
    streakDays t (daysEndingAt s n) = n := by
  induction n with
  | zero => intro t s _; rfl
  | succ n ih =>
    intro t s h
    simp only [daysEndingAt, streakDays, if_pos h]
    rw [ih (s - 1) (s - 1) (by omega)]

theorem findWorkouts_head (stored : List Int) (m : Int) (more : List Int)
    (h : findWorkouts stored = m :: more) : m ∈ stored ∧ ∀ w ∈ stored, w ≤ m := by
  have hm : ∀ w, w ∈ m :: more ↔ w ∈ stored := by
    intro w
    rw [← h]
    exact mem_findWorkouts stored w
  have hs : (m :: more).Sorted (· ≥ ·) := by
    rw [← h]
    exact List.sorted_insertionSort _ _
  refine ⟨(hm m).mp (List.mem_cons_self _ _), ?_⟩
  intro w hw
  rcases List.mem_cons.mp ((hm w).mpr hw) with rfl | hw
  · exact le_refl _
  · exact List.rel_of_sorted_cons hs w hw

theorem workoutDays_head (tz : Int) (stored : List Int) (m : Int)
    (hm : m ∈ stored) (hmax : ∀ w ∈ stored, w ≤ m) :
    ∃ rest, workoutDays tz stored = dayOf tz m :: rest := by
  have hmem : dayOf tz m ∈ workoutDays tz stored :=
    (mem_workoutDays tz stored _).mpr ⟨m, hm, rfl⟩
  have hs := workoutDays_sorted tz stored
  cases hds : workoutDays tz stored with
  | nil => rw [hds] at hmem; simp at hmem
  | cons h rest =>
    rw [hds] at hmem hs
    refine ⟨rest, ?_⟩
    have h1 : dayOf tz m ≤ h := by
      rcases List.mem_cons.mp hmem with e | e
      · exact le_of_eq e
      · exact le_of_lt (List.rel_of_sorted_cons hs _ e)
    have h2 : h ≤ dayOf tz m := by
      have : h ∈ workoutDays tz stored := by rw [hds]; exact List.mem_cons_self _ _
      obtain ⟨w, hw, e⟩ := (mem_workoutDays tz stored h).mp this
      rw [← e]
      exact dayOf_mono tz (hmax w hw)
    rw [le_antisymm h2 h1]

theorem streak_lastWorkoutDate (tz now : Int) (stored : List Int) (m : Int) (more : List Int)
    (h : findWorkouts stored = m :: more) :
    (streak tz now stored).lastWorkoutDate = some m ∧
      (streak tz now stored).daysSinceLastWorkout = some (daysDiff (setHoursZero tz now) m) ∧
      (streak tz now stored).message =
        streakMessage (streak tz now stored).currentStreak (daysDiff (setHoursZero tz now) m) := by
  unfold streak
  rw [h]
  exact ⟨rfl, rfl, rfl⟩

theorem streak_congr (tz now : Int) (stored stored' : List Int)
    (h : ∀ d, HasWorkoutOn tz stored d ↔ HasWorkoutOn tz stored' d) :
    (streak tz now stored).currentStreak = (streak tz now stored').currentStreak ∧
      (streak tz now stored).longestStreak = (streak tz now stored').longestStreak := by
  have e : workoutDays tz stored = workoutDays tz stored' :=
    workoutDays_eq_of_mem tz stored _ (workoutDays_sorted tz stored')
      (fun d => (h d).trans (mem_workoutDays tz stored' d).symm)
  rw [streak_currentStreak, streak_currentStreak, streak_longestStreak, streak_longestStreak, e]
  exact ⟨rfl, rfl⟩

theorem hasWorkoutOn_two (tz a b d : Int) :
    HasWorkoutOn tz [a, b] d ↔ d = dayOf tz a ∨ d = dayOf tz b := by
  unfold HasWorkoutOn
  constructor
  · rintro ⟨w, hw, rfl⟩
    simp only [List.mem_cons, List.mem_singleton, List.not_mem_nil, or_false] at hw
    rcases hw with rfl | rfl
    · exact Or.inl rfl
    · exact Or.inr rfl
  · rintro (rfl | rfl)
    · exact ⟨a, by simp, rfl⟩
    · exact ⟨b, by simp, rfl⟩

theorem hasWorkoutOn_iff_mem_map (tz : Int) (stored : List Int) (d : Int) :
    HasWorkoutOn tz stored d ↔ d ∈ stored.map (dayOf tz) := by
  simp [HasWorkoutOn, List.mem_map]

/-! ## The claims -/

/-- C1 (code defect): with workouts today and two days ago only, the handler
answers `currentStreak = 2` and `longestStreak = 1`, so `longestStreak` is
below `currentStreak`. -/
theorem C1_current_streak_above_longest :
    (streak 0 (20000 * msPerDay + 43200000)
        [20000 * msPerDay + 28800000, 19998 * msPerDay + 28800000]).currentStreak = 2 ∧
    (streak 0 (20000 * msPerDay + 43200000)
        [20000 * msPerDay + 28800000, 19998 * msPerDay + 28800000]).longestStreak = 1 ∧
    ¬ (streak 0 (20000 * msPerDay + 43200000)
        [20000 * msPerDay + 28800000, 19998 * msPerDay + 28800000]).longestStreak ≥
      (streak 0 (20000 * msPerDay + 43200000)
        [20000 * msPerDay + 28800000, 19998 * msPerDay + 28800000]).currentStreak := by
  decide

/-- C2 (code defect): a meal created with one item of 100 calories and
quantity 2 and then updated through `PUT /meals/:id` to quantity 3 is stored
with `totalCalories = 200` although its items sum to 300: the update does not
recompute the totals. -/
theorem C2_update_keeps_old_totals :
    (putMeal 1 7 (postMeal 1 7 0 [] (lunchBody 2)).2 (lunchBody 3)).1.status = 200 ∧
    ∀ m ∈ (putMeal 1 7 (postMeal 1 7 0 [] (lunchBody 2)).2 (lunchBody 3)).2,
      m.totalCalories = 200 ∧ itemsTotal FoodItem.calories m.items = 300 ∧
        ¬ TotalsConsistent m := by
  rw [putMeal_lunchBody_three]
  refine ⟨rfl, ?_⟩
  intro m hm
  rw [List.mem_singleton] at hm
  subst hm
  norm_num [itemsTotal, TotalsConsistent]

/-- On a clock that keeps one offset: with `d1 > d2 > ...` the distinct calendar days that have a workout
(`workoutDays`) and `t` today, `currentStreak` is the largest `k` such that
`t - d1 ≤ 1` and `d_i - d_(i+1) ≤ 2` for `1 ≤ i < k` (0 when `t - d1 > 1`);
workouts today and two days ago only give `currentStreak = 2`. -/
theorem const_offset_current_streak_largest_count (tz now : Int) (stored : List Int) :
    (workoutDays tz stored).Sorted (· > ·) ∧
    (∀ d, d ∈ workoutDays tz stored ↔ HasWorkoutOn tz stored d) ∧
    StreakUpTo (dayOf tz now) (workoutDays tz stored) (streak tz now stored).currentStreak ∧
    (∀ j, StreakUpTo (dayOf tz now) (workoutDays tz stored) j →
      j ≤ (streak tz now stored).currentStreak) ∧
    ((∀ d, HasWorkoutOn tz stored d ↔ d = dayOf tz now ∨ d = dayOf tz now - 2) →
      (streak tz now stored).currentStreak = 2) := by
  refine ⟨workoutDays_sorted tz stored, mem_workoutDays tz stored, ?_, ?_, ?_⟩
  · rw [streak_currentStreak]
    exact streakDays_upTo _ _
  · intro j hj
    rw [streak_currentStreak]
    exact streakDays_max _ _ j hj
  · intro h
    have e : workoutDays tz stored = [dayOf tz now, dayOf tz now - 2] := by
      apply workoutDays_eq_of_mem
      · simp [List.Sorted]
      · intro d
        rw [h d]
        simp
    rw [streak_currentStreak, e]
    simp [streakDays]

/-- An instance at workouts today and two days ago (none yesterday): the hypothesis of
the instance holds and `currentStreak = 2`. -/
theorem const_offset_current_streak_largest_count_witness :
    (∀ d, HasWorkoutOn 0 [20000 * msPerDay + 28800000, 19998 * msPerDay + 28800000] d ↔
        d = dayOf 0 (20000 * msPerDay + 43200000) ∨
        d = dayOf 0 (20000 * msPerDay + 43200000) - 2) ∧
    (streak 0 (20000 * msPerDay + 43200000)
      [20000 * msPerDay + 28800000, 19998 * msPerDay + 28800000]).currentStreak = 2 :=
  have h : ∀ d, HasWorkoutOn 0 [20000 * msPerDay + 28800000, 19998 * msPerDay + 28800000] d ↔
        d = dayOf 0 (20000 * msPerDay + 43200000) ∨
        d = dayOf 0 (20000 * msPerDay + 43200000) - 2 := fun d => by
    rw [hasWorkoutOn_two]
    have e1 : dayOf 0 (20000 * msPerDay + 28800000) = 20000 := by decide
    have e2 : dayOf 0 (19998 * msPerDay + 28800000) = 19998 := by decide
    have e3 : dayOf 0 (20000 * msPerDay + 43200000) = 20000 := by decide
    rw [e1, e2, e3]
    norm_num
  ⟨h, (const_offset_current_streak_largest_count 0 (20000 * msPerDay + 43200000)
      [20000 * msPerDay + 28800000, 19998 * msPerDay + 28800000]).2.2.2.2 h⟩

/-- On a clock that keeps one offset: `longestStreak` is the maximum length of a run of consecutive
calendar days among the workout days: some run of `longestStreak` consecutive
days consists of workout days, and every run of consecutive workout days has
at most `longestStreak` days; it is at least 1 for a non-empty history. -/
theorem const_offset_longest_streak_is_longest_run (tz now : Int) (stored : List Int) :
    (∃ a : Int, ∀ i : Nat, i < (streak tz now stored).longestStreak →
      HasWorkoutOn tz stored (a + (i : Int))) ∧
    (∀ (a : Int) (k : Nat), (∀ i : Nat, i < k → HasWorkoutOn tz stored (a + (i : Int))) →
      k ≤ (streak tz now stored).longestStreak) ∧
    (stored ≠ [] → 1 ≤ (streak tz now stored).longestStreak) := by
  have hs := workoutDays_reverse_sorted tz stored
  have hmem : ∀ d, d ∈ (workoutDays tz stored).reverse ↔ HasWorkoutOn tz stored d := fun d =>
    List.mem_reverse.trans (mem_workoutDays tz stored d)
  have hub : ∀ (a : Int) (k : Nat),
      (∀ i : Nat, i < k → HasWorkoutOn tz stored (a + (i : Int))) →
      k ≤ (streak tz now stored).longestStreak := by
    intro a k h
    rw [streak_longestStreak]
    exact run_le_longestDays _ hs a k (fun i hi => (hmem _).mpr (h i hi))
  refine ⟨?_, hub, ?_⟩
  · rw [streak_longestStreak]
    obtain ⟨a, ha⟩ := longestDays_run_exists _ hs
    exact ⟨a, fun i hi => (hmem _).mp (ha i hi)⟩
  · intro hne
    obtain ⟨w, more, rfl⟩ := List.exists_cons_of_ne_nil hne
    apply hub (dayOf tz w) 1
    intro i hi
    have : i = 0 := by omega
    subst this
    exact ⟨w, List.mem_cons_self _ _, by simp⟩

/-- An instance at workouts on days 19999 and 20000: the two days form a run, so
`longestStreak` is at least 2, and the history is not empty. -/
theorem const_offset_longest_streak_is_longest_run_witness :
    2 ≤ (streak 0 (20000 * msPerDay + 43200000)
        [20000 * msPerDay + 28800000, 19999 * msPerDay + 28800000]).longestStreak ∧
    1 ≤ (streak 0 (20000 * msPerDay + 43200000)
        [20000 * msPerDay + 28800000, 19999 * msPerDay + 28800000]).longestStreak :=
  ⟨(const_offset_longest_streak_is_longest_run 0 (20000 * msPerDay + 43200000)
      [20000 * msPerDay + 28800000, 19999 * msPerDay + 28800000]).2.1 19999 2
      (fun i hi => by
        rw [hasWorkoutOn_two]
        have e1 : dayOf 0 (20000 * msPerDay + 28800000) = 20000 := by decide
        have e2 : dayOf 0 (19999 * msPerDay + 28800000) = 19999 := by decide
        rw [e1, e2]
        omega),
   (const_offset_longest_streak_is_longest_run 0 (20000 * msPerDay + 43200000)
      [20000 * msPerDay + 28800000, 19999 * msPerDay + 28800000]).2.2 (by decide)⟩

/-- C5: when the workout days are exactly the `n` consecutive calendar days
ending at `s`, and `s` is today or yesterday, `currentStreak = n`, whatever
the number of workouts per day. -/
theorem C5_consecutive_days_streak (tz now : Int) (stored : List Int) (n : Nat) (s : Int)
    (hn : 1 ≤ n) (hs : s = dayOf tz now ∨ s = dayOf tz now - 1)
    (h : ∀ d, HasWorkoutOn tz stored d ↔ s - (n : Int) < d ∧ d ≤ s) :
    (streak tz now stored).currentStreak = n := by
  have _ := hn
  have e : workoutDays tz stored = daysEndingAt s n :=
    workoutDays_eq_of_mem tz stored _ (daysEndingAt_sorted n s)
      (fun d => (h d).trans (mem_daysEndingAt n s d).symm)
  rw [streak_currentStreak, e]
  exact streakDays_daysEndingAt n _ s (by omega)

/-- C5 at its two instances: workouts today, yesterday (two of them) and the
day before give 3; workouts yesterday and two days ago, none today, give 2. -/
theorem C5_consecutive_days_streak_witness :
    (streak 0 (20000 * msPerDay + 43200000)
      [20000 * msPerDay + 28800000, 19999 * msPerDay + 28800000, 19999 * msPerDay + 72000000,
        19998 * msPerDay + 28800000]).currentStreak = 3 ∧
    (streak 0 (20000 * msPerDay + 43200000)
      [19999 * msPerDay + 28800000, 19998 * msPerDay + 28800000]).currentStreak = 2 :=
  ⟨C5_consecutive_days_streak 0 (20000 * msPerDay + 43200000)
      [20000 * msPerDay + 28800000, 19999 * msPerDay + 28800000, 19999 * msPerDay + 72000000,
        19998 * msPerDay + 28800000] 3 20000 (by decide) (Or.inl (by decide))
      (fun d => by
        rw [hasWorkoutOn_iff_mem_map]
        have e : [20000 * msPerDay + 28800000, 19999 * msPerDay + 28800000,
            19999 * msPerDay + 72000000, 19998 * msPerDay + 28800000].map (dayOf 0) =
            [20000, 19999, 19999, 19998] := by decide
        rw [e]
        simp only [List.mem_cons, List.mem_singleton, List.not_mem_nil, or_false]
        push_cast
        omega),
   C5_consecutive_days_streak 0 (20000 * msPerDay + 43200000)
      [19999 * msPerDay + 28800000, 19998 * msPerDay + 28800000] 2 19999 (by decide)
      (Or.inr (by decide))
      (fun d => by
        rw [hasWorkoutOn_iff_mem_map]
        have e : [19999 * msPerDay + 28800000, 19998 * msPerDay + 28800000].map (dayOf 0) =
            [19999, 19998] := by decide
        rw [e]
        simp only [List.mem_cons, List.mem_singleton, List.not_mem_nil, or_false]
        push_cast
        omega)⟩

/-- On a clock that keeps one offset: with a workout today and every other workout day at least 3 calendar
days before today, `currentStreak = 1`. -/
theorem const_offset_gap_of_two_days_breaks (tz now : Int) (stored : List Int)
    (h1 : HasWorkoutOn tz stored (dayOf tz now))
    (h2 : ∀ d, HasWorkoutOn tz stored d → d = dayOf tz now ∨ d ≤ dayOf tz now - 3) :
    (streak tz now stored).currentStreak = 1 := by
  have hs := workoutDays_sorted tz stored
  have hmem := mem_workoutDays tz stored
  rw [streak_currentStreak]
  cases hds : workoutDays tz stored with
  | nil =>
    have := (hmem _).mpr h1
    rw [hds] at this
    simp at this
  | cons x rest =>
    rw [hds] at hs hmem
    have hrest : ∀ y ∈ rest, y < x := List.rel_of_sorted_cons hs
    have hx : x = dayOf tz now := by
      rcases h2 x ((hmem x).mp (List.mem_cons_self _ _)) with e | e
      · exact e
      · rcases List.mem_cons.mp ((hmem _).mpr h1) with e1 | e1
        · exact e1.symm
        · have := hrest _ e1
          omega
    subst hx
    cases rest with
    | nil => simp [streakDays]
    | cons y more =>
      have hy1 : y < dayOf tz now := hrest y (List.mem_cons_self _ _)
      have hy2 := h2 y ((hmem y).mp (List.mem_cons_of_mem _ (List.mem_cons_self _ _)))
      have hy3 : ¬ (dayOf tz now - 1 - y ≤ 1) := by omega
      simp [streakDays, hy3]

/-- An instance: workouts today and 3 days ago only give
`currentStreak = 1`. -/
theorem const_offset_gap_of_two_days_breaks_witness :
    HasWorkoutOn 0 [20000 * msPerDay + 28800000, 19997 * msPerDay + 28800000]
      (dayOf 0 (20000 * msPerDay + 43200000)) ∧
    (streak 0 (20000 * msPerDay + 43200000)
      [20000 * msPerDay + 28800000, 19997 * msPerDay + 28800000]).currentStreak = 1 :=
  have h1 : HasWorkoutOn 0 [20000 * msPerDay + 28800000, 19997 * msPerDay + 28800000]
      (dayOf 0 (20000 * msPerDay + 43200000)) :=
    ⟨20000 * msPerDay + 28800000, List.mem_cons_self _ _, by decide⟩
  ⟨h1, const_offset_gap_of_two_days_breaks 0 (20000 * msPerDay + 43200000)
      [20000 * msPerDay + 28800000, 19997 * msPerDay + 28800000] h1
      (fun d hd => by
        rw [hasWorkoutOn_two] at hd
        have e1 : dayOf 0 (20000 * msPerDay + 28800000) = 20000 := by decide
        have e2 : dayOf 0 (19997 * msPerDay + 28800000) = 19997 := by decide
        have e3 : dayOf 0 (20000 * msPerDay + 43200000) = 20000 := by decide
        rw [e1, e2] at hd
        rw [e3]
        omega)⟩

/-- On a clock that keeps one offset: for a non-empty history the handler reports the most recent workout
`m`, and `currentStreak = 0` exactly when the calendar day of `m` is more
than one day before today; when it is today or yesterday (or not before
yesterday), `currentStreak ≥ 1`. -/
theorem const_offset_zero_iff_older_than_yesterday (tz now : Int) (stored : List Int)
    (hne : stored ≠ []) :
    ∃ m, (streak tz now stored).lastWorkoutDate = some m ∧ m ∈ stored ∧
      (∀ w ∈ stored, w ≤ m) ∧
      ((streak tz now stored).currentStreak = 0 ↔ dayOf tz m < dayOf tz now - 1) ∧
      (dayOf tz now - 1 ≤ dayOf tz m → 1 ≤ (streak tz now stored).currentStreak) := by
  cases hf : findWorkouts stored with
  | nil => exact absurd (findWorkouts_eq_nil stored hf) hne
  | cons m more =>
    obtain ⟨hm, hmax⟩ := findWorkouts_head stored m more hf
    obtain ⟨rest, hds⟩ := workoutDays_head tz stored m hm hmax
    refine ⟨m, (streak_lastWorkoutDate tz now stored m more hf).1, hm, hmax, ?_, ?_⟩
    · rw [streak_currentStreak, hds]
      unfold streakDays
      split
      · constructor
        · intro h; omega
        · intro h; omega
      · constructor
        · intro _; omega
        · intro _; rfl
    · intro h
      rw [streak_currentStreak, hds]
      unfold streakDays
      rw [if_pos (by omega)]
      omega

/-- An instance at a single workout made yesterday: the history is not empty and the
statement holds there. -/
theorem const_offset_zero_iff_older_than_yesterday_witness :
    [19999 * msPerDay + 28800000] ≠ [] ∧
    ∃ m, (streak 0 (20000 * msPerDay + 43200000) [19999 * msPerDay + 28800000]).lastWorkoutDate
        = some m ∧ m ∈ [19999 * msPerDay + 28800000] ∧
      (∀ w ∈ [19999 * msPerDay + 28800000], w ≤ m) ∧
      ((streak 0 (20000 * msPerDay + 43200000) [19999 * msPerDay + 28800000]).currentStreak = 0 ↔
        dayOf 0 m < dayOf 0 (20000 * msPerDay + 43200000) - 1) ∧
      (dayOf 0 (20000 * msPerDay + 43200000) - 1 ≤ dayOf 0 m →
        1 ≤ (streak 0 (20000 * msPerDay + 43200000) [19999 * msPerDay + 28800000]).currentStreak) :=
  ⟨List.cons_ne_nil _ _,
   const_offset_zero_iff_older_than_yesterday 0 (20000 * msPerDay + 43200000)
     [19999 * msPerDay + 28800000] (List.cons_ne_nil _ _)⟩

/-- C8: with no workouts the handler answers `currentStreak = 0`,
`longestStreak = 0`, `lastWorkoutDate = null` and the message
"Start your fitness journey today!", for every clock value. -/
theorem C8_no_workouts (tz now : Int) :
    streak tz now [] =
      { currentStreak := 0
        longestStreak := 0
        lastWorkoutDate := none
        daysSinceLastWorkout := none
        totalWorkouts := none
        message := "Start your fitness journey today!" } := by
  rfl

/-- C9: `currentStreak` and `longestStreak` depend only on the set of calendar
days that have a workout: two histories with the same workout days give the
same values; in particular a permutation of the history, and a further
workout on a calendar day that already has one, change neither. -/
theorem C9_streaks_depend_on_day_set (tz now : Int) (stored stored' : List Int) (w : Int) :
    ((∀ d, HasWorkoutOn tz stored d ↔ HasWorkoutOn tz stored' d) →
      (streak tz now stored).currentStreak = (streak tz now stored').currentStreak ∧
      (streak tz now stored).longestStreak = (streak tz now stored').longestStreak) ∧
    (stored.Perm stored' →
      (streak tz now stored).currentStreak = (streak tz now stored').currentStreak ∧
      (streak tz now stored).longestStreak = (streak tz now stored').longestStreak) ∧
    (HasWorkoutOn tz stored (dayOf tz w) →
      (streak tz now (w :: stored)).currentStreak = (streak tz now stored).currentStreak ∧
      (streak tz now (w :: stored)).longestStreak = (streak tz now stored).longestStreak) := by
  refine ⟨streak_congr tz now stored stored', ?_, ?_⟩
  · intro hp
    apply streak_congr
    intro d
    unfold HasWorkoutOn
    constructor
    · rintro ⟨v, hv, e⟩; exact ⟨v, hp.mem_iff.mp hv, e⟩
    · rintro ⟨v, hv, e⟩; exact ⟨v, hp.mem_iff.mpr hv, e⟩
  · intro hw
    apply streak_congr
    intro d
    unfold HasWorkoutOn
    constructor
    · rintro ⟨v, hv, e⟩
      rcases List.mem_cons.mp hv with rfl | hv
      · rw [← e]; exact hw
      · exact ⟨v, hv, e⟩
    · rintro ⟨v, hv, e⟩
      exact ⟨v, List.mem_cons_of_mem _ hv, e⟩

/-- C9 at a history of two workouts: swapping them, and adding a second
workout on the day of the first, leave both streaks unchanged. -/
theorem C9_streaks_depend_on_day_set_witness :
    ((streak 0 (20000 * msPerDay + 43200000)
        [20000 * msPerDay + 28800000, 19999 * msPerDay + 28800000]).currentStreak =
      (streak 0 (20000 * msPerDay + 43200000)
        [19999 * msPerDay + 28800000, 20000 * msPerDay + 28800000]).currentStreak ∧
     (streak 0 (20000 * msPerDay + 43200000)
        [20000 * msPerDay + 28800000, 19999 * msPerDay + 28800000]).longestStreak =
      (streak 0 (20000 * msPerDay + 43200000)
        [19999 * msPerDay + 28800000, 20000 * msPerDay + 28800000]).longestStreak) ∧
    ((streak 0 (20000 * msPerDay + 43200000)
        [20000 * msPerDay + 72000000, 20000 * msPerDay + 28800000,
          19999 * msPerDay + 28800000]).currentStreak =
      (streak 0 (20000 * msPerDay + 43200000)
        [20000 * msPerDay + 28800000, 19999 * msPerDay + 28800000]).currentStreak ∧
     (streak 0 (20000 * msPerDay + 43200000)
        [20000 * msPerDay + 72000000, 20000 * msPerDay + 28800000,
          19999 * msPerDay + 28800000]).longestStreak =
      (streak 0 (20000 * msPerDay + 43200000)
        [20000 * msPerDay + 28800000, 19999 * msPerDay + 28800000]).longestStreak) :=
  ⟨(C9_streaks_depend_on_day_set 0 (20000 * msPerDay + 43200000)
      [20000 * msPerDay + 28800000, 19999 * msPerDay + 28800000]
      [19999 * msPerDay + 28800000, 20000 * msPerDay + 28800000]
      (20000 * msPerDay + 72000000)).2.1 (List.Perm.swap _ _ _),
   (C9_streaks_depend_on_day_set 0 (20000 * msPerDay + 43200000)
      [20000 * msPerDay + 28800000, 19999 * msPerDay + 28800000]
      [19999 * msPerDay + 28800000, 20000 * msPerDay + 28800000]
      (20000 * msPerDay + 72000000)).2.2
      ⟨20000 * msPerDay + 28800000, List.mem_cons_self _ _, by decide⟩⟩

/-- C10 (code defect): with a single workout made two calendar days before
today (at 08:00), `currentStreak = 0`, `daysSinceLastWorkout = 1` and the
message is "You worked out yesterday! Start a new streak today!", although
the day of the most recent workout is not yesterday. -/
theorem C10_yesterday_message_two_days_ago :
    (streak 0 (20000 * msPerDay + 43200000) [19998 * msPerDay + 28800000]).currentStreak = 0 ∧
    (streak 0 (20000 * msPerDay + 43200000) [19998 * msPerDay + 28800000]).lastWorkoutDate =
      some (19998 * msPerDay + 28800000) ∧
    dayOf 0 (19998 * msPerDay + 28800000) = dayOf 0 (20000 * msPerDay + 43200000) - 2 ∧
    (streak 0 (20000 * msPerDay + 43200000) [19998 * msPerDay + 28800000]).daysSinceLastWorkout =
      some 1 ∧
    (streak 0 (20000 * msPerDay + 43200000) [19998 * msPerDay + 28800000]).message =
      "You worked out yesterday! Start a new streak today!" := by
  decide

/-! ## The calendar -/

theorem daysFromCivil_shifted (era c q yr mp : Int) (hc : 0 ≤ c ∧ c ≤ 3) (hq : 0 ≤ q ∧ q ≤ 24)
    (hyr : 0 ≤ yr ∧ yr ≤ 3) (hmp : 0 ≤ mp ∧ mp ≤ 11) (y m : Int)
    (hm : m = if mp < 10 then mp + 3 else mp - 9)
    (hy : y = if m ≤ 2 then era * 400 + c * 100 + q * 4 + yr + 1
      else era * 400 + c * 100 + q * 4 + yr) :
    daysFromCivil y m 1 =
      era * 146097 + c * 36524 + q * 1461 + yr * 365 + (153 * mp + 2) / 5 - 719468 := by
  have hY : (era * 400 + c * 100 + q * 4 + yr) / 400 = era := by omega
  have h4 : (c * 100 + q * 4 + yr) / 4 = c * 25 + q := by omega
  have h100 : (c * 100 + q * 4 + yr) / 100 = c := by omega
  simp only [daysFromCivil]
  by_cases h : mp < 10
  · have hm3 : m = mp + 3 := by rw [hm, if_pos h]
    have hm2 : ¬ m ≤ 2 := by omega
    have hm2' : m > 2 := by omega
    rw [if_neg hm2] at hy
    rw [if_neg hm2, if_pos hm2', hy, hY]
    have e1 : era * 400 + c * 100 + q * 4 + yr - era * 400 = c * 100 + q * 4 + yr := by ring
    rw [e1, h4, h100, hm3]
    have e2 : mp + 3 - 3 = mp := by ring
    rw [e2]
    ring
  · have hm3 : m = mp - 9 := by rw [hm, if_neg h]
    have hm2 : m ≤ 2 := by omega
    have hm2' : ¬ m > 2 := by omega
    rw [if_pos hm2] at hy
    rw [if_pos hm2, if_neg hm2', hy]
    have e0 : era * 400 + c * 100 + q * 4 + yr + 1 - 1 = era * 400 + c * 100 + q * 4 + yr := by ring
    rw [e0, hY]
    have e1 : era * 400 + c * 100 + q * 4 + yr - era * 400 = c * 100 + q * 4 + yr := by ring
    rw [e1, h4, h100, hm3]
    have e2 : mp - 9 + 9 = mp := by ring
    rw [e2]
    ring

theorem civilFromDays_spec (z : Int) :
    ∃ era c q yr doy : Int, (0 ≤ c ∧ c ≤ 3) ∧ (0 ≤ q ∧ q ≤ 24) ∧ (0 ≤ yr ∧ yr ≤ 3) ∧
      (0 ≤ doy ∧ doy ≤ 365) ∧
      z = era * 146097 + c * 36524 + q * 1461 + yr * 365 + doy - 719468 ∧
      civilFromDays z =
        (if (if (5 * doy + 2) / 153 < 10 then (5 * doy + 2) / 153 + 3
              else (5 * doy + 2) / 153 - 9) ≤ 2
          then era * 400 + c * 100 + q * 4 + yr + 1 else era * 400 + c * 100 + q * 4 + yr,
         if (5 * doy + 2) / 153 < 10 then (5 * doy + 2) / 153 + 3 else (5 * doy + 2) / 153 - 9,
         doy - (153 * ((5 * doy + 2) / 153) + 2) / 5 + 1) := by
  obtain ⟨era, hera⟩ : ∃ era, era = (z + 719468) / 146097 := ⟨_, rfl⟩
  obtain ⟨doe, hdoe⟩ : ∃ doe, doe = (z + 719468) % 146097 := ⟨_, rfl⟩
  obtain ⟨c, hc⟩ : ∃ c, c = if doe / 36524 = 4 then 3 else doe / 36524 := ⟨_, rfl⟩
  obtain ⟨q, hq⟩ : ∃ q, q = (doe - c * 36524) / 1461 := ⟨_, rfl⟩
  obtain ⟨yr, hyr⟩ : ∃ yr, yr = if (doe - c * 36524 - q * 1461) / 365 = 4 then 3
      else (doe - c * 36524 - q * 1461) / 365 := ⟨_, rfl⟩
  have b0 : 0 ≤ doe ∧ doe ≤ 146096 := by omega
  have b1 : 0 ≤ c ∧ c ≤ 3 := by
    rw [hc]; split_ifs <;> omega
  have b1' : 0 ≤ doe - c * 36524 ∧ doe - c * 36524 ≤ 36524 := by
    rw [hc]; split_ifs <;> omega
  have b2 : 0 ≤ q ∧ q ≤ 24 := by omega
  have b2' : 0 ≤ doe - c * 36524 - q * 1461 ∧ doe - c * 36524 - q * 1461 ≤ 1460 := by omega
  have b3 : 0 ≤ yr ∧ yr ≤ 3 := by
    rw [hyr]; split_ifs <;> omega
  have b3' : 0 ≤ doe - c * 36524 - q * 1461 - yr * 365 ∧
      doe - c * 36524 - q * 1461 - yr * 365 ≤ 365 := by
    rw [hyr]; split_ifs <;> omega
  refine ⟨era, c, q, yr, doe - c * 36524 - q * 1461 - yr * 365, b1, b2, b3, b3', by omega, ?_⟩
  subst hyr hq hc hdoe hera
  rfl

theorem prevMonthDay_bounds (z : Int) : 28 ≤ z - prevMonthDay z ∧ z - prevMonthDay z ≤ 31 := by
  obtain ⟨era, c, q, yr, doy, hc, hq, hyr, hdoy, hz, hciv⟩ := civilFromDays_spec z
  obtain ⟨mp, hmp⟩ : ∃ mp, mp = (5 * doy + 2) / 153 := ⟨_, rfl⟩
  rw [← hmp] at hciv
  have bmp : 0 ≤ mp ∧ mp ≤ 11 := by omega
  simp only [prevMonthDay, hciv]
  by_cases h0 : mp = 0
  · -- March: the month before is February of the shifted year before
    subst h0
    have hm : (if (0 : Int) < 10 then (0 : Int) + 3 else 0 - 9) = 3 := by norm_num
    simp only [hm]
    norm_num
    by_cases h1 : 1 ≤ yr
    · rw [daysFromCivil_shifted era c q (yr - 1) 11 hc hq (by omega) (by norm_num) _ 2
        (by norm_num) (by norm_num; ring)]
      omega
    · by_cases h2 : 1 ≤ q
      · rw [daysFromCivil_shifted era c (q - 1) 3 11 hc (by omega) (by norm_num) (by norm_num) _ 2
          (by norm_num) (by norm_num; omega)]
        omega
      · by_cases h3 : 1 ≤ c
        · rw [daysFromCivil_shifted era (c - 1) 24 3 11 (by omega) (by norm_num) (by norm_num)
            (by norm_num) _ 2 (by norm_num) (by norm_num; omega)]
          omega
        · rw [daysFromCivil_shifted (era - 1) 3 24 3 11 (by norm_num) (by norm_num) (by norm_num)
            (by norm_num) _ 2 (by norm_num) (by norm_num; omega)]
          omega
  · by_cases h10 : mp = 10
    · subst h10
      norm_num
      rw [daysFromCivil_shifted era c q yr 9 hc hq hyr (by norm_num) _ 12
        (by norm_num) (by norm_num)]
      omega
    · by_cases h11 : mp = 11
      · subst h11
        norm_num
        rw [daysFromCivil_shifted era c q yr 10 hc hq hyr (by norm_num) _ 1
          (by norm_num) (by norm_num)]
        omega
      · have hlt : mp < 10 := by omega
        have hm2 : ¬ mp + 3 ≤ 2 := by omega
        have hm1 : ¬ mp + 3 = 1 := by omega
        simp only [if_pos hlt, if_neg hm2, if_neg hm1]
        rw [daysFromCivil_shifted era c q yr (mp - 1) hc hq hyr (by omega) _ (mp + 3 - 1)
          (by rw [if_pos (by omega)]; ring) (by rw [if_neg (by omega)])]
        omega

theorem setMonthPrev_eq (tz t : Int) :
    setMonthPrev tz t =
      t - (dayOf tz t - prevMonthDay (dayOf tz t)) * msPerDay := by
  simp only [setMonthPrev, dayOf, msPerDay]
  omega

/-! ## The window of the summary -/

/-- The number of days the window of `/summary` reaches back from today. -/
theorem summaryStart_spec (tz now : Int) (period : String) :
    ∃ k : Int, 0 ≤ k ∧ k ≤ 31 ∧
      summaryStart tz now period = midnightOf tz (dayOf tz now - k) ∧
      (period = "day" → k = 0) ∧
      (period ≠ "day" → period ≠ "month" → k = 7) ∧
      (period = "month" → k = dayOf tz now - prevMonthDay (dayOf tz now)) := by
  have hweek : setHoursZero tz (setDateAdd now (-7)) = midnightOf tz (dayOf tz now - 7) := by
    simp only [setHoursZero, setDateAdd, midnightOf, dayOf, msPerDay]
    omega
  unfold summaryStart
  by_cases hd : period = "day"
  · refine ⟨0, le_refl _, by norm_num, ?_, fun _ => rfl, fun h => absurd hd h, ?_⟩
    · rw [if_pos hd, setHoursZero_eq, sub_zero]
    · intro hm
      rw [hd] at hm
      exact absurd hm (by decide)
  · rw [if_neg hd]
    by_cases hw : period = "week"
    · refine ⟨7, by norm_num, by norm_num, ?_, fun h => absurd h hd, fun _ _ => rfl, ?_⟩
      · rw [if_pos hw, hweek]
      · intro hm
        rw [hw] at hm
        exact absurd hm (by decide)
    · rw [if_neg hw]
      by_cases hm : period = "month"
      · have hb := prevMonthDay_bounds (dayOf tz now)
        refine ⟨dayOf tz now - prevMonthDay (dayOf tz now), by omega, by omega, ?_,
          fun h => absurd h hd, fun _ h => absurd hm h, fun _ => rfl⟩
        rw [if_pos hm, setMonthPrev_eq]
        generalize dayOf tz now - prevMonthDay (dayOf tz now) = L
        simp only [setHoursZero, midnightOf, dayOf, msPerDay]
        omega
      · refine ⟨7, by norm_num, by norm_num, ?_, fun h => absurd h hd, fun _ _ => rfl,
          fun h => absurd h hm⟩
        rw [if_neg hm, hweek]

theorem dateKey_setDateAdd_one (c : Int) : dateKey (setDateAdd c 1) = dateKey c + 1 := by
  simp only [dateKey, setDateAdd, msPerDay]
  omega

theorem setBucket_new (data : List DayBucket) (b : DayBucket)
    (h : ∀ x ∈ data, x.date ≠ b.date) : setBucket data b = data ++ [b] := by
  induction data with
  | nil => rfl
  | cons x rest ih =>
    have hx : x.date ≠ b.date := h x (List.mem_cons_self _ _)
    simp only [setBucket, if_neg hx, List.cons_append]
    rw [ih (fun y hy => h y (List.mem_cons_of_mem _ hy))]

theorem initDates_eq (n : Nat) :
    ∀ (fuel : Nat) (c e : Int) (data : List DayBucket),
      (n : Int) = (e - c) / msPerDay + 1 → n ≤ fuel →
      (∀ x ∈ data, x.date < dateKey c) →
      initDates fuel c e data = data ++ (dayKeys (dateKey c) n).map emptyBucket := by
  induction n with
  | zero =>
    intro fuel c e data hn _ _
    have hce : ¬ c ≤ e := by
      simp only [msPerDay] at hn
      omega
    cases fuel with
    | zero => simp [initDates, dayKeys]
    | succ fuel => simp [initDates, dayKeys, hce]
  | succ n ih =>
    intro fuel c e data hn hfuel hdata
    cases fuel with
    | zero => omega
    | succ fuel =>
      have hce : c ≤ e := by
        simp only [msPerDay] at hn
        push_cast at hn
        omega
      simp only [initDates, if_pos hce, dayKeys, List.map_cons]
      rw [setBucket_new data _ (fun x hx => ne_of_lt (hdata x hx))]
      rw [ih fuel (setDateAdd c 1) e _ (by
          simp only [setDateAdd, msPerDay] at hn ⊢
          push_cast at hn
          omega) (by omega) (by
          intro x hx
          rw [dateKey_setDateAdd_one]
          rcases List.mem_append.mp hx with hx | hx
          · have := hdata x hx
            omega
          · rw [List.mem_singleton] at hx
            subst hx
            simp [emptyBucket])]
      rw [dateKey_setDateAdd_one, List.append_assoc]
      rfl

theorem map_date_addWorkout (data : List DayBucket) (w : Workout) :
    (addWorkout data w).map DayBucket.date = data.map DayBucket.date := by
  unfold addWorkout
  rw [List.map_map]
  apply List.map_congr_left
  intro day _
  simp only [Function.comp]
  split <;> rfl

theorem map_date_addMeal (data : List DayBucket) (m : Meal) :
    (addMeal data m).map DayBucket.date = data.map DayBucket.date := by
  unfold addMeal
  rw [List.map_map]
  apply List.map_congr_left
  intro day _
  simp only [Function.comp]
  split <;> rfl

theorem map_date_foldl_addWorkout (ws : List Workout) :
    ∀ data : List DayBucket,
      (ws.foldl addWorkout data).map DayBucket.date = data.map DayBucket.date := by
  induction ws with
  | nil => intro data; rfl
  | cons w ws ih => intro data; rw [List.foldl_cons, ih, map_date_addWorkout]

theorem map_date_foldl_addMeal (ms : List Meal) :
    ∀ data : List DayBucket,
      (ms.foldl addMeal data).map DayBucket.date = data.map DayBucket.date := by
  induction ms with
  | nil => intro data; rfl
  | cons m ms ih => intro data; rw [List.foldl_cons, ih, map_date_addMeal]

theorem map_date_emptyBucket (keys : List Int) :
    (keys.map emptyBucket).map DayBucket.date = keys := by
  rw [List.map_map]
  conv_rhs => rw [← List.map_id keys]
  apply List.map_congr_left
  intro k _
  rfl

/-- The buckets created for a window that starts at the local midnight `k`
days before today. -/
theorem initDates_window (tz now k : Int) (hk : 0 ≤ k) :
    initDates ((now - midnightOf tz (dayOf tz now - k)).toNat + 1)
        (midnightOf tz (dayOf tz now - k)) now [] =
      (dayKeys (dateKey (midnightOf tz (dayOf tz now - k))) (k.toNat + 1)).map emptyBucket := by
  rw [initDates_eq (k.toNat + 1) _ _ _ []]
  · rfl
  · simp only [midnightOf, dayOf, msPerDay]
    push_cast
    omega
  · simp only [midnightOf, dayOf, msPerDay]
    omega
  · intro x hx
    simp at hx

theorem dailyDataOf_dates (tz now k : Int) (hk : 0 ≤ k) (ws : List Workout) (ms : List Meal) :
    (dailyDataOf (midnightOf tz (dayOf tz now - k)) now ws ms).map DayBucket.date =
      dayKeys (dateKey (midnightOf tz (dayOf tz now - k))) (k.toNat + 1) := by
  unfold dailyDataOf
  simp only
  rw [List.map_map]
  have : (DayBucket.date ∘ setNet) = DayBucket.date := rfl
  rw [this, map_date_foldl_addMeal, map_date_foldl_addWorkout, initDates_window tz now k hk,
    map_date_emptyBucket]

/-! ## Sums over the buckets -/

theorem foldl_add_sum {α M : Type} [AddCommMonoid M] (f : α → M) (l : List α) :
    ∀ a : M, l.foldl (fun acc x => acc + f x) a = a + (l.map f).sum := by
  induction l with
  | nil => intro a; simp
  | cons x xs ih =>
    intro a
    simp only [List.foldl_cons, List.map_cons, List.sum_cons, ih, add_assoc]

theorem mem_dayKeys (n : Nat) : ∀ (k x : Int), x ∈ dayKeys k n ↔ k ≤ x ∧ x < k + (n : Int) := by
  induction n with
  | zero => intro k x; simp [dayKeys]
  | succ n ih =>
    intro k x
    simp only [dayKeys, List.mem_cons, ih]
    push_cast
    omega

theorem nodup_dayKeys (n : Nat) : ∀ k : Int, (dayKeys k n).Nodup := by
  induction n with
  | zero => intro k; simp [dayKeys]
  | succ n ih =>
    intro k
    simp only [dayKeys, List.nodup_cons]
    refine ⟨?_, ih (k + 1)⟩
    intro h
    have := (mem_dayKeys n (k + 1) k).mp h
    omega

theorem length_dayKeys (n : Nat) : ∀ k : Int, (dayKeys k n).length = n := by
  induction n with
  | zero => intro k; rfl
  | succ n ih => intro k; simp [dayKeys, ih]

theorem sum_map_update {M : Type} [AddCommMonoid M] (g : DayBucket → M)
    (f : DayBucket → DayBucket) (key : Int) (δ : M) (hg : ∀ day, g (f day) = g day + δ)
    (data : List DayBucket) (hnd : (data.map DayBucket.date).Nodup) :
    ((data.map (fun day => if day.date = key then f day else day)).map g).sum =
      (data.map g).sum + (if key ∈ data.map DayBucket.date then δ else 0) := by
  induction data with
  | nil => simp
  | cons x rest ih =>
    simp only [List.map_cons, List.nodup_cons] at hnd
    have ih' := ih hnd.2
    simp only [List.map_cons, List.sum_cons, List.mem_cons]
    rw [ih']
    by_cases hx : x.date = key
    · have hrest : key ∉ rest.map DayBucket.date := by rw [← hx]; exact hnd.1
      rw [if_pos hx, if_neg hrest, if_pos (Or.inl hx.symm), hg, add_zero]
      abel
    · rw [if_neg hx]
      have : (key = x.date ∨ key ∈ rest.map DayBucket.date) ↔ key ∈ rest.map DayBucket.date := by
        constructor
        · rintro (h | h)
          · exact absurd h.symm hx
          · exact h
        · intro h; exact Or.inr h
      simp only [this, add_assoc]

theorem sum_foldl_update {α M : Type} [AddCommMonoid M] (g : DayBucket → M)
    (step : List DayBucket → α → List DayBucket) (key : α → Int) (δ : α → M)
    (hdate : ∀ data a, (step data a).map DayBucket.date = data.map DayBucket.date)
    (hsum : ∀ data a, (data.map DayBucket.date).Nodup →
      ((step data a).map g).sum =
        (data.map g).sum + (if key a ∈ data.map DayBucket.date then δ a else 0))
    (l : List α) :
    ∀ data : List DayBucket, (data.map DayBucket.date).Nodup →
      ((l.foldl step data).map g).sum =
        (data.map g).sum +
          ((l.filter (fun a => decide (key a ∈ data.map DayBucket.date))).map δ).sum := by
  induction l with
  | nil => intro data _; simp
  | cons a l ih =>
    intro data hnd
    rw [List.foldl_cons, ih (step data a) (by rw [hdate]; exact hnd), hsum data a hnd, hdate]
    by_cases ha : key a ∈ data.map DayBucket.date
    · rw [if_pos ha, List.filter_cons_of_pos (by simpa using ha)]
      simp only [List.map_cons, List.sum_cons, add_assoc]
    · rw [if_neg ha, List.filter_cons_of_neg (by simpa using ha), add_zero]

theorem map_foldl_invariant {α β : Type} (g : DayBucket → β)
    (step : List DayBucket → α → List DayBucket)
    (h : ∀ data a, (step data a).map g = data.map g) (l : List α) :
    ∀ data : List DayBucket, (l.foldl step data).map g = data.map g := by
  induction l with
  | nil => intro data; rfl
  | cons a l ih => intro data; rw [List.foldl_cons, ih, h]

theorem map_burned_addMeal (data : List DayBucket) (m : Meal) :
    (addMeal data m).map DayBucket.caloriesBurned = data.map DayBucket.caloriesBurned := by
  unfold addMeal
  rw [List.map_map]
  apply List.map_congr_left
  intro day _
  simp only [Function.comp]
  split <;> rfl

theorem map_workoutCount_addMeal (data : List DayBucket) (m : Meal) :
    (addMeal data m).map DayBucket.workoutCount = data.map DayBucket.workoutCount := by
  unfold addMeal
  rw [List.map_map]
  apply List.map_congr_left
  intro day _
  simp only [Function.comp]
  split <;> rfl

theorem map_consumed_addWorkout (data : List DayBucket) (w : Workout) :
    (addWorkout data w).map DayBucket.caloriesConsumed = data.map DayBucket.caloriesConsumed := by
  unfold addWorkout
  rw [List.map_map]
  apply List.map_congr_left
  intro day _
  simp only [Function.comp]
  split <;> rfl

theorem map_mealCount_addWorkout (data : List DayBucket) (w : Workout) :
    (addWorkout data w).map DayBucket.mealCount = data.map DayBucket.mealCount := by
  unfold addWorkout
  rw [List.map_map]
  apply List.map_congr_left
  intro day _
  simp only [Function.comp]
  split <;> rfl

theorem sum_map_emptyBucket {M : Type} [AddCommMonoid M] (g : DayBucket → M)
    (hg : ∀ k, g (emptyBucket k) = 0) (keys : List Int) :
    ((keys.map emptyBucket).map g).sum = 0 := by
  induction keys with
  | nil => rfl
  | cons k keys ih => simp only [List.map_cons, List.sum_cons, hg, ih, add_zero]

theorem sum_addWorkout_burned (data : List DayBucket) (w : Workout)
    (hnd : (data.map DayBucket.date).Nodup) :
    ((addWorkout data w).map DayBucket.caloriesBurned).sum =
      (data.map DayBucket.caloriesBurned).sum +
        (if dateKey w.date ∈ data.map DayBucket.date then w.calories else 0) :=
  sum_map_update DayBucket.caloriesBurned _ (dateKey w.date) w.calories (fun _ => rfl) data hnd

theorem sum_addWorkout_count (data : List DayBucket) (w : Workout)
    (hnd : (data.map DayBucket.date).Nodup) :
    ((addWorkout data w).map DayBucket.workoutCount).sum =
      (data.map DayBucket.workoutCount).sum +
        (if dateKey w.date ∈ data.map DayBucket.date then 1 else 0) :=
  sum_map_update DayBucket.workoutCount _ (dateKey w.date) 1 (fun _ => rfl) data hnd

theorem sum_addMeal_consumed (data : List DayBucket) (m : Meal)
    (hnd : (data.map DayBucket.date).Nodup) :
    ((addMeal data m).map DayBucket.caloriesConsumed).sum =
      (data.map DayBucket.caloriesConsumed).sum +
        (if dateKey m.date ∈ data.map DayBucket.date then m.totalCalories else 0) :=
  sum_map_update DayBucket.caloriesConsumed _ (dateKey m.date) m.totalCalories (fun _ => rfl)
    data hnd

theorem sum_addMeal_count (data : List DayBucket) (m : Meal)
    (hnd : (data.map DayBucket.date).Nodup) :
    ((addMeal data m).map DayBucket.mealCount).sum =
      (data.map DayBucket.mealCount).sum +
        (if dateKey m.date ∈ data.map DayBucket.date then 1 else 0) :=
  sum_map_update DayBucket.mealCount _ (dateKey m.date) 1 (fun _ => rfl) data hnd

theorem sum_map_one {α : Type} (l : List α) : (l.map (fun _ => (1 : Nat))).sum = l.length := by
  induction l with
  | nil => rfl
  | cons a l ih => simp only [List.map_cons, List.sum_cons, ih, List.length_cons]; omega

/-- The sums over the buckets built from the keys `keys`: every record whose
key is among `keys` is counted once, the others are dropped. -/
theorem accumulate_sums (keys : List Int) (hnd : keys.Nodup) (ws : List Workout)
    (ms : List Meal) :
    (((ms.foldl addMeal (ws.foldl addWorkout (keys.map emptyBucket))).map setNet).map
        DayBucket.caloriesBurned).sum =
      ((ws.filter (fun w => decide (dateKey w.date ∈ keys))).map Workout.calories).sum ∧
    (((ms.foldl addMeal (ws.foldl addWorkout (keys.map emptyBucket))).map setNet).map
        DayBucket.workoutCount).sum =
      (ws.filter (fun w => decide (dateKey w.date ∈ keys))).length ∧
    (((ms.foldl addMeal (ws.foldl addWorkout (keys.map emptyBucket))).map setNet).map
        DayBucket.caloriesConsumed).sum =
      ((ms.filter (fun m => decide (dateKey m.date ∈ keys))).map Meal.totalCalories).sum ∧
    (((ms.foldl addMeal (ws.foldl addWorkout (keys.map emptyBucket))).map setNet).map
        DayBucket.mealCount).sum =
      (ms.filter (fun m => decide (dateKey m.date ∈ keys))).length := by
  have hinit : (keys.map emptyBucket).map DayBucket.date = keys := map_date_emptyBucket keys
  have hnd0 : ((keys.map emptyBucket).map DayBucket.date).Nodup := by rw [hinit]; exact hnd
  have hY : ((ws.foldl addWorkout (keys.map emptyBucket)).map DayBucket.date) = keys := by
    rw [map_date_foldl_addWorkout, hinit]
  have hndY : ((ws.foldl addWorkout (keys.map emptyBucket)).map DayBucket.date).Nodup := by
    rw [hY]; exact hnd
  have e1 : (DayBucket.caloriesBurned ∘ setNet) = DayBucket.caloriesBurned := rfl
  have e2 : (DayBucket.workoutCount ∘ setNet) = DayBucket.workoutCount := rfl
  have e3 : (DayBucket.caloriesConsumed ∘ setNet) = DayBucket.caloriesConsumed := rfl
  have e4 : (DayBucket.mealCount ∘ setNet) = DayBucket.mealCount := rfl
  refine ⟨?_, ?_, ?_, ?_⟩
  · rw [List.map_map, e1, map_foldl_invariant _ addMeal map_burned_addMeal,
      sum_foldl_update DayBucket.caloriesBurned addWorkout (fun w => dateKey w.date)
        Workout.calories map_date_addWorkout sum_addWorkout_burned ws _ hnd0,
      sum_map_emptyBucket _ (fun _ => rfl), zero_add, hinit]
  · rw [List.map_map, e2, map_foldl_invariant _ addMeal map_workoutCount_addMeal,
      sum_foldl_update DayBucket.workoutCount addWorkout (fun w => dateKey w.date)
        (fun _ => 1) map_date_addWorkout sum_addWorkout_count ws _ hnd0,
      sum_map_emptyBucket _ (fun _ => rfl), zero_add, hinit, sum_map_one]
  · rw [List.map_map, e3,
      sum_foldl_update DayBucket.caloriesConsumed addMeal (fun m => dateKey m.date)
        Meal.totalCalories map_date_addMeal sum_addMeal_consumed ms _ hndY,
      map_foldl_invariant _ addWorkout map_consumed_addWorkout,
      sum_map_emptyBucket _ (fun _ => rfl), zero_add, hY]
  · rw [List.map_map, e4,
      sum_foldl_update DayBucket.mealCount addMeal (fun m => dateKey m.date)
        (fun _ => 1) map_date_addMeal sum_addMeal_count ms _ hndY,
      map_foldl_invariant _ addWorkout map_mealCount_addWorkout,
      sum_map_emptyBucket _ (fun _ => rfl), zero_add, hY, sum_map_one]

/-! ## The answer of `/summary` -/

theorem summary_dailyData (tz now : Int) (userId : Nat) (query : Option String)
    (wdb : List Workout) (mdb : List Meal) :
    ∃ k : Int, 0 ≤ k ∧ k ≤ 31 ∧
      (query.getD "week" = "day" → k = 0) ∧
      (query.getD "week" ≠ "day" → query.getD "week" ≠ "month" → k = 7) ∧
      (query.getD "week" = "month" → k = dayOf tz now - prevMonthDay (dayOf tz now)) ∧
      (progressSummary tz now userId query wdb mdb).startDate =
        midnightOf tz (dayOf tz now - k) ∧
      (progressSummary tz now userId query wdb mdb).dailyData =
        (((findMealsBetween userId (midnightOf tz (dayOf tz now - k)) now mdb).insertionSort
            (fun a b => a.date ≤ b.date)).foldl addMeal
          (((findWorkoutsBetween userId (midnightOf tz (dayOf tz now - k)) now wdb).insertionSort
            (fun a b => a.date ≤ b.date)).foldl addWorkout
            ((dayKeys (dateKey (midnightOf tz (dayOf tz now - k))) (k.toNat + 1)).map
              emptyBucket))).map setNet := by
  obtain ⟨k, hk0, hk1, hs, hd, hw, hm⟩ := summaryStart_spec tz now (query.getD "week")
  refine ⟨k, hk0, hk1, hd, hw, hm, ?_, ?_⟩
  · exact hs
  · show dailyDataOf (summaryStart tz now (query.getD "week")) now _ _ = _
    rw [hs]
    unfold dailyDataOf
    simp only
    rw [initDates_window tz now k hk0]

theorem summary_dates (tz now : Int) (userId : Nat) (query : Option String)
    (wdb : List Workout) (mdb : List Meal) :
    ∃ k : Int, 0 ≤ k ∧ k ≤ 31 ∧
      (query.getD "week" = "day" → k = 0) ∧
      (query.getD "week" ≠ "day" → query.getD "week" ≠ "month" → k = 7) ∧
      (query.getD "week" = "month" → k = dayOf tz now - prevMonthDay (dayOf tz now)) ∧
      (progressSummary tz now userId query wdb mdb).startDate =
        midnightOf tz (dayOf tz now - k) ∧
      (progressSummary tz now userId query wdb mdb).dailyData.map DayBucket.date =
        dayKeys (dateKey (progressSummary tz now userId query wdb mdb).startDate)
          (k.toNat + 1) := by
  obtain ⟨k, hk0, hk1, hd, hw, hm, hs, hdata⟩ :=
    summary_dailyData tz now userId query wdb mdb
  refine ⟨k, hk0, hk1, hd, hw, hm, hs, ?_⟩
  have e : (DayBucket.date ∘ setNet) = DayBucket.date := rfl
  rw [hdata, hs, List.map_map, e, map_date_foldl_addMeal, map_date_foldl_addWorkout,
    map_date_emptyBucket]

theorem summary_totals_eq (tz now : Int) (userId : Nat) (query : Option String)
    (wdb : List Workout) (mdb : List Meal) :
    (progressSummary tz now userId query wdb mdb).totals.totalCaloriesBurned =
      ((progressSummary tz now userId query wdb mdb).dailyData.map
        DayBucket.caloriesBurned).sum ∧
    (progressSummary tz now userId query wdb mdb).totals.totalCaloriesConsumed =
      ((progressSummary tz now userId query wdb mdb).dailyData.map
        DayBucket.caloriesConsumed).sum ∧
    (progressSummary tz now userId query wdb mdb).totals.totalWorkouts =
      ((progressSummary tz now userId query wdb mdb).dailyData.map
        DayBucket.workoutCount).sum ∧
    (progressSummary tz now userId query wdb mdb).totals.totalMeals =
      ((progressSummary tz now userId query wdb mdb).dailyData.map
        DayBucket.mealCount).sum := by
  refine ⟨?_, ?_, ?_, ?_⟩ <;>
  · simp only [progressSummary]
    rw [foldl_add_sum, zero_add]

theorem filter_insertionSort_perm {α : Type} (r : α → α → Prop) [DecidableRel r]
    (p : α → Bool) (l : List α) : ((l.insertionSort r).filter p).Perm (l.filter p) :=
  (List.perm_insertionSort r l).filter p

/-- The totals of `/summary` count the fetched records whose UTC date is the
key of a bucket. -/
theorem summary_totals (tz now : Int) (userId : Nat) (query : Option String)
    (wdb : List Workout) (mdb : List Meal) :
    (progressSummary tz now userId query wdb mdb).totals.totalCaloriesBurned =
      (((findWorkoutsBetween userId (progressSummary tz now userId query wdb mdb).startDate
          now wdb).filter (fun w => decide (dateKey w.date ∈
            (progressSummary tz now userId query wdb mdb).dailyData.map DayBucket.date))).map
        Workout.calories).sum ∧
    (progressSummary tz now userId query wdb mdb).totals.totalWorkouts =
      ((findWorkoutsBetween userId (progressSummary tz now userId query wdb mdb).startDate
          now wdb).filter (fun w => decide (dateKey w.date ∈
            (progressSummary tz now userId query wdb mdb).dailyData.map
              DayBucket.date))).length ∧
    (progressSummary tz now userId query wdb mdb).totals.totalCaloriesConsumed =
      (((findMealsBetween userId (progressSummary tz now userId query wdb mdb).startDate
          now mdb).filter (fun m => decide (dateKey m.date ∈
            (progressSummary tz now userId query wdb mdb).dailyData.map DayBucket.date))).map
        Meal.totalCalories).sum ∧
    (progressSummary tz now userId query wdb mdb).totals.totalMeals =
      ((findMealsBetween userId (progressSummary tz now userId query wdb mdb).startDate
          now mdb).filter (fun m => decide (dateKey m.date ∈
            (progressSummary tz now userId query wdb mdb).dailyData.map
              DayBucket.date))).length := by
  obtain ⟨h1, h2, h3, h4⟩ := summary_totals_eq tz now userId query wdb mdb
  obtain ⟨k, _, _, _, _, _, hs, hdates⟩ := summary_dates tz now userId query wdb mdb
  obtain ⟨k', _, _, _, _, _, hs', hdata⟩ := summary_dailyData tz now userId query wdb mdb
  have hkk : k' = k := by
    have := hs.symm.trans hs'
    simp only [midnightOf, msPerDay] at this
    omega
  subst hkk
  obtain ⟨a1, a2, a3, a4⟩ := accumulate_sums
    (dayKeys (dateKey (midnightOf tz (dayOf tz now - k'))) (k'.toNat + 1))
    (nodup_dayKeys _ _)
    ((findWorkoutsBetween userId (midnightOf tz (dayOf tz now - k')) now wdb).insertionSort
      (fun a b => a.date ≤ b.date))
    ((findMealsBetween userId (midnightOf tz (dayOf tz now - k')) now mdb).insertionSort
      (fun a b => a.date ≤ b.date))
  rw [← hdata, ← hs] at a1 a2 a3 a4
  rw [h1, h2, h3, h4, hdates, a1, a2, a3, a4]
  refine ⟨?_, ?_, ?_, ?_⟩
  · exact ((filter_insertionSort_perm _ _ _).map _).sum_eq
  · exact (filter_insertionSort_perm _ _ _).length_eq
  · exact ((filter_insertionSort_perm _ _ _).map _).sum_eq
  · exact (filter_insertionSort_perm _ _ _).length_eq

theorem dayKeys_chain (n : Nat) :
    ∀ k : Int, List.Chain' (fun a b => b = a + 1) (dayKeys k n) := by
  induction n with
  | zero => intro k; simp [dayKeys]
  | succ n ih =>
    intro k
    cases n with
    | zero => simp [dayKeys]
    | succ n =>
      have := ih (k + 1)
      simp only [dayKeys] at this ⊢
      exact List.Chain'.cons rfl this

theorem dayKeys_map_midnight (tz : Int) (n : Nat) :
    ∀ d : Int, dayKeys (dateKey (midnightOf tz d)) n =
      (dayKeys d n).map (fun x => dateKey (midnightOf tz x)) := by
  induction n with
  | zero => intro d; rfl
  | succ n ih =>
    intro d
    simp only [dayKeys, List.map_cons]
    rw [← ih (d + 1)]
    have : dateKey (midnightOf tz (d + 1)) = dateKey (midnightOf tz d) + 1 := by
      simp only [dateKey, midnightOf, msPerDay]
      omega
    rw [this]

theorem summary_averages (tz now : Int) (userId : Nat) (query : Option String)
    (wdb : List Workout) (mdb : List Meal) :
    (progressSummary tz now userId query wdb mdb).totals.averageCaloriesBurned =
      roundDiv (progressSummary tz now userId query wdb mdb).totals.totalCaloriesBurned
        (progressSummary tz now userId query wdb mdb).dailyData.length ∧
    (progressSummary tz now userId query wdb mdb).totals.averageCaloriesConsumed =
      roundDiv (progressSummary tz now userId query wdb mdb).totals.totalCaloriesConsumed
        (progressSummary tz now userId query wdb mdb).dailyData.length :=
  ⟨rfl, rfl⟩

theorem summary_length (tz now : Int) (userId : Nat) (query : Option String)
    (wdb : List Workout) (mdb : List Meal) :
    ∃ k : Int, 0 ≤ k ∧ k ≤ 31 ∧
      (query.getD "week" = "day" → k = 0) ∧
      (query.getD "week" ≠ "day" → query.getD "week" ≠ "month" → k = 7) ∧
      (query.getD "week" = "month" → k = dayOf tz now - prevMonthDay (dayOf tz now)) ∧
      (progressSummary tz now userId query wdb mdb).startDate =
        midnightOf tz (dayOf tz now - k) ∧
      ((progressSummary tz now userId query wdb mdb).dailyData.length : Int) = k + 1 := by
  obtain ⟨k, hk0, hk1, hd, hw, hm, hs, hdates⟩ := summary_dates tz now userId query wdb mdb
  refine ⟨k, hk0, hk1, hd, hw, hm, hs, ?_⟩
  have := congrArg List.length hdates
  rw [List.length_map, length_dayKeys] at this
  rw [this]
  push_cast
  omega

/-! ## The answer of `/nutrition` -/

theorem nutrition_foldl (ms : List Meal) :
    ∀ acc : NutritionTotals,
      ms.foldl (fun acc meal =>
        ({ calories := acc.calories + meal.totalCalories
           protein := acc.protein + meal.totalProtein
           carbs := acc.carbs + meal.totalCarbs
           fats := acc.fats + meal.totalFats } : NutritionTotals)) acc =
      { calories := acc.calories + (ms.map Meal.totalCalories).sum
        protein := acc.protein + (ms.map Meal.totalProtein).sum
        carbs := acc.carbs + (ms.map Meal.totalCarbs).sum
        fats := acc.fats + (ms.map Meal.totalFats).sum } := by
  induction ms with
  | nil => intro acc; simp
  | cons m ms ih =>
    intro acc
    simp only [List.foldl_cons, ih, List.map_cons, List.sum_cons, add_assoc]

/-- The totals of `/nutrition` are the sums over the meals of its window. -/
theorem nutrition_totals (tz now : Int) (userId : Nat) (query : Option String)
    (mdb : List Meal) :
    (nutritionBreakdown tz now userId query mdb).totals =
      { calories := ((findMealsBetween userId (nutritionStart tz now (query.getD "week")) now
          mdb).map Meal.totalCalories).sum
        protein := ((findMealsBetween userId (nutritionStart tz now (query.getD "week")) now
          mdb).map Meal.totalProtein).sum
        carbs := ((findMealsBetween userId (nutritionStart tz now (query.getD "week")) now
          mdb).map Meal.totalCarbs).sum
        fats := ((findMealsBetween userId (nutritionStart tz now (query.getD "week")) now
          mdb).map Meal.totalFats).sum } ∧
    (nutritionBreakdown tz now userId query mdb).mealCount =
      (findMealsBetween userId (nutritionStart tz now (query.getD "week")) now mdb).length := by
  refine ⟨?_, rfl⟩
  simp only [nutritionBreakdown]
  rw [nutrition_foldl]
  simp

theorem nutrition_averages (tz now : Int) (userId : Nat) (query : Option String)
    (mdb : List Meal) :
    (nutritionBreakdown tz now userId query mdb).averages =
      { calories := roundDiv (nutritionBreakdown tz now userId query mdb).totals.calories
          (ceilDays now (nutritionStart tz now (query.getD "week")))
        protein := roundDiv (nutritionBreakdown tz now userId query mdb).totals.protein
          (ceilDays now (nutritionStart tz now (query.getD "week")))
        carbs := roundDiv (nutritionBreakdown tz now userId query mdb).totals.carbs
          (ceilDays now (nutritionStart tz now (query.getD "week")))
        fats := roundDiv (nutritionBreakdown tz now userId query mdb).totals.fats
          (ceilDays now (nutritionStart tz now (query.getD "week"))) } :=
  rfl

theorem ceilDays_week (now : Int) : ceilDays now (setDateAdd now (-7)) = 7 := by
  simp only [ceilDays, setDateAdd, msPerDay]
  omega

theorem roundDiv_seven (x : ℚ) : roundDiv x ((7 : Int) : ℚ) = some ⌊x / 7 + 1 / 2⌋ := by
  unfold roundDiv
  rw [if_neg (by norm_num)]
  norm_num

theorem setHoursZero_le (tz t : Int) : setHoursZero tz t ≤ t := by
  simp only [setHoursZero, msPerDay]
  omega

theorem summaryStart_le_nutritionStart (tz now : Int) (period : String) :
    summaryStart tz now period ≤ nutritionStart tz now period ∧
      (period = "day" → summaryStart tz now period = nutritionStart tz now period) := by
  unfold summaryStart nutritionStart
  by_cases hd : period = "day"
  · rw [if_pos hd, if_pos hd]
    exact ⟨le_refl _, fun _ => rfl⟩
  · rw [if_neg hd, if_neg hd]
    refine ⟨?_, fun h => absurd h hd⟩
    split_ifs <;> exact setHoursZero_le _ _

/-! ## The claims C11 to C20 -/

/-- C11 (code defect): for a single workout made today at 08:00 (request at
12:00) the handler answers `daysSinceLastWorkout = -1`, and for a workout made
yesterday at 08:00 it answers 0; the claim says 0 and 1. -/
theorem C11_days_since_last_workout_off_by_one :
    dayOf 0 (20000 * msPerDay + 28800000) = dayOf 0 (20000 * msPerDay + 43200000) ∧
    (streak 0 (20000 * msPerDay + 43200000) [20000 * msPerDay + 28800000]).daysSinceLastWorkout =
      some (-1) ∧
    dayOf 0 (19999 * msPerDay + 28800000) = dayOf 0 (20000 * msPerDay + 43200000) - 1 ∧
    (streak 0 (20000 * msPerDay + 43200000) [19999 * msPerDay + 28800000]).daysSinceLastWorkout =
      some 0 := by
  decide

/-- On a clock that keeps one offset: for period = week, when the user has no workout and no meal in the
window, the summary has exactly 8 buckets, each with `caloriesBurned`,
`caloriesConsumed`, `workoutCount`, `mealCount` and `netCalories` equal to 0,
and `totals.netCalories = 0`, for every clock value and offset. -/
theorem const_offset_week_without_records (tz now : Int) (userId : Nat) (wdb : List Workout)
    (mdb : List Meal)
    (hw : findWorkoutsBetween userId (summaryStart tz now "week") now wdb = [])
    (hm : findMealsBetween userId (summaryStart tz now "week") now mdb = []) :
    (progressSummary tz now userId (some "week") wdb mdb).dailyData.length = 8 ∧
    (∀ b ∈ (progressSummary tz now userId (some "week") wdb mdb).dailyData,
      b.caloriesBurned = 0 ∧ b.caloriesConsumed = 0 ∧ b.workoutCount = 0 ∧ b.mealCount = 0 ∧
        b.netCalories = 0) ∧
    (progressSummary tz now userId (some "week") wdb mdb).totals.netCalories = 0 := by
  obtain ⟨k, _, _, _, hk, _, hs, hdata⟩ :=
    summary_dailyData tz now userId (some "week") wdb mdb
  have hk7 : k = 7 := hk (by decide) (by decide)
  subst hk7
  have hst : summaryStart tz now "week" = midnightOf tz (dayOf tz now - 7) := hs
  rw [hst] at hw hm
  rw [hw, hm] at hdata
  simp only [List.insertionSort, List.foldl_nil] at hdata
  have hzero : ∀ b ∈ (progressSummary tz now userId (some "week") wdb mdb).dailyData,
      b.caloriesBurned = 0 ∧ b.caloriesConsumed = 0 ∧ b.workoutCount = 0 ∧ b.mealCount = 0 ∧
        b.netCalories = 0 := by
    intro b hb
    rw [hdata] at hb
    simp only [List.mem_map] at hb
    obtain ⟨x, ⟨key, _, rfl⟩, rfl⟩ := hb
    simp [setNet, emptyBucket]
  refine ⟨?_, hzero, ?_⟩
  · rw [hdata, List.length_map, List.length_map, length_dayKeys]
    rfl
  · obtain ⟨h1, h2, _, _⟩ := summary_totals_eq tz now userId (some "week") wdb mdb
    have hb : ((progressSummary tz now userId (some "week") wdb mdb).dailyData.map
        DayBucket.caloriesBurned).sum = 0 :=
      List.sum_eq_zero (by
        intro x hx
        obtain ⟨b, hb, rfl⟩ := List.mem_map.mp hx
        exact (hzero b hb).1)
    have hc : ((progressSummary tz now userId (some "week") wdb mdb).dailyData.map
        DayBucket.caloriesConsumed).sum = 0 :=
      List.sum_eq_zero (by
        intro x hx
        obtain ⟨b, hb, rfl⟩ := List.mem_map.mp hx
        exact (hzero b hb).2.1)
    show (progressSummary tz now userId (some "week") wdb mdb).totals.totalCaloriesConsumed -
      (progressSummary tz now userId (some "week") wdb mdb).totals.totalCaloriesBurned = 0
    rw [h1, h2, hb, hc, sub_zero]

/-- An instance at an empty database, for a server at UTC+5:30: the two fetches are
empty and the summary has 8 zeroed buckets. -/
theorem const_offset_week_without_records_witness :
    (progressSummary 19800000 (20000 * msPerDay + 43200000) 1 (some "week") [] []).dailyData.length
      = 8 ∧
    (∀ b ∈ (progressSummary 19800000 (20000 * msPerDay + 43200000) 1 (some "week") [] []).dailyData,
      b.caloriesBurned = 0 ∧ b.caloriesConsumed = 0 ∧ b.workoutCount = 0 ∧ b.mealCount = 0 ∧
        b.netCalories = 0) ∧
    (progressSummary 19800000 (20000 * msPerDay + 43200000) 1 (some "week") [] []).totals.netCalories
      = 0 :=
  const_offset_week_without_records 19800000 (20000 * msPerDay + 43200000) 1 [] [] rfl rfl

/-- C13 (code defect): on a server at UTC+5:30, for period = week, a workout
made at the time of the request (12:00 local) is fetched
(`startDate <= date <= endDate`) but its UTC date is the key of no bucket (the
keys are the UTC dates of the local midnights, one day behind), so it is
ignored: `totals.totalWorkouts = 0` and `totals.totalCaloriesBurned = 0`. -/
theorem C13_fetched_workout_ignored :
    findWorkoutsBetween 1
        (progressSummary 19800000 (20000 * msPerDay + 23400000) 1 (some "week")
          [runAt 1 (20000 * msPerDay + 23400000) 300] []).startDate
        (20000 * msPerDay + 23400000) [runAt 1 (20000 * msPerDay + 23400000) 300] =
      [runAt 1 (20000 * msPerDay + 23400000) 300] ∧
    (progressSummary 19800000 (20000 * msPerDay + 23400000) 1 (some "week")
      [runAt 1 (20000 * msPerDay + 23400000) 300] []).dailyData.map DayBucket.date =
      [19992, 19993, 19994, 19995, 19996, 19997, 19998, 19999] ∧
    dateKey (runAt 1 (20000 * msPerDay + 23400000) 300).date = 20000 ∧
    (progressSummary 19800000 (20000 * msPerDay + 23400000) 1 (some "week")
      [runAt 1 (20000 * msPerDay + 23400000) 300] []).totals.totalWorkouts = 0 ∧
    (progressSummary 19800000 (20000 * msPerDay + 23400000) 1 (some "week")
      [runAt 1 (20000 * msPerDay + 23400000) 300] []).totals.totalCaloriesBurned = 0 := by
  have hd : (progressSummary 19800000 (20000 * msPerDay + 23400000) 1 (some "week")
      [runAt 1 (20000 * msPerDay + 23400000) 300] []).dailyData.map DayBucket.date =
      [19992, 19993, 19994, 19995, 19996, 19997, 19998, 19999] := by decide
  have hf : findWorkoutsBetween 1
        (progressSummary 19800000 (20000 * msPerDay + 23400000) 1 (some "week")
          [runAt 1 (20000 * msPerDay + 23400000) 300] []).startDate
        (20000 * msPerDay + 23400000) [runAt 1 (20000 * msPerDay + 23400000) 300] =
      [runAt 1 (20000 * msPerDay + 23400000) 300] := by decide
  refine ⟨hf, hd, by decide, by decide, ?_⟩
  rw [(summary_totals 19800000 (20000 * msPerDay + 23400000) 1 (some "week")
      [runAt 1 (20000 * msPerDay + 23400000) 300] []).1, hf, hd]
  have : ([runAt 1 (20000 * msPerDay + 23400000) 300].filter (fun w => decide (dateKey w.date ∈
      [19992, 19993, 19994, 19995, 19996, 19997, 19998, 19999]))) = [] := by decide
  rw [this]
  rfl

/-- On a clock that keeps one offset: for every period, clock value and offset the summary holds one bucket
per local calendar day from the day of `startDate` through the day of
`endDate` (today), each keyed by the UTC date of the local midnight of its
day, in ascending order with consecutive dates and without duplicate; for
period = day it holds exactly 1 bucket. -/
theorem const_offset_one_bucket_per_day (tz now : Int) (userId : Nat) (query : Option String)
    (wdb : List Workout) (mdb : List Meal) :
    ∃ n : Nat,
      (n : Int) = dayOf tz now -
        dayOf tz (progressSummary tz now userId query wdb mdb).startDate + 1 ∧
      1 ≤ n ∧
      (progressSummary tz now userId query wdb mdb).dailyData.length = n ∧
      (progressSummary tz now userId query wdb mdb).dailyData.map DayBucket.date =
        (dayKeys (dayOf tz (progressSummary tz now userId query wdb mdb).startDate) n).map
          (fun d => dateKey (midnightOf tz d)) ∧
      (progressSummary tz now userId query wdb mdb).dailyData.map DayBucket.date =
        dayKeys (dateKey (progressSummary tz now userId query wdb mdb).startDate) n ∧
      List.Chain' (fun a b => b = a + 1)
        ((progressSummary tz now userId query wdb mdb).dailyData.map DayBucket.date) ∧
      ((progressSummary tz now userId query wdb mdb).dailyData.map DayBucket.date).Nodup ∧
      (query = some "day" → (progressSummary tz now userId query wdb mdb).dailyData.length = 1) := by
  obtain ⟨k, hk0, hk1, hd, _, _, hs, hdates⟩ := summary_dates tz now userId query wdb mdb
  have hlen : (progressSummary tz now userId query wdb mdb).dailyData.length = k.toNat + 1 := by
    have := congrArg List.length hdates
    rwa [List.length_map, length_dayKeys] at this
  have hday : dayOf tz (progressSummary tz now userId query wdb mdb).startDate =
      dayOf tz now - k := by rw [hs, dayOf_midnightOf]
  refine ⟨k.toNat + 1, ?_, by omega, hlen, ?_, hdates, ?_, ?_, ?_⟩
  · rw [hday]
    push_cast
    omega
  · rw [hdates, hday, hs, dayKeys_map_midnight]
  · rw [hdates]
    exact dayKeys_chain _ _
  · rw [hdates]
    exact nodup_dayKeys _ _
  · intro hq
    have : k = 0 := hd (by rw [hq]; rfl)
    rw [hlen, this]
    rfl

/-- An instance at period = day on a server at UTC+5:30: exactly one bucket. -/
theorem const_offset_one_bucket_per_day_witness :
    (progressSummary 19800000 (20000 * msPerDay + 23400000) 1 (some "day")
      [runAt 1 (20000 * msPerDay + 23400000) 300] []).dailyData.length = 1 :=
  (const_offset_one_bucket_per_day 19800000 (20000 * msPerDay + 23400000) 1 (some "day")
    [runAt 1 (20000 * msPerDay + 23400000) 300] []).elim
    (fun _ h => h.2.2.2.2.2.2.2 rfl)

/-- C15 (counterexample): on 15 March 2024, 12:00 UTC, the window of period =
month starts on 15 February, 29 days before, and the summary has 30 buckets,
not 31. -/
theorem C15_month_not_30_days :
    civilFromDays (dayOf 0 (19797 * msPerDay + 43200000)) = (2024, 3, 15) ∧
    dayOf 0 (progressSummary 0 (19797 * msPerDay + 43200000) 1 (some "month") [] []).startDate =
      dayOf 0 (19797 * msPerDay + 43200000) - 29 ∧
    (progressSummary 0 (19797 * msPerDay + 43200000) 1 (some "month") [] []).dailyData.length = 30 ∧
    ¬ (progressSummary 0 (19797 * msPerDay + 43200000) 1 (some "month") [] []).dailyData.length
      = 31 := by
  decide

/-- On a clock that keeps one offset: for period = month the window starts at the start of the
local day that `setMonth(getMonth() - 1)` gives: the day with the same number
in the month before, between 28 and 31 days before today; the summary has one
bucket more than that number of days, so between 29 and 32 buckets, and 31
exactly when the window starts 30 days before today. -/
theorem const_offset_month_window (tz now : Int) (userId : Nat) (wdb : List Workout) (mdb : List Meal) :
    ∃ L : Int, 28 ≤ L ∧ L ≤ 31 ∧
      L = dayOf tz now - prevMonthDay (dayOf tz now) ∧
      (progressSummary tz now userId (some "month") wdb mdb).startDate =
        midnightOf tz (dayOf tz now - L) ∧
      dayOf tz (progressSummary tz now userId (some "month") wdb mdb).startDate =
        dayOf tz now - L ∧
      ((progressSummary tz now userId (some "month") wdb mdb).dailyData.length : Int) = L + 1 ∧
      ((progressSummary tz now userId (some "month") wdb mdb).dailyData.length = 31 ↔ L = 30) := by
  obtain ⟨k, _, _, _, _, hm, hs, hlen⟩ := summary_length tz now userId (some "month") wdb mdb
  have hk : k = dayOf tz now - prevMonthDay (dayOf tz now) := hm rfl
  have hb := prevMonthDay_bounds (dayOf tz now)
  refine ⟨k, by omega, by omega, hk, hs, by rw [hs, dayOf_midnightOf], hlen, ?_⟩
  omega

/-- C16 (counterexample): with one workout of 100 calories in a week window
of 8 buckets, `totalCaloriesBurned / 8 = 12.5` but `averageCaloriesBurned` is
13. -/
theorem C16_average_is_rounded :
    (progressSummary 0 (20000 * msPerDay + 43200000) 1 (some "week")
      [runAt 1 (20000 * msPerDay + 28800000) 100] []).totals.totalCaloriesBurned = 100 ∧
    (progressSummary 0 (20000 * msPerDay + 43200000) 1 (some "week")
      [runAt 1 (20000 * msPerDay + 28800000) 100] []).dailyData.length = 8 ∧
    (progressSummary 0 (20000 * msPerDay + 43200000) 1 (some "week")
      [runAt 1 (20000 * msPerDay + 28800000) 100] []).totals.averageCaloriesBurned = some 13 ∧
    ((13 : Int) : ℚ) ≠
      (progressSummary 0 (20000 * msPerDay + 43200000) 1 (some "week")
        [runAt 1 (20000 * msPerDay + 28800000) 100] []).totals.totalCaloriesBurned /
      ((progressSummary 0 (20000 * msPerDay + 43200000) 1 (some "week")
        [runAt 1 (20000 * msPerDay + 28800000) 100] []).dailyData.length : ℚ) := by
  have hd : (progressSummary 0 (20000 * msPerDay + 43200000) 1 (some "week")
      [runAt 1 (20000 * msPerDay + 28800000) 100] []).dailyData.map DayBucket.date =
      [19993, 19994, 19995, 19996, 19997, 19998, 19999, 20000] := by decide
  have hf : findWorkoutsBetween 1
        (progressSummary 0 (20000 * msPerDay + 43200000) 1 (some "week")
          [runAt 1 (20000 * msPerDay + 28800000) 100] []).startDate
        (20000 * msPerDay + 43200000) [runAt 1 (20000 * msPerDay + 28800000) 100] =
      [runAt 1 (20000 * msPerDay + 28800000) 100] := by decide
  have hl : (progressSummary 0 (20000 * msPerDay + 43200000) 1 (some "week")
      [runAt 1 (20000 * msPerDay + 28800000) 100] []).dailyData.length = 8 := by decide
  have ht : (progressSummary 0 (20000 * msPerDay + 43200000) 1 (some "week")
      [runAt 1 (20000 * msPerDay + 28800000) 100] []).totals.totalCaloriesBurned = 100 := by
    rw [(summary_totals 0 (20000 * msPerDay + 43200000) 1 (some "week")
      [runAt 1 (20000 * msPerDay + 28800000) 100] []).1, hf, hd]
    have : ([runAt 1 (20000 * msPerDay + 28800000) 100].filter (fun w => decide (dateKey w.date ∈
        [19993, 19994, 19995, 19996, 19997, 19998, 19999, 20000]))) =
        [runAt 1 (20000 * msPerDay + 28800000) 100] := by decide
    rw [this]
    simp [runAt]
  refine ⟨ht, hl, ?_, ?_⟩
  · rw [(summary_averages 0 (20000 * msPerDay + 43200000) 1 (some "week")
      [runAt 1 (20000 * msPerDay + 28800000) 100] []).1, ht, hl]
    unfold roundDiv
    rw [if_neg (by norm_num)]
    congr 1
    rw [Int.floor_eq_iff]
    norm_num
  · rw [ht, hl]
    norm_num

/-- C16 (amended): `totals.averageCaloriesBurned` and
`totals.averageCaloriesConsumed` are `Math.round` of the total divided by the
number of buckets of the range (at least 1; every bucket counts, with or
without activity): the integer `z` with `total / n - 1/2 < z ≤ total / n + 1/2`. -/
theorem C16_average_over_all_buckets (tz now : Int) (userId : Nat) (query : Option String)
    (wdb : List Workout) (mdb : List Meal) :
    1 ≤ (progressSummary tz now userId query wdb mdb).dailyData.length ∧
    (∃ z : Int,
      (progressSummary tz now userId query wdb mdb).totals.averageCaloriesBurned = some z ∧
      z = ⌊(progressSummary tz now userId query wdb mdb).totals.totalCaloriesBurned /
            ((progressSummary tz now userId query wdb mdb).dailyData.length : ℚ) + 1 / 2⌋ ∧
      (progressSummary tz now userId query wdb mdb).totals.totalCaloriesBurned /
          ((progressSummary tz now userId query wdb mdb).dailyData.length : ℚ) - 1 / 2 < z ∧
      (z : ℚ) ≤ (progressSummary tz now userId query wdb mdb).totals.totalCaloriesBurned /
          ((progressSummary tz now userId query wdb mdb).dailyData.length : ℚ) + 1 / 2) ∧
    (∃ z : Int,
      (progressSummary tz now userId query wdb mdb).totals.averageCaloriesConsumed = some z ∧
      z = ⌊(progressSummary tz now userId query wdb mdb).totals.totalCaloriesConsumed /
            ((progressSummary tz now userId query wdb mdb).dailyData.length : ℚ) + 1 / 2⌋ ∧
      (progressSummary tz now userId query wdb mdb).totals.totalCaloriesConsumed /
          ((progressSummary tz now userId query wdb mdb).dailyData.length : ℚ) - 1 / 2 < z ∧
      (z : ℚ) ≤ (progressSummary tz now userId query wdb mdb).totals.totalCaloriesConsumed /
          ((progressSummary tz now userId query wdb mdb).dailyData.length : ℚ) + 1 / 2) := by
  obtain ⟨k, hk0, _, _, _, _, _, hlen⟩ := summary_length tz now userId query wdb mdb
  have h1 : 1 ≤ (progressSummary tz now userId query wdb mdb).dailyData.length := by omega
  have hne : ((progressSummary tz now userId query wdb mdb).dailyData.length : ℚ) ≠ 0 := by
    have : (progressSummary tz now userId query wdb mdb).dailyData.length ≠ 0 := by omega
    exact_mod_cast this
  obtain ⟨a1, a2⟩ := summary_averages tz now userId query wdb mdb
  have key : ∀ x : ℚ, x - 1 / 2 < (⌊x + 1 / 2⌋ : ℚ) ∧ ((⌊x + 1 / 2⌋ : Int) : ℚ) ≤ x + 1 / 2 := by
    intro x
    have h1 := Int.floor_le (x + 1 / 2)
    have h2 := Int.lt_floor_add_one (x + 1 / 2)
    constructor
    · linarith
    · exact h1
  refine ⟨h1, ⟨_, ?_, rfl, (key _).1, (key _).2⟩, ⟨_, ?_, rfl, (key _).1, (key _).2⟩⟩
  · rw [a1, roundDiv, if_neg hne]
  · rw [a2, roundDiv, if_neg hne]

/-- C17: in the summary every bucket has
`netCalories = caloriesConsumed - caloriesBurned`, and `totals.netCalories` is
`totals.totalCaloriesConsumed - totals.totalCaloriesBurned`, which is the sum
of the buckets' `netCalories`. -/
theorem C17_net_calories (tz now : Int) (userId : Nat) (query : Option String)
    (wdb : List Workout) (mdb : List Meal) :
    (∀ b ∈ (progressSummary tz now userId query wdb mdb).dailyData,
      b.netCalories = b.caloriesConsumed - b.caloriesBurned) ∧
    (progressSummary tz now userId query wdb mdb).totals.netCalories =
      (progressSummary tz now userId query wdb mdb).totals.totalCaloriesConsumed -
        (progressSummary tz now userId query wdb mdb).totals.totalCaloriesBurned ∧
    (progressSummary tz now userId query wdb mdb).totals.netCalories =
      ((progressSummary tz now userId query wdb mdb).dailyData.map DayBucket.netCalories).sum := by
  have hb : ∀ b ∈ (progressSummary tz now userId query wdb mdb).dailyData,
      b.netCalories = b.caloriesConsumed - b.caloriesBurned := by
    intro b hb
    have hb' : b ∈ dailyDataOf (summaryStart tz now (query.getD "week")) now
        ((findWorkoutsBetween userId (summaryStart tz now (query.getD "week")) now
          wdb).insertionSort (fun a b => a.date ≤ b.date))
        ((findMealsBetween userId (summaryStart tz now (query.getD "week")) now
          mdb).insertionSort (fun a b => a.date ≤ b.date)) := hb
    unfold dailyDataOf at hb'
    simp only [List.mem_map] at hb'
    obtain ⟨x, _, rfl⟩ := hb'
    rfl
  refine ⟨hb, rfl, ?_⟩
  obtain ⟨h1, h2, _, _⟩ := summary_totals_eq tz now userId query wdb mdb
  show (progressSummary tz now userId query wdb mdb).totals.totalCaloriesConsumed -
      (progressSummary tz now userId query wdb mdb).totals.totalCaloriesBurned = _
  rw [h1, h2]
  generalize (progressSummary tz now userId query wdb mdb).dailyData = data at hb
  induction data with
  | nil => simp
  | cons x rest ih =>
    have hx := hb x (List.mem_cons_self _ _)
    have := ih (fun b hb' => hb b (List.mem_cons_of_mem _ hb'))
    simp only [List.map_cons, List.sum_cons]
    rw [hx, ← this]
    ring

/-- C17 at a week with one workout: the net total is the difference of the
two totals. -/
theorem C17_net_calories_witness :
    (progressSummary 0 (20000 * msPerDay + 43200000) 1 (some "week")
      [runAt 1 (20000 * msPerDay + 28800000) 100] []).totals.netCalories =
      (progressSummary 0 (20000 * msPerDay + 43200000) 1 (some "week")
        [runAt 1 (20000 * msPerDay + 28800000) 100] []).totals.totalCaloriesConsumed -
      (progressSummary 0 (20000 * msPerDay + 43200000) 1 (some "week")
        [runAt 1 (20000 * msPerDay + 28800000) 100] []).totals.totalCaloriesBurned :=
  (C17_net_calories 0 (20000 * msPerDay + 43200000) 1 (some "week")
    [runAt 1 (20000 * msPerDay + 28800000) 100] []).2.1

/-- C18 (code defect): for period = day and a request made exactly at local
midnight, with no meals, the nutrition breakdown divides by `days = 0`: its
four averages are `NaN` (`null` in the answer), not 0. -/
theorem C18_nutrition_average_nan_at_midnight :
    setHoursZero 0 (20000 * msPerDay) = 20000 * msPerDay ∧
    ceilDays (20000 * msPerDay) (nutritionStart 0 (20000 * msPerDay) "day") = 0 ∧
    (nutritionBreakdown 0 (20000 * msPerDay) 1 (some "day") []).mealCount = 0 ∧
    (nutritionBreakdown 0 (20000 * msPerDay) 1 (some "day") []).averages =
      { calories := none, protein := none, carbs := none, fats := none } := by
  decide

/-- On a clock that keeps one offset: for period = week the number of days is 7 for every clock value, and
each nutrition average is `Math.round` of the period total divided by 7; a
protein total of 210 gives `averages.protein = 30`. -/
theorem const_offset_week_nutrition_averages (tz now : Int) (userId : Nat) (mdb : List Meal) :
    ceilDays now (nutritionStart tz now "week") = 7 ∧
    (nutritionBreakdown tz now userId (some "week") mdb).averages.calories =
      some ⌊(nutritionBreakdown tz now userId (some "week") mdb).totals.calories / 7 + 1 / 2⌋ ∧
    (nutritionBreakdown tz now userId (some "week") mdb).averages.protein =
      some ⌊(nutritionBreakdown tz now userId (some "week") mdb).totals.protein / 7 + 1 / 2⌋ ∧
    (nutritionBreakdown tz now userId (some "week") mdb).averages.carbs =
      some ⌊(nutritionBreakdown tz now userId (some "week") mdb).totals.carbs / 7 + 1 / 2⌋ ∧
    (nutritionBreakdown tz now userId (some "week") mdb).averages.fats =
      some ⌊(nutritionBreakdown tz now userId (some "week") mdb).totals.fats / 7 + 1 / 2⌋ ∧
    ((nutritionBreakdown tz now userId (some "week") mdb).totals.protein = 210 →
      (nutritionBreakdown tz now userId (some "week") mdb).averages.protein = some 30) := by
  have hstart : nutritionStart tz now "week" = setDateAdd now (-7) := by
    unfold nutritionStart
    rw [if_neg (by decide), if_pos rfl]
  have hdays : ceilDays now (nutritionStart tz now "week") = 7 := by
    rw [hstart, ceilDays_week]
  have hav := nutrition_averages tz now userId (some "week") mdb
  have hq : (some "week" : Option String).getD "week" = "week" := rfl
  rw [hq, hdays] at hav
  have h2 : (nutritionBreakdown tz now userId (some "week") mdb).averages.protein =
      some ⌊(nutritionBreakdown tz now userId (some "week") mdb).totals.protein / 7 + 1 / 2⌋ := by
    rw [hav]
    exact roundDiv_seven _
  refine ⟨hdays, ?_, h2, ?_, ?_, ?_⟩
  · rw [hav]
    exact roundDiv_seven _
  · rw [hav]
    exact roundDiv_seven _
  · rw [hav]
    exact roundDiv_seven _
  · intro h
    rw [h2, h]
    congr 1
    rw [Int.floor_eq_iff]
    norm_num

/-- An instance at one meal of 210 g of protein made the day before: the protein total
is 210 and `averages.protein = 30`. -/
theorem const_offset_week_nutrition_averages_witness :
    (nutritionBreakdown 0 (20000 * msPerDay + 43200000) 1 (some "week")
      [mealAt 1 (19999 * msPerDay + 28800000) 1400 210]).totals.protein = 210 ∧
    (nutritionBreakdown 0 (20000 * msPerDay + 43200000) 1 (some "week")
      [mealAt 1 (19999 * msPerDay + 28800000) 1400 210]).averages.protein = some 30 :=
  have h : (nutritionBreakdown 0 (20000 * msPerDay + 43200000) 1 (some "week")
      [mealAt 1 (19999 * msPerDay + 28800000) 1400 210]).totals.protein = 210 := by
    rw [(nutrition_totals 0 (20000 * msPerDay + 43200000) 1 (some "week")
      [mealAt 1 (19999 * msPerDay + 28800000) 1400 210]).1]
    have hf : findMealsBetween 1
        (nutritionStart 0 (20000 * msPerDay + 43200000) ((some "week" : Option String).getD "week"))
        (20000 * msPerDay + 43200000) [mealAt 1 (19999 * msPerDay + 28800000) 1400 210] =
        [mealAt 1 (19999 * msPerDay + 28800000) 1400 210] := by decide
    rw [hf]
    simp [mealAt]
  ⟨h, (const_offset_week_nutrition_averages 0 (20000 * msPerDay + 43200000) 1
      [mealAt 1 (19999 * msPerDay + 28800000) 1400 210]).2.2.2.2.2 h⟩

/-- C20 (counterexample): on a UTC server, at 12:00, for period = week, a meal
made at 08:00 seven days before is aggregated by the summary
(`totals.totalMeals = 1`) but not by the nutrition breakdown (`mealCount = 0`):
the summary window starts at the start of that day, the nutrition window at
12:00 of that day. -/
theorem C20_windows_differ :
    summaryStart 0 (20000 * msPerDay + 43200000) "week" = 19993 * msPerDay ∧
    nutritionStart 0 (20000 * msPerDay + 43200000) "week" = 19993 * msPerDay + 43200000 ∧
    (progressSummary 0 (20000 * msPerDay + 43200000) 1 (some "week") []
      [mealAt 1 (19993 * msPerDay + 28800000) 500 20]).totals.totalMeals = 1 ∧
    (nutritionBreakdown 0 (20000 * msPerDay + 43200000) 1 (some "week")
      [mealAt 1 (19993 * msPerDay + 28800000) 500 20]).mealCount = 0 ∧
    ¬ (nutritionBreakdown 0 (20000 * msPerDay + 43200000) 1 (some "week")
        [mealAt 1 (19993 * msPerDay + 28800000) 500 20]).mealCount =
      (progressSummary 0 (20000 * msPerDay + 43200000) 1 (some "week") []
        [mealAt 1 (19993 * msPerDay + 28800000) 500 20]).totals.totalMeals := by
  decide

/-- C20 (amended): for the same period, clock value and stored meals, the
window of the nutrition breakdown lies inside the window of the summary (the
same end; the summary starts at the start of the day, and the two starts
coincide for period = day); on a server whose clock is UTC, when no stored
meal of the user is dated from the start of the summary window to before the
start of the nutrition window, the two endpoints aggregate the same meals:
nutrition `totals.calories` is the summary's `totals.totalCaloriesConsumed`
and nutrition `mealCount` is the summary's `totals.totalMeals`. -/
theorem C20_nutrition_matches_summary (tz now : Int) (userId : Nat) (query : Option String)
    (wdb : List Workout) (mdb : List Meal) :
    summaryStart tz now (query.getD "week") ≤ nutritionStart tz now (query.getD "week") ∧
    (query.getD "week" = "day" →
      summaryStart tz now (query.getD "week") = nutritionStart tz now (query.getD "week")) ∧
    (tz = 0 →
      (∀ m ∈ mdb, m.userId = userId → summaryStart tz now (query.getD "week") ≤ m.date →
        nutritionStart tz now (query.getD "week") ≤ m.date) →
      (nutritionBreakdown tz now userId query mdb).totals.calories =
        (progressSummary tz now userId query wdb mdb).totals.totalCaloriesConsumed ∧
      (nutritionBreakdown tz now userId query mdb).mealCount =
        (progressSummary tz now userId query wdb mdb).totals.totalMeals) := by
  obtain ⟨hle, hday⟩ := summaryStart_le_nutritionStart tz now (query.getD "week")
  refine ⟨hle, hday, ?_⟩
  intro htz h
  subst htz
  obtain ⟨_, _, t3, t4⟩ := summary_totals 0 now userId query wdb mdb
  obtain ⟨k, hk0, _, _, _, _, hs, hdates⟩ := summary_dates 0 now userId query wdb mdb
  obtain ⟨n1, n2⟩ := nutrition_totals 0 now userId query mdb
  have hS : (progressSummary 0 now userId query wdb mdb).startDate =
      summaryStart 0 now (query.getD "week") := rfl
  have hall : (findMealsBetween userId (progressSummary 0 now userId query wdb mdb).startDate
      now mdb).filter (fun m => decide (dateKey m.date ∈
        (progressSummary 0 now userId query wdb mdb).dailyData.map DayBucket.date)) =
      findMealsBetween userId (progressSummary 0 now userId query wdb mdb).startDate now mdb := by
    rw [List.filter_eq_self]
    intro m hm
    unfold findMealsBetween at hm
    rw [List.mem_filter] at hm
    have hm2 := of_decide_eq_true hm.2
    rw [hdates]
    apply decide_eq_true
    rw [mem_dayKeys]
    rw [hs] at hm2 ⊢
    obtain ⟨_, h1, h2⟩ := hm2
    simp only [dateKey, midnightOf, dayOf, msPerDay] at h1 ⊢
    push_cast
    omega
  have hsame : findMealsBetween userId (progressSummary 0 now userId query wdb mdb).startDate
      now mdb = findMealsBetween userId (nutritionStart 0 now (query.getD "week")) now mdb := by
    rw [hS]
    unfold findMealsBetween
    apply List.filter_congr
    intro m hm
    by_cases hu : m.userId = userId
    · have := h m hm hu
      apply decide_eq_decide.mpr
      constructor
      · rintro ⟨a, b, c⟩; exact ⟨a, this b, c⟩
      · rintro ⟨a, b, c⟩; exact ⟨a, le_trans hle b, c⟩
    · apply decide_eq_decide.mpr
      constructor
      · rintro ⟨a, _, _⟩; exact absurd a hu
      · rintro ⟨a, _, _⟩; exact absurd a hu
  constructor
  · rw [t3, hall, hsame, n1]
  · rw [t4, hall, hsame, n2]

/-- C20 (amended) at period = day on a UTC server with one meal made today:
both endpoints count that meal. -/
theorem C20_nutrition_matches_summary_witness :
    (nutritionBreakdown 0 (20000 * msPerDay + 43200000) 1 (some "day")
      [mealAt 1 (20000 * msPerDay + 28800000) 500 20]).totals.calories =
      (progressSummary 0 (20000 * msPerDay + 43200000) 1 (some "day") []
        [mealAt 1 (20000 * msPerDay + 28800000) 500 20]).totals.totalCaloriesConsumed ∧
    (nutritionBreakdown 0 (20000 * msPerDay + 43200000) 1 (some "day")
      [mealAt 1 (20000 * msPerDay + 28800000) 500 20]).mealCount =
      (progressSummary 0 (20000 * msPerDay + 43200000) 1 (some "day") []
        [mealAt 1 (20000 * msPerDay + 28800000) 500 20]).totals.totalMeals :=
  (C20_nutrition_matches_summary 0 (20000 * msPerDay + 43200000) 1 (some "day") []
    [mealAt 1 (20000 * msPerDay + 28800000) 500 20]).2.2 rfl
    (fun m _ _ hm => by
      have e := (summaryStart_le_nutritionStart 0 (20000 * msPerDay + 43200000)
        ((some "day" : Option String).getD "week")).2 rfl
      rw [← e]
      exact hm)

/-! ## The claims C21 to C30 -/

theorem summaryStart_default (tz now : Int) (period : String)
    (h1 : period ≠ "day") (h2 : period ≠ "month") :
    summaryStart tz now period = summaryStart tz now "week" := by
  have hwd : ("week" : String) ≠ "day" := by decide
  simp only [summaryStart, if_neg h1, if_neg h2, if_neg hwd, if_true, ite_self]

theorem nutritionStart_default (tz now : Int) (period : String)
    (h1 : period ≠ "day") (h2 : period ≠ "month") :
    nutritionStart tz now period = nutritionStart tz now "week" := by
  have hwd : ("week" : String) ≠ "day" := by decide
  simp only [nutritionStart, if_neg h1, if_neg h2, if_neg hwd, if_true, ite_self]

theorem analyticsStart_default (tz now : Int) (period : String)
    (h1 : period ≠ "week") (h2 : period ≠ "year") :
    analyticsStart tz now period = analyticsStart tz now "month" := by
  have hmw : ("month" : String) ≠ "week" := by decide
  simp only [analyticsStart, if_neg h1, if_neg h2, if_neg hmw, if_true, ite_self]

/-- C21: for every period value other than `day` and `month` (any unsupported
value, and an absent one, which reads `week`), the summary and the nutrition
breakdown are those of period = week: same `startDate`, `endDate`, buckets,
totals and averages, and same meal count. -/
theorem C21_unsupported_period_is_week (tz now : Int) (userId : Nat) (query : Option String)
    (wdb : List Workout) (mdb : List Meal)
    (h1 : query ≠ some "day") (h2 : query ≠ some "month") :
    (progressSummary tz now userId query wdb mdb).startDate =
      (progressSummary tz now userId (some "week") wdb mdb).startDate ∧
    (progressSummary tz now userId query wdb mdb).endDate =
      (progressSummary tz now userId (some "week") wdb mdb).endDate ∧
    (progressSummary tz now userId query wdb mdb).dailyData =
      (progressSummary tz now userId (some "week") wdb mdb).dailyData ∧
    (progressSummary tz now userId query wdb mdb).totals =
      (progressSummary tz now userId (some "week") wdb mdb).totals ∧
    (nutritionBreakdown tz now userId query mdb).totals =
      (nutritionBreakdown tz now userId (some "week") mdb).totals ∧
    (nutritionBreakdown tz now userId query mdb).averages =
      (nutritionBreakdown tz now userId (some "week") mdb).averages ∧
    (nutritionBreakdown tz now userId query mdb).mealCount =
      (nutritionBreakdown tz now userId (some "week") mdb).mealCount := by
  have hd : query.getD "week" ≠ "day" := by
    cases query with
    | none => decide
    | some p => intro h; exact h1 (by rw [← h]; rfl)
  have hm : query.getD "week" ≠ "month" := by
    cases query with
    | none => decide
    | some p => intro h; exact h2 (by rw [← h]; rfl)
  have e1 : summaryStart tz now (query.getD "week") =
      summaryStart tz now ((some "week" : Option String).getD "week") :=
    summaryStart_default tz now _ hd hm
  have e2 : nutritionStart tz now (query.getD "week") =
      nutritionStart tz now ((some "week" : Option String).getD "week") :=
    nutritionStart_default tz now _ hd hm
  refine ⟨?_, ?_, ?_, ?_, ?_, ?_, ?_⟩
  · exact e1
  · rfl
  · simp only [progressSummary, e1]
  · simp only [progressSummary, e1]
  · simp only [nutritionBreakdown, e2]
  · simp only [nutritionBreakdown, e2]
  · simp only [nutritionBreakdown, e2]

/-- C21 at the unsupported value `fortnight` and at an absent period. -/
theorem C21_unsupported_period_is_week_witness :
    (progressSummary 0 (20000 * msPerDay + 43200000) 1 (some "fortnight")
      [runAt 1 (19999 * msPerDay + 28800000) 100] []).dailyData =
      (progressSummary 0 (20000 * msPerDay + 43200000) 1 (some "week")
        [runAt 1 (19999 * msPerDay + 28800000) 100] []).dailyData ∧
    (progressSummary 0 (20000 * msPerDay + 43200000) 1 none
      [runAt 1 (19999 * msPerDay + 28800000) 100] []).totals =
      (progressSummary 0 (20000 * msPerDay + 43200000) 1 (some "week")
        [runAt 1 (19999 * msPerDay + 28800000) 100] []).totals :=
  ⟨(C21_unsupported_period_is_week 0 (20000 * msPerDay + 43200000) 1 (some "fortnight")
      [runAt 1 (19999 * msPerDay + 28800000) 100] [] (by decide) (by decide)).2.2.1,
   (C21_unsupported_period_is_week 0 (20000 * msPerDay + 43200000) 1 none
      [runAt 1 (19999 * msPerDay + 28800000) 100] [] (by decide) (by decide)).2.2.2.1⟩

/-- C22 (counterexample): with one workout made ten days before, the workout
analytics for an absent period and for the unsupported value `fortnight` count
that workout, those for period = week do not: the fallback is not the week
window. -/
theorem C22_fallback_is_not_week :
    (workoutAnalytics 0 (20000 * msPerDay + 43200000) 1 none
      [runAt 1 (19990 * msPerDay + 28800000) 300]).totals.totalWorkouts = 1 ∧
    (workoutAnalytics 0 (20000 * msPerDay + 43200000) 1 (some "fortnight")
      [runAt 1 (19990 * msPerDay + 28800000) 300]).totals.totalWorkouts = 1 ∧
    (workoutAnalytics 0 (20000 * msPerDay + 43200000) 1 (some "week")
      [runAt 1 (19990 * msPerDay + 28800000) 300]).totals.totalWorkouts = 0 ∧
    (workoutAnalytics 0 (20000 * msPerDay + 43200000) 1 none
      [runAt 1 (19990 * msPerDay + 28800000) 300]).typeDistribution = [("cardio", 1)] ∧
    (workoutAnalytics 0 (20000 * msPerDay + 43200000) 1 (some "week")
      [runAt 1 (19990 * msPerDay + 28800000) 300]).typeDistribution = [] ∧
    ¬ (workoutAnalytics 0 (20000 * msPerDay + 43200000) 1 none
        [runAt 1 (19990 * msPerDay + 28800000) 300]).typeDistribution =
      (workoutAnalytics 0 (20000 * msPerDay + 43200000) 1 (some "week")
        [runAt 1 (19990 * msPerDay + 28800000) 300]).typeDistribution := by
  decide

/-- C22 (amended): for every period value that the workout analytics do not
support (other than `week`, `month` and `year`), and for an absent one, which
reads `month`, the endpoint falls back to the month window: its totals,
`typeDistribution`, `weeklyTrends` and averages are those of period = month. -/
theorem C22_unsupported_period_is_month (tz now : Int) (userId : Nat)
    (query : Option String) (db : List Workout)
    (h1 : query ≠ some "week") (h2 : query ≠ some "year") :
    (query = none → (workoutAnalytics tz now userId query db).period = "month") ∧
    (workoutAnalytics tz now userId query db).totals =
      (workoutAnalytics tz now userId (some "month") db).totals ∧
    (workoutAnalytics tz now userId query db).typeDistribution =
      (workoutAnalytics tz now userId (some "month") db).typeDistribution ∧
    (workoutAnalytics tz now userId query db).weeklyTrends =
      (workoutAnalytics tz now userId (some "month") db).weeklyTrends ∧
    (workoutAnalytics tz now userId query db).averageCaloriesPerWorkout =
      (workoutAnalytics tz now userId (some "month") db).averageCaloriesPerWorkout ∧
    (workoutAnalytics tz now userId query db).averageDurationPerWorkout =
      (workoutAnalytics tz now userId (some "month") db).averageDurationPerWorkout := by
  have hw : query.getD "month" ≠ "week" := by
    cases query with
    | none => decide
    | some p => intro h; exact h1 (by rw [← h]; rfl)
  have hy : query.getD "month" ≠ "year" := by
    cases query with
    | none => decide
    | some p => intro h; exact h2 (by rw [← h]; rfl)
  have e : analyticsStart tz now (query.getD "month") =
      analyticsStart tz now ((some "month" : Option String).getD "month") :=
    analyticsStart_default tz now _ hw hy
  refine ⟨?_, ?_, ?_, ?_, ?_, ?_⟩
  · intro hq
    rw [hq]
    rfl
  · simp only [workoutAnalytics, e]
  · simp only [workoutAnalytics, e]
  · simp only [workoutAnalytics, e]
  · simp only [workoutAnalytics, e]
  · simp only [workoutAnalytics, e]

/-- C22 (amended) at an absent period with one workout made ten days before. -/
theorem C22_unsupported_period_is_month_witness :
    (workoutAnalytics 0 (20000 * msPerDay + 43200000) 1 none
      [runAt 1 (19990 * msPerDay + 28800000) 300]).period = "month" ∧
    (workoutAnalytics 0 (20000 * msPerDay + 43200000) 1 none
      [runAt 1 (19990 * msPerDay + 28800000) 300]).typeDistribution =
      (workoutAnalytics 0 (20000 * msPerDay + 43200000) 1 (some "month")
        [runAt 1 (19990 * msPerDay + 28800000) 300]).typeDistribution :=
  ⟨(C22_unsupported_period_is_month 0 (20000 * msPerDay + 43200000) 1 none
      [runAt 1 (19990 * msPerDay + 28800000) 300] (by decide) (by decide)).1 rfl,
   (C22_unsupported_period_is_month 0 (20000 * msPerDay + 43200000) 1 none
      [runAt 1 (19990 * msPerDay + 28800000) 300] (by decide) (by decide)).2.2.1⟩

/-- C23: the save-time derivation sets each total to the sum over the items of
the metric times the quantity and keeps the items; the items of the example
(100 at quantity 2 and 50 at quantity 1) give `totalCalories = 250`; applying
the derivation again changes nothing. -/
theorem C23_save_time_totals (m : Meal) :
    TotalsConsistent (preSave m) ∧ (preSave m).items = m.items ∧
    preSave (preSave m) = preSave m ∧
    (preSave exampleMeal).totalCalories = 250 ∧
    (preSave (preSave exampleMeal)).totalCalories = 250 := by
  refine ⟨preSave_consistent m, rfl, rfl, ?_, ?_⟩
  · norm_num [preSave, exampleMeal]
  · norm_num [preSave, exampleMeal]

/-! ## The tally of workout types -/

theorem lookup_countType (m : List (String × Nat)) (t s : String) :
    (countType m t).lookup s =
      if s = t then some ((m.lookup t).getD 0 + 1) else m.lookup s := by
  induction m with
  | nil =>
    by_cases h : s = t
    · subst h; simp [countType, List.lookup]
    · have hb : (s == t) = false := beq_eq_false_iff_ne.mpr h
      simp [countType, List.lookup, h, hb]
  | cons kv rest ih =>
    obtain ⟨k, v⟩ := kv
    by_cases hk : k = t
    · subst hk
      by_cases h : s = k
      · subst h; simp [countType, List.lookup]
      · have hb : (s == k) = false := beq_eq_false_iff_ne.mpr h
        simp [countType, List.lookup, h, hb]
    · have hk' : ¬ t = k := fun e => hk e.symm
      by_cases h : s = t
      · subst h
        have hb : (s == k) = false := beq_eq_false_iff_ne.mpr hk'
        simp [countType, List.lookup, hk, hb, ih]
      · by_cases hsk : s = k
        · subst hsk
          simp [countType, List.lookup, hk, h]
        · have hb : (s == k) = false := beq_eq_false_iff_ne.mpr hsk
          simp [countType, List.lookup, hk, h, hb, ih]

theorem keys_countType (m : List (String × Nat)) (t : String) :
    (countType m t).map Prod.fst =
      if t ∈ m.map Prod.fst then m.map Prod.fst else m.map Prod.fst ++ [t] := by
  induction m with
  | nil => simp [countType]
  | cons kv rest ih =>
    obtain ⟨k, v⟩ := kv
    by_cases hk : k = t
    · subst hk
      simp [countType]
    · have hk' : ¬ t = k := fun e => hk e.symm
      simp only [countType, if_neg hk, List.map_cons, ih, List.mem_cons, hk', false_or]
      split <;> simp

theorem sum_countType (m : List (String × Nat)) (t : String) :
    ((countType m t).map Prod.snd).sum = (m.map Prod.snd).sum + 1 := by
  induction m with
  | nil => simp [countType]
  | cons kv rest ih =>
    obtain ⟨k, v⟩ := kv
    by_cases hk : k = t
    · simp [countType, hk]; omega
    · simp [countType, hk, ih]; omega

theorem typeCounts_foldl (ws : List Workout) :
    ∀ m : List (String × Nat), (m.map Prod.fst).Nodup →
      ((ws.foldl (fun m w => countType m w.type) m).map Prod.fst).Nodup ∧
      (∀ s, s ∈ (ws.foldl (fun m w => countType m w.type) m).map Prod.fst ↔
        s ∈ m.map Prod.fst ∨ ∃ w ∈ ws, w.type = s) ∧
      (∀ s, ((ws.foldl (fun m w => countType m w.type) m).lookup s).getD 0 =
        (m.lookup s).getD 0 + ws.countP (fun w => decide (w.type = s))) ∧
      ((ws.foldl (fun m w => countType m w.type) m).map Prod.snd).sum =
        (m.map Prod.snd).sum + ws.length := by
  induction ws with
  | nil => intro m hm; simp [hm]
  | cons w ws ih =>
    intro m hm
    have hnd : ((countType m w.type).map Prod.fst).Nodup := by
      rw [keys_countType]
      split
      · exact hm
      · rename_i hnot
        rw [List.nodup_append]
        refine ⟨hm, List.nodup_singleton _, ?_⟩
        intro a ha hb
        rw [List.mem_singleton] at hb
        subst hb
        exact hnot ha
    obtain ⟨i1, i2, i3, i4⟩ := ih (countType m w.type) hnd
    refine ⟨i1, ?_, ?_, ?_⟩
    · intro s
      rw [List.foldl_cons, i2, keys_countType]
      constructor
      · rintro (h | ⟨v, hv, e⟩)
        · split at h
          · exact Or.inl h
          · rcases List.mem_append.mp h with h | h
            · exact Or.inl h
            · rw [List.mem_singleton] at h
              exact Or.inr ⟨w, List.mem_cons_self _ _, h.symm⟩
        · exact Or.inr ⟨v, List.mem_cons_of_mem _ hv, e⟩
      · rintro (h | ⟨v, hv, e⟩)
        · left
          split
          · exact h
          · exact List.mem_append_left _ h
        · rcases List.mem_cons.mp hv with rfl | hv
          · left
            split
            · rename_i hin; rw [← e]; exact hin
            · rw [← e]; simp
          · exact Or.inr ⟨v, hv, e⟩
    · intro s
      rw [List.foldl_cons, i3, lookup_countType]
      by_cases h : s = w.type
      · subst h
        simp only [if_true, Option.getD_some, List.countP_cons, decide_True, if_true]
        omega
      · have h' : ¬ w.type = s := fun e => h e.symm
        simp only [if_neg h, List.countP_cons, h', decide_False]
        simp
    · rw [List.foldl_cons, i4, sum_countType, List.length_cons]
      omega

/-- The tally of the types of `ws`: for every type the number of workouts of
that type, with a key only for the types that occur. -/
theorem typeCounts_spec (ws : List Workout) :
    ((typeCounts ws).map Prod.fst).Nodup ∧
    (∀ t, (typeCounts ws).lookup t =
      if ws.countP (fun w => decide (w.type = t)) = 0 then none
      else some (ws.countP (fun w => decide (w.type = t)))) ∧
    (∀ t, t ∈ (typeCounts ws).map Prod.fst ↔ ∃ w ∈ ws, w.type = t) ∧
    ((typeCounts ws).map Prod.snd).sum = ws.length := by
  obtain ⟨h1, h2, h3, h4⟩ := typeCounts_foldl ws [] List.nodup_nil
  have hk : ∀ t, t ∈ (typeCounts ws).map Prod.fst ↔ ∃ w ∈ ws, w.type = t := by
    intro t
    have := h2 t
    simpa [typeCounts] using this
  refine ⟨h1, ?_, hk, by simpa using h4⟩
  intro t
  have hv := h3 t
  simp only [List.lookup, Option.getD_none, zero_add] at hv
  by_cases hc : ws.countP (fun w => decide (w.type = t)) = 0
  · rw [if_pos hc]
    rw [List.lookup_eq_none_iff]
    intro p hp
    rw [bne_iff_ne]
    intro hpt
    have hmem : t ∈ (typeCounts ws).map Prod.fst := by
      rw [List.mem_map]
      exact ⟨p, hp, hpt.symm⟩
    obtain ⟨w, hw, e⟩ := (hk t).mp hmem
    have : 0 < ws.countP (fun w => decide (w.type = t)) :=
      List.countP_pos_iff.mpr ⟨w, hw, by simpa using e⟩
    omega
  · rw [if_neg hc]
    cases hl : (typeCounts ws).lookup t with
    | none =>
      have : ((typeCounts ws).lookup t).getD 0 = 0 := by rw [hl]; rfl
      unfold typeCounts at this
      omega
    | some v =>
      have : ((typeCounts ws).lookup t).getD 0 = v := by rw [hl]; rfl
      unfold typeCounts at this
      rw [← this, hv]

theorem analytics_foldl (ws : List Workout) :
    ∀ acc : AnalyticsTotals,
      ws.foldl (fun acc workout =>
        ({ totalWorkouts := acc.totalWorkouts + 1
           totalCalories := acc.totalCalories + workout.calories
           totalDuration := acc.totalDuration + workout.duration } : AnalyticsTotals)) acc =
      { totalWorkouts := acc.totalWorkouts + ws.length
        totalCalories := acc.totalCalories + (ws.map Workout.calories).sum
        totalDuration := acc.totalDuration + (ws.map Workout.duration).sum } := by
  induction ws with
  | nil => intro acc; simp
  | cons w ws ih =>
    intro acc
    simp only [List.foldl_cons, ih, List.map_cons, List.sum_cons, List.length_cons, add_assoc]
    congr 1
    omega

theorem analytics_totalWorkouts (tz now : Int) (userId : Nat) (query : Option String)
    (db : List Workout) :
    (workoutAnalytics tz now userId query db).totals.totalWorkouts =
      (findWorkoutsBetween userId (analyticsStart tz now (query.getD "month")) now db).length := by
  simp only [workoutAnalytics]
  rw [analytics_foldl]
  simp

/-- C24: in workout analytics and in stats the type mapping has, for every
type `t`, the number of fetched workouts of type `t` as its value, and a key
only when that number is not 0 (each key once); the values sum to
`totalWorkouts`, the number of fetched workouts. -/
theorem C24_type_tally (tz now : Int) (userId : Nat) (query : Option String)
    (db : List Workout) (t : String) (hty : ∀ w ∈ db, w.type ∈ workoutTypes) :
    ((workoutAnalytics tz now userId query db).typeDistribution.lookup t =
      if (findWorkoutsBetween userId (analyticsStart tz now (query.getD "month")) now
          db).countP (fun w => decide (w.type = t)) = 0 then none
      else some ((findWorkoutsBetween userId (analyticsStart tz now (query.getD "month")) now
          db).countP (fun w => decide (w.type = t)))) ∧
    ((workoutAnalytics tz now userId query db).typeDistribution.map Prod.fst).Nodup ∧
    ((workoutAnalytics tz now userId query db).typeDistribution.map Prod.snd).sum =
      (workoutAnalytics tz now userId query db).totals.totalWorkouts ∧
    (workoutAnalytics tz now userId query db).totals.totalWorkouts =
      (findWorkoutsBetween userId (analyticsStart tz now (query.getD "month")) now db).length ∧
    ((workoutStats now userId db).workoutTypes.lookup t =
      if (db.filter (fun w => decide (w.userId = userId ∧ setDateAdd now (-30) ≤ w.date))).countP
          (fun w => decide (w.type = t)) = 0 then none
      else some ((db.filter (fun w => decide (w.userId = userId ∧
          setDateAdd now (-30) ≤ w.date))).countP (fun w => decide (w.type = t)))) ∧
    ((workoutStats now userId db).workoutTypes.map Prod.fst).Nodup ∧
    ((workoutStats now userId db).workoutTypes.map Prod.snd).sum =
      (workoutStats now userId db).totalWorkouts ∧
    (workoutStats now userId db).totalWorkouts =
      (db.filter (fun w => decide (w.userId = userId ∧ setDateAdd now (-30) ≤ w.date))).length := by
  have _ := hty
  obtain ⟨a1, a2, _, a4⟩ := typeCounts_spec
    (findWorkoutsBetween userId (analyticsStart tz now (query.getD "month")) now db)
  obtain ⟨b1, b2, _, b4⟩ := typeCounts_spec
    (db.filter (fun w => decide (w.userId = userId ∧ setDateAdd now (-30) ≤ w.date)))
  have ht := analytics_totalWorkouts tz now userId query db
  refine ⟨a2 t, a1, ?_, ht, b2 t, b1, b4, rfl⟩
  rw [ht]
  exact a4

/-- C24 at two cardio workouts and one strength workout of the last week. -/
theorem C24_type_tally_witness :
    (workoutAnalytics 0 (20000 * msPerDay + 43200000) 1 none
      [runAt 1 (19999 * msPerDay + 28800000) 300, runAt 1 (19998 * msPerDay + 28800000) 200,
        { runAt 1 (19997 * msPerDay + 28800000) 150 with type := "strength" }]).typeDistribution
      = [("cardio", 2), ("strength", 1)] ∧
    ((workoutAnalytics 0 (20000 * msPerDay + 43200000) 1 none
      [runAt 1 (19999 * msPerDay + 28800000) 300, runAt 1 (19998 * msPerDay + 28800000) 200,
        { runAt 1 (19997 * msPerDay + 28800000) 150 with type := "strength" }]).typeDistribution.map
        Prod.snd).sum =
      (workoutAnalytics 0 (20000 * msPerDay + 43200000) 1 none
        [runAt 1 (19999 * msPerDay + 28800000) 300, runAt 1 (19998 * msPerDay + 28800000) 200,
          { runAt 1 (19997 * msPerDay + 28800000) 150 with type := "strength" }]).totals.totalWorkouts :=
  ⟨by decide,
   (C24_type_tally 0 (20000 * msPerDay + 43200000) 1 none
      [runAt 1 (19999 * msPerDay + 28800000) 300, runAt 1 (19998 * msPerDay + 28800000) 200,
        { runAt 1 (19997 * msPerDay + 28800000) 150 with type := "strength" }] "cardio"
      (by decide)).2.2.1⟩

/-! ## Workouts: create and update -/

theorem validWorkout_ok (w : Workout) (h : validWorkout w = true) : StoredWorkoutOk w := by
  unfold validWorkout at h
  simp only [Bool.and_eq_true, decide_eq_true_eq] at h
  obtain ⟨⟨⟨⟨_, ht⟩, hd⟩, hc⟩, _⟩ := h
  exact ⟨ht, lt_of_lt_of_le one_pos hd, lt_of_lt_of_le one_pos hc⟩

theorem applyUpdate_ok (u : WorkoutUpdate) (w : Workout) (hv : validUpdate u = true)
    (hw : StoredWorkoutOk w) : StoredWorkoutOk (applyUpdate u w) := by
  unfold validUpdate at hv
  simp only [Bool.and_eq_true] at hv
  obtain ⟨⟨⟨⟨_, ht⟩, hd⟩, hc⟩, _⟩ := hv
  obtain ⟨w1, w2, w3⟩ := hw
  refine ⟨?_, ?_, ?_⟩
  · show u.type.getD w.type ∈ workoutTypes
    cases hu : u.type with
    | none => exact w1
    | some t =>
      rw [hu] at ht
      simpa using ht
  · show 0 < u.duration.getD w.duration
    cases hu : u.duration with
    | none => exact w2
    | some d =>
      rw [hu] at hd
      have : (1 : ℚ) ≤ d := by simpa using hd
      exact lt_of_lt_of_le one_pos this
  · show 0 < u.calories.getD w.calories
    cases hu : u.calories with
    | none => exact w3
    | some c =>
      rw [hu] at hc
      have : (1 : ℚ) ≤ c := by simpa using hc
      exact lt_of_lt_of_le one_pos this

theorem updateWorkout_ok (id userId : Nat) (u : WorkoutUpdate) (hv : validUpdate u = true)
    (db : List Workout) (hdb : ∀ w ∈ db, StoredWorkoutOk w) :
    (∀ w ∈ (updateWorkout id userId u db).2, StoredWorkoutOk w) ∧
    (∀ w, (updateWorkout id userId u db).1 = some w →
      StoredWorkoutOk w ∧ w ∈ (updateWorkout id userId u db).2) := by
  induction db with
  | nil =>
    simp [updateWorkout]
  | cons x rest ih =>
    have hx := hdb x (List.mem_cons_self _ _)
    have hrest : ∀ w ∈ rest, StoredWorkoutOk w := fun w hw => hdb w (List.mem_cons_of_mem _ hw)
    obtain ⟨i1, i2⟩ := ih hrest
    unfold updateWorkout
    split
    · refine ⟨?_, ?_⟩
      · intro w hw
        rcases List.mem_cons.mp hw with rfl | hw
        · exact applyUpdate_ok u x hv hx
        · exact hrest w hw
      · intro w hw
        simp only [Option.some.injEq] at hw
        subst hw
        exact ⟨applyUpdate_ok u x hv hx, List.mem_cons_self _ _⟩
    · refine ⟨?_, ?_⟩
      · intro w hw
        rcases List.mem_cons.mp hw with rfl | hw
        · exact hx
        · exact i1 w hw
      · intro w hw
        obtain ⟨h1, h2⟩ := i2 w hw
        exact ⟨h1, List.mem_cons_of_mem _ h2⟩

theorem postWorkout_cases (toLowerCase : String → String) (userId newId : Nat) (now : Int)
    (db : List Workout) (body : WorkoutBody) :
    ((postWorkout toLowerCase userId newId now db body).1.status = 400 ∧
      (postWorkout toLowerCase userId newId now db body).1.workout = none ∧
      (postWorkout toLowerCase userId newId now db body).2 = db) ∨
    (∃ (w : Workout) (d c : Int),
      body.duration = NumInput.parsed (some d) ∧ body.calories = NumInput.parsed (some c) ∧
      w.duration = d ∧ w.calories = c ∧ w.userId = userId ∧ w.id = newId ∧
      validWorkout w = true ∧
      (postWorkout toLowerCase userId newId now db body).1.status = 201 ∧
      (postWorkout toLowerCase userId newId now db body).1.workout = some w ∧
      (postWorkout toLowerCase userId newId now db body).2 = db ++ [w]) := by
  unfold postWorkout
  cases hd : body.duration with
  | falsy => left; exact ⟨rfl, rfl, rfl⟩
  | parsed d =>
    cases hc : body.calories with
    | falsy => left; exact ⟨rfl, rfl, rfl⟩
    | parsed c =>
      simp only
      split
      · left; exact ⟨rfl, rfl, rfl⟩
      · cases d with
        | none => left; exact ⟨rfl, rfl, rfl⟩
        | some d =>
          cases c with
          | none => left; exact ⟨rfl, rfl, rfl⟩
          | some c =>
            simp only
            split
            · rename_i hvalid
              right
              exact ⟨_, d, c, rfl, rfl, rfl, rfl, rfl, rfl, hvalid, rfl, rfl, rfl⟩
            · left; exact ⟨rfl, rfl, rfl⟩

/-- C25: when every stored workout has its type among the five types and
positive duration and calories, the same holds after `POST /workouts` and after
`PUT /workouts/:id`, and for the workout a successful request answers; a POST
whose duration or calories is missing or 0, or parses to an integer below 1,
is answered with status 400 and stores nothing. -/
theorem C25_stored_workouts_valid (toLowerCase : String → String) (userId newId id : Nat)
    (now : Int) (db : List Workout) (body : WorkoutBody) (hdb : ∀ w ∈ db, StoredWorkoutOk w) :
    (∀ w ∈ (postWorkout toLowerCase userId newId now db body).2, StoredWorkoutOk w) ∧
    ((postWorkout toLowerCase userId newId now db body).1.status = 201 →
      ∃ w, (postWorkout toLowerCase userId newId now db body).1.workout = some w ∧
        (postWorkout toLowerCase userId newId now db body).2 = db ++ [w] ∧ StoredWorkoutOk w) ∧
    (∀ w ∈ (putWorkout userId id db body).2, StoredWorkoutOk w) ∧
    ((putWorkout userId id db body).1.status = 200 →
      ∃ w, (putWorkout userId id db body).1.workout = some w ∧
        w ∈ (putWorkout userId id db body).2 ∧ StoredWorkoutOk w) ∧
    ((body.duration = NumInput.falsy ∨ body.calories = NumInput.falsy ∨
        (∃ n : Int, body.duration = NumInput.parsed (some n) ∧ n < 1) ∨
        (∃ n : Int, body.calories = NumInput.parsed (some n) ∧ n < 1)) →
      (postWorkout toLowerCase userId newId now db body).1.status = 400 ∧
      (postWorkout toLowerCase userId newId now db body).2 = db) := by
  have hpost := postWorkout_cases toLowerCase userId newId now db body
  refine ⟨?_, ?_, ?_, ?_, ?_⟩
  · rcases hpost with ⟨_, _, h⟩ | ⟨w, d, c, _, _, _, _, _, _, hv, _, _, h⟩
    · rw [h]; exact hdb
    · rw [h]
      intro x hx
      rcases List.mem_append.mp hx with hx | hx
      · exact hdb x hx
      · rw [List.mem_singleton] at hx
        subst hx
        exact validWorkout_ok _ hv
  · intro hs
    rcases hpost with ⟨h, _, _⟩ | ⟨w, d, c, _, _, _, _, _, _, hv, _, hw, h⟩
    · rw [h] at hs
      exact absurd hs (by decide)
    · exact ⟨w, hw, h, validWorkout_ok _ hv⟩
  · unfold putWorkout
    split
    · exact hdb
    · split
      · rename_i hv
        obtain ⟨u1, _⟩ := updateWorkout_ok id userId (updateDataOf body) hv db hdb
        cases hu : updateWorkout id userId (updateDataOf body) db with
        | mk r db1 =>
          rw [hu] at u1
          cases r with
          | none => exact hdb
          | some w => exact u1
      · exact hdb
  · unfold putWorkout
    split
    · intro hs; simp at hs
    · split
      · rename_i hv
        obtain ⟨_, u2⟩ := updateWorkout_ok id userId (updateDataOf body) hv db hdb
        cases hu : updateWorkout id userId (updateDataOf body) db with
        | mk r db1 =>
          rw [hu] at u2
          cases r with
          | none => intro hs; simp at hs
          | some w =>
            intro _
            obtain ⟨h1, h2⟩ := u2 w rfl
            exact ⟨w, rfl, h2, h1⟩
      · intro hs; simp at hs
  · intro hbad
    rcases hpost with ⟨h, _, h2⟩ | ⟨w, d, c, hd, hc, hwd, hwc, _, _, hv, _, _, _⟩
    · exact ⟨h, h2⟩
    · exfalso
      obtain ⟨_, h2, h3⟩ := validWorkout_ok w hv
      have hv' := hv
      unfold validWorkout at hv'
      simp only [Bool.and_eq_true, decide_eq_true_eq] at hv'
      obtain ⟨⟨⟨⟨_, _⟩, hd1⟩, hc1⟩, _⟩ := hv'
      rw [hwd] at hd1
      rw [hwc] at hc1
      have hd2 : (1 : Int) ≤ d := by exact_mod_cast hd1
      have hc2 : (1 : Int) ≤ c := by exact_mod_cast hc1
      rcases hbad with h | h | ⟨n, h, hn⟩ | ⟨n, h, hn⟩
      · rw [hd] at h; exact NumInput.noConfusion h
      · rw [hc] at h; exact NumInput.noConfusion h
      · rw [hd] at h
        injection h with h
        injection h with h
        omega
      · rw [hc] at h
        injection h with h
        injection h with h
        omega

/-- C25 at an empty collection: a valid POST is stored with positive duration
and calories, and a POST whose duration parses to 0 is answered with 400 and
stores nothing. -/
theorem C25_stored_workouts_valid_witness :
    (∃ w, (postWorkout asciiLowerCase 1 7 0 []
        { date := none, name := "Morning run", type := "cardio",
          duration := NumInput.parsed (some 30), calories := NumInput.parsed (some 300),
          notes := none }).1.workout = some w ∧
      (postWorkout asciiLowerCase 1 7 0 []
        { date := none, name := "Morning run", type := "cardio",
          duration := NumInput.parsed (some 30), calories := NumInput.parsed (some 300),
          notes := none }).2 = [] ++ [w] ∧ StoredWorkoutOk w) ∧
    ((postWorkout asciiLowerCase 1 7 0 []
        { date := none, name := "Morning run", type := "cardio",
          duration := NumInput.parsed (some 0), calories := NumInput.parsed (some 300),
          notes := none }).1.status = 400 ∧
      (postWorkout asciiLowerCase 1 7 0 []
        { date := none, name := "Morning run", type := "cardio",
          duration := NumInput.parsed (some 0), calories := NumInput.parsed (some 300),
          notes := none }).2 = []) :=
  ⟨(C25_stored_workouts_valid asciiLowerCase 1 7 7 0 []
      { date := none, name := "Morning run", type := "cardio",
        duration := NumInput.parsed (some 30), calories := NumInput.parsed (some 300),
        notes := none } (fun _ h => absurd h (List.not_mem_nil _))).2.1 (by decide),
   (C25_stored_workouts_valid asciiLowerCase 1 7 7 0 []
      { date := none, name := "Morning run", type := "cardio",
        duration := NumInput.parsed (some 0), calories := NumInput.parsed (some 300),
        notes := none } (fun _ h => absurd h (List.not_mem_nil _))).2.2.2.2
      (Or.inr (Or.inr (Or.inl ⟨0, rfl, by decide⟩)))⟩

/-! ## Meals: the checks of `POST /meals` -/

theorem acceptedItems_some (body : MealBody) (items : List ItemInput)
    (h : acceptedItems body = some items) :
    body.items = some items ∧ body.mealType ≠ "" ∧ items ≠ [] ∧
      ∀ i ∈ items, i.name ≠ "" ∧ ∃ c, i.calories = some c ∧ ¬ c < 0 := by
  unfold acceptedItems at h
  cases hi : body.items with
  | none => rw [hi] at h; simp at h
  | some l =>
    rw [hi] at h
    simp only at h
    split at h
    · simp at h
    · rename_i hne
      split at h
      · rename_i hall
        simp only [Option.some.injEq] at h
        subst h
        refine ⟨rfl, fun e => hne (Or.inl e), ?_, ?_⟩
        · intro e
          apply hne
          right
          rw [e]
          rfl
        · intro i hi'
          have := List.all_eq_true.mp hall i hi'
          unfold itemAccepted at this
          cases hc : i.calories with
          | none => rw [hc] at this; simp at this
          | some c =>
            rw [hc] at this
            simp only [Bool.and_eq_true, decide_eq_true_eq, Bool.not_eq_true',
              decide_eq_false_iff_not] at this
            exact ⟨this.1, c, rfl, this.2⟩
      · simp at h

theorem validFoodItem_ok (i : FoodItem) (h : validFoodItem i = true) : StoredItemOk i := by
  unfold validFoodItem at h
  simp only [Bool.and_eq_true, decide_eq_true_eq] at h
  obtain ⟨⟨⟨⟨⟨⟨_, h1⟩, h2⟩, h3⟩, h4⟩, h5⟩, _⟩ := h
  refine ⟨h1, h2, h3, h4, ?_⟩
  have : (0 : ℚ) < 1 / 10 := by norm_num
  exact lt_of_lt_of_le this h5

theorem postMeal_cases (userId newId : Nat) (now : Int) (db : List Meal) (body : MealBody) :
    ((postMeal userId newId now db body).1.status = 400 ∧
      (postMeal userId newId now db body).1.meal = none ∧
      (postMeal userId newId now db body).2 = db) ∨
    (∃ (items : List ItemInput) (m : Meal),
      acceptedItems body = some items ∧ m.items = items.map toFoodItem ∧
      m.userId = userId ∧ m.id = newId ∧
      validMealPaths body.mealType (items.map toFoodItem) = true ∧
      (postMeal userId newId now db body).1.status = 201 ∧
      (postMeal userId newId now db body).1.meal = some m ∧
      (postMeal userId newId now db body).2 = db ++ [m]) := by
  unfold postMeal
  cases ha : acceptedItems body with
  | none => left; exact ⟨rfl, rfl, rfl⟩
  | some items =>
    simp only
    split
    · rename_i hv
      right
      exact ⟨items, _, rfl, rfl, rfl, rfl, hv, rfl, rfl, rfl⟩
    · left; exact ⟨rfl, rfl, rfl⟩

/-- C27: every food item stored by a successful `POST /meals` has calories,
protein, carbs and fats at least 0 and a positive quantity; a request whose
`mealType` is missing, whose `items` is missing, not an array or empty, or
that holds an item without name or whose calories is not a number at least 0,
is answered with status 400 and stores nothing. -/
theorem C27_stored_items_valid (userId newId : Nat) (now : Int) (db : List Meal)
    (body : MealBody) :
    ((postMeal userId newId now db body).1.status = 201 →
      ∃ m, (postMeal userId newId now db body).1.meal = some m ∧
        (postMeal userId newId now db body).2 = db ++ [m] ∧
        ∀ i ∈ m.items, StoredItemOk i) ∧
    ((postMeal userId newId now db body).1.status = 201 ∨
      ((postMeal userId newId now db body).1.status = 400 ∧
        (postMeal userId newId now db body).2 = db)) ∧
    ((body.mealType = "" ∨ body.items = none ∨ body.items = some [] ∨
        (∃ items, body.items = some items ∧ ∃ i ∈ items,
          i.name = "" ∨ i.calories = none ∨ ∃ c, i.calories = some c ∧ c < 0)) →
      (postMeal userId newId now db body).1.status = 400 ∧
      (postMeal userId newId now db body).2 = db) := by
  have hpost := postMeal_cases userId newId now db body
  refine ⟨?_, ?_, ?_⟩
  · intro hs
    rcases hpost with ⟨h, _, _⟩ | ⟨items, m, _, hm, _, _, hv, _, hmeal, hdb⟩
    · rw [h] at hs
      exact absurd hs (by decide)
    · refine ⟨m, hmeal, hdb, ?_⟩
      intro i hi
      rw [hm] at hi
      unfold validMealPaths at hv
      simp only [Bool.and_eq_true] at hv
      exact validFoodItem_ok i (List.all_eq_true.mp hv.2 i hi)
  · rcases hpost with ⟨h, _, h2⟩ | ⟨_, _, _, _, _, _, _, hs, _, _⟩
    · exact Or.inr ⟨h, h2⟩
    · exact Or.inl hs
  · intro hbad
    rcases hpost with ⟨h, _, h2⟩ | ⟨items, m, ha, _, _, _, _, _, _, _⟩
    · exact ⟨h, h2⟩
    · exfalso
      obtain ⟨a1, a2, a3, a4⟩ := acceptedItems_some body items ha
      rcases hbad with h | h | h | ⟨l, hl, i, hi, hbadi⟩
      · exact a2 h
      · rw [a1] at h; exact Option.noConfusion h
      · rw [a1] at h
        injection h with h
        exact a3 h
      · rw [a1] at hl
        injection hl with hl
        subst hl
        obtain ⟨b1, c, b2, b3⟩ := a4 i hi
        rcases hbadi with h | h | ⟨c', h, hc'⟩
        · exact b1 h
        · rw [b2] at h; exact Option.noConfusion h
        · rw [b2] at h
          injection h with h
          subst h
          exact b3 hc'

/-- C27 at the body of one item of quantity 2, and at a body without
`mealType`. -/
theorem C27_stored_items_valid_witness :
    (∃ m, (postMeal 1 7 0 [] (lunchBody 2)).1.meal = some m ∧
        (postMeal 1 7 0 [] (lunchBody 2)).2 = [] ++ [m] ∧
        ∀ i ∈ m.items, StoredItemOk i) ∧
    ((postMeal 1 7 0 [] { date := none, mealType := "", items := some [riceItem 2] }).1.status
        = 400 ∧
      (postMeal 1 7 0 [] { date := none, mealType := "", items := some [riceItem 2] }).2 = []) :=
  ⟨(C27_stored_items_valid 1 7 0 [] (lunchBody 2)).1 (by rw [postMeal_lunchBody_two]),
   (C27_stored_items_valid 1 7 0 []
      { date := none, mealType := "", items := some [riceItem 2] }).2.2 (Or.inl rfl)⟩

/-! ## Bounds of the streaks and the message -/

theorem streak_zero_iff (tz now : Int) (stored : List Int) (m : Int) (more : List Int)
    (hf : findWorkouts stored = m :: more) :
    (streak tz now stored).currentStreak = 0 ↔ dayOf tz m < dayOf tz now - 1 := by
  obtain ⟨hm, hmax⟩ := findWorkouts_head stored m more hf
  obtain ⟨rest, hds⟩ := workoutDays_head tz stored m hm hmax
  rw [streak_currentStreak, hds]
  unfold streakDays
  split
  · constructor
    · intro h; omega
    · intro h; omega
  · constructor
    · intro _; omega
    · intro _; rfl

theorem daysDiff_today_ge_one (tz now m : Int) (h : dayOf tz m < dayOf tz now - 1) :
    1 ≤ daysDiff (setHoursZero tz now) m := by
  simp only [daysDiff, setHoursZero, dayOf, msPerDay] at h ⊢
  omega

theorem streakMessage_ne_great (cs : Nat) (d : Int) (h : cs = 0 → 1 ≤ d) :
    streakMessage cs d ≠ "Great job working out today! Keep the momentum going!" := by
  unfold streakMessage
  by_cases h0 : cs = 0
  · have hd := h h0
    rw [if_pos h0, if_neg (by omega)]
    split
    · decide
    · intro e
      have e2 := congrArg (fun s => s.data.head?) e
      simp [String.data_append] at e2
  · rw [if_neg h0]
    split
    · decide
    · intro e
      have e2 := congrArg (fun s => s.data.head?) e
      simp [String.data_append] at e2

theorem streakDays_le_length (ds : List Int) : ∀ c : Int, streakDays c ds ≤ ds.length := by
  induction ds with
  | nil => intro c; simp [streakDays]
  | cons d ds ih =>
    intro c
    unfold streakDays
    split
    · have := ih (d - 1)
      simp only [List.length_cons]
      omega
    · exact Nat.zero_le _

theorem runDays_le_length (rest : List Int) : ∀ prev : Int, runDays prev rest ≤ rest.length := by
  induction rest with
  | nil => intro prev; simp [runDays]
  | cons x rest ih =>
    intro prev
    unfold runDays
    split
    · have := ih x
      simp only [List.length_cons]
      omega
    · exact Nat.zero_le _

theorem longestDays_le_length (l : List Int) : longestDays l ≤ l.length := by
  induction l with
  | nil => simp [longestDays]
  | cons x rest ih =>
    have := runDays_le_length rest x
    simp only [longestDays, List.length_cons]
    omega

theorem workoutDays_length (tz : Int) (stored : List Int) :
    (workoutDays tz stored).length = (stored.map (dayOf tz)).toFinset.card := by
  rw [← List.toFinset_card_of_nodup (workoutDays_sorted tz stored).nodup]
  congr 1
  ext d
  rw [List.mem_toFinset, List.mem_toFinset, mem_workoutDays, hasWorkoutOn_iff_mem_map]

theorem streak_totalWorkouts (tz now : Int) (stored : List Int) (hne : stored ≠ []) :
    (streak tz now stored).totalWorkouts = some stored.length := by
  have hlen : (findWorkouts stored).length = stored.length :=
    (List.perm_insertionSort _ stored).length_eq
  unfold streak
  split
  · rename_i h
    exact absurd (findWorkouts_eq_nil stored h) hne
  · rename_i m more h
    simp only
    rw [← h, hlen]

/-- C28: for a non-empty history, `currentStreak = 0` gives
`daysSinceLastWorkout ≥ 1`; for every history and clock value the message is
never "Great job working out today! Keep the momentum going!". -/
theorem C28_great_job_unreachable (tz now : Int) (stored : List Int) :
    (stored ≠ [] → (streak tz now stored).currentStreak = 0 →
      ∃ d : Int, (streak tz now stored).daysSinceLastWorkout = some d ∧ 1 ≤ d) ∧
    (streak tz now stored).message ≠
      "Great job working out today! Keep the momentum going!" := by
  cases hf : findWorkouts stored with
  | nil =>
    have hs : stored = [] := findWorkouts_eq_nil stored hf
    subst hs
    refine ⟨fun h => absurd rfl h, ?_⟩
    show "Start your fitness journey today!" ≠
      "Great job working out today! Keep the momentum going!"
    decide
  | cons m more =>
    obtain ⟨_, hd, hmsg⟩ := streak_lastWorkoutDate tz now stored m more hf
    have hz := streak_zero_iff tz now stored m more hf
    refine ⟨?_, ?_⟩
    · intro _ hcs
      exact ⟨_, hd, daysDiff_today_ge_one tz now m (hz.mp hcs)⟩
    · rw [hmsg]
      exact streakMessage_ne_great _ _
        (fun hcs => daysDiff_today_ge_one tz now m (hz.mp hcs))

/-- C28 at a single workout made three days before. -/
theorem C28_great_job_unreachable_witness :
    ∃ d : Int, (streak 0 (20000 * msPerDay + 43200000)
      [19997 * msPerDay + 28800000]).daysSinceLastWorkout = some d ∧ 1 ≤ d :=
  (C28_great_job_unreachable 0 (20000 * msPerDay + 43200000)
    [19997 * msPerDay + 28800000]).1 (List.cons_ne_nil _ _) (by decide)

/-- C29: for a non-empty history with `n` distinct workout calendar days,
`1 ≤ longestStreak ≤ n`, `currentStreak ≤ n`, and `totalWorkouts` is the number
of workout records, which is at least `n`. -/
theorem C29_streak_bounds (tz now : Int) (stored : List Int) (hne : stored ≠ []) :
    1 ≤ (streak tz now stored).longestStreak ∧
    (streak tz now stored).longestStreak ≤ (stored.map (dayOf tz)).toFinset.card ∧
    (streak tz now stored).currentStreak ≤ (stored.map (dayOf tz)).toFinset.card ∧
    (streak tz now stored).totalWorkouts = some stored.length ∧
    (stored.map (dayOf tz)).toFinset.card ≤ stored.length := by
  have hn := workoutDays_length tz stored
  refine ⟨?_, ?_, ?_, streak_totalWorkouts tz now stored hne, ?_⟩
  · rw [streak_longestStreak]
    obtain ⟨w, more, rfl⟩ := List.exists_cons_of_ne_nil hne
    have hmem : dayOf tz w ∈ (workoutDays tz (w :: more)).reverse :=
      List.mem_reverse.mpr ((mem_workoutDays tz _ _).mpr ⟨w, List.mem_cons_self _ _, rfl⟩)
    cases hl : (workoutDays tz (w :: more)).reverse with
    | nil => rw [hl] at hmem; simp at hmem
    | cons x rest =>
      simp only [longestDays]
      omega
  · rw [streak_longestStreak, ← hn]
    have := longestDays_le_length (workoutDays tz stored).reverse
    rwa [List.length_reverse] at this
  · rw [streak_currentStreak, ← hn]
    exact streakDays_le_length _ _
  · have := List.toFinset_card_le (l := stored.map (dayOf tz))
    rwa [List.length_map] at this

/-- C29 at three workouts on two calendar days. -/
theorem C29_streak_bounds_witness :
    1 ≤ (streak 0 (20000 * msPerDay + 43200000)
      [20000 * msPerDay + 28800000, 20000 * msPerDay + 72000000,
        19999 * msPerDay + 28800000]).longestStreak ∧
    (streak 0 (20000 * msPerDay + 43200000)
      [20000 * msPerDay + 28800000, 20000 * msPerDay + 72000000,
        19999 * msPerDay + 28800000]).totalWorkouts = some 3 :=
  ⟨(C29_streak_bounds 0 (20000 * msPerDay + 43200000)
      [20000 * msPerDay + 28800000, 20000 * msPerDay + 72000000,
        19999 * msPerDay + 28800000] (List.cons_ne_nil _ _)).1,
   (C29_streak_bounds 0 (20000 * msPerDay + 43200000)
      [20000 * msPerDay + 28800000, 20000 * msPerDay + 72000000,
        19999 * msPerDay + 28800000] (List.cons_ne_nil _ _)).2.2.2.1⟩

/-! ## Exercise steps -/

theorem toNat_ofNat_small (k : Nat) (h : k < 55296) : (Char.ofNat k).toNat = k := by
  have hv : k.isValidChar := Or.inl h
  simp only [Char.ofNat, hv, dite_true, Char.ofNatAux, Char.toNat]
  rfl

theorem toLower_toLower (c : Char) : (c.toLower).toLower = c.toLower := by
  unfold Char.toLower
  simp only
  split
  · rename_i h
    have h1 : (Char.ofNat (c.toNat + 32)).toNat = c.toNat + 32 := toNat_ofNat_small _ (by omega)
    simp only [h1]
    rw [if_neg (by omega)]
  · rfl

theorem asciiLowerCase_asciiLowerCase (s : String) :
    asciiLowerCase (asciiLowerCase s) = asciiLowerCase s := by
  unfold asciiLowerCase
  congr 1
  simp only [List.map_map]
  apply List.map_congr_left
  intro c _
  exact toLower_toLower c

/-- The test `includes` holds exactly when `sub` is a contiguous part of `s`. -/
theorem includes_iff (s sub : String) : includes s sub = true ↔ sub.data <:+: s.data := by
  unfold includes
  rw [List.any_eq_true, List.infix_iff_prefix_suffix]
  constructor
  · rintro ⟨t, ht, hp⟩
    exact ⟨t, List.isPrefixOf_iff_prefix.mp hp, (List.mem_tails _ _).mp ht⟩
  · rintro ⟨t, hp, ht⟩
    exact ⟨t, (List.mem_tails _ _).mpr ht, List.isPrefixOf_iff_prefix.mpr hp⟩

theorem findSteps_none (n : String) (exs : List (String × List String)) :
    findSteps n exs = none ↔
      ∀ p ∈ exs, (includes n p.1 || includes p.1 n) = false := by
  induction exs with
  | nil => simp [findSteps]
  | cons p rest ih =>
    obtain ⟨k, steps⟩ := p
    unfold findSteps
    by_cases h : (includes n k || includes k n) = true
    · rw [if_pos h]
      simp only [List.mem_cons, forall_eq_or_imp]
      constructor
      · intro e; exact Option.noConfusion e
      · intro e
        rw [e.1] at h
        exact Bool.noConfusion h
    · rw [if_neg h, ih]
      simp only [List.mem_cons, forall_eq_or_imp]
      constructor
      · intro e; exact ⟨by simpa using h, e⟩
      · intro e; exact e.2

theorem findSteps_first (n : String) (pre : List (String × List String)) (k : String)
    (steps : List String) (post : List (String × List String))
    (hpre : ∀ p ∈ pre, (includes n p.1 || includes p.1 n) = false)
    (hk : (includes n k || includes k n) = true) :
    findSteps n (pre ++ (k, steps) :: post) = some steps := by
  induction pre with
  | nil =>
    simp only [List.nil_append, findSteps]
    rw [if_pos hk]
  | cons p rest ih =>
    obtain ⟨k', s'⟩ := p
    have h1 := hpre (k', s') (List.mem_cons_self _ _)
    simp only [List.cons_append, findSteps]
    rw [if_neg (by simp only at h1; rw [h1]; exact Bool.false_ne_true)]
    exact ih (fun p hp => hpre p (List.mem_cons_of_mem _ hp))

theorem findSteps_mem (n : String) (exs : List (String × List String)) (steps : List String)
    (h : findSteps n exs = some steps) : ∃ k, (k, steps) ∈ exs := by
  induction exs with
  | nil => simp [findSteps] at h
  | cons p rest ih =>
    obtain ⟨k, s⟩ := p
    unfold findSteps at h
    split at h
    · simp only [Option.some.injEq] at h
      subst h
      exact ⟨k, List.mem_cons_self _ _⟩
    · obtain ⟨k', hk'⟩ := ih h
      exact ⟨k', List.mem_cons_of_mem _ hk'⟩

theorem lookup_mem {β : Type} (l : List (String × β)) (k : String) (v : β)
    (h : l.lookup k = some v) : (k, v) ∈ l := by
  induction l with
  | nil => simp [List.lookup] at h
  | cons p rest ih =>
    obtain ⟨k', v'⟩ := p
    by_cases hk : k = k'
    · subst hk
      simp only [List.lookup, beq_self_eq_true, Option.some.injEq] at h
      subst h
      exact List.mem_cons_self _ _
    · have hb : (k == k') = false := beq_eq_false_iff_ne.mpr hk
      simp only [List.lookup, hb] at h
      exact List.mem_cons_of_mem _ (ih h)

theorem table_steps_length :
    ∀ p ∈ exerciseInstructions, ∀ q ∈ p.2, q.2.length = 7 := by
  decide

theorem lookup_other : exerciseInstructions.lookup "other" = none := by decide

/-- C30 (counterexample): the name `runnıng`, written with the dotless i
(U+0131, a lower-case letter that `toLowerCase` keeps), gives the default
steps, and its upper-casing `RUNNING` gives the steps of `running`: changing
the letter case of the name changes the result. -/
theorem C30_case_change_changes_steps :
    toUpperCase "runnıng" = some "RUNNING" ∧
    asciiLowerCase "runnıng" = "runnıng" ∧
    asciiLowerCase "RUNNING" = "running" ∧
    getExerciseSteps asciiLowerCase "cardio" "runnıng" = defaultSteps ∧
    getExerciseSteps asciiLowerCase "cardio" "RUNNING" =
      ["Start with a 5-minute warm-up walk",
       "Begin jogging at a comfortable pace",
       "Maintain steady breathing rhythm",
       "Keep your posture upright",
       "Land on the balls of your feet",
       "Cool down with a 5-minute walk",
       "Stretch your calves and hamstrings"] ∧
    getExerciseSteps asciiLowerCase "cardio" "RUNNING" ≠
      getExerciseSteps asciiLowerCase "cardio" "runnıng" := by
  decide

/-- C30 (amended): for every lower-casing `toLowerCase`, `getExerciseSteps`
returns exactly 7 steps: those of the first exercise, in table order, of the
lower-cased type whose name contains the lower-cased `name` or is contained in
it, and the default steps when the type is no key of the table or no exercise
matches; inputs with the same lower-cased type and name give the same result,
and a type whose lower-cased form is `other` gives the default steps.  When
`toLowerCase` lower-cases ASCII strings as `String.prototype.toLowerCase`
does, ASCII inputs that differ in letter case only give the same result, and
an ASCII type that is `other` in any letter case gives the default steps. -/
theorem C30_exercise_steps (toLowerCase : String → String) (type name type' name' : String) :
    (getExerciseSteps toLowerCase type name).length = 7 ∧
    (∀ exs, exerciseInstructions.lookup (toLowerCase type) = some exs →
      (∀ pre k steps post, exs = pre ++ (k, steps) :: post →
        (∀ p ∈ pre, (includes (toLowerCase name) p.1 || includes p.1 (toLowerCase name)) = false) →
        (includes (toLowerCase name) k || includes k (toLowerCase name)) = true →
        getExerciseSteps toLowerCase type name = steps) ∧
      ((∀ p ∈ exs, (includes (toLowerCase name) p.1 || includes p.1 (toLowerCase name)) = false) →
        getExerciseSteps toLowerCase type name = defaultSteps)) ∧
    (exerciseInstructions.lookup (toLowerCase type) = none →
      getExerciseSteps toLowerCase type name = defaultSteps) ∧
    (toLowerCase type' = toLowerCase type → toLowerCase name' = toLowerCase name →
      getExerciseSteps toLowerCase type' name' = getExerciseSteps toLowerCase type name) ∧
    (toLowerCase type = "other" → getExerciseSteps toLowerCase type name = defaultSteps) ∧
    ((∀ s, isAscii s = true → toLowerCase s = asciiLowerCase s) →
      isAscii type = true → isAscii name = true → isAscii type' = true → isAscii name' = true →
      asciiLowerCase type' = asciiLowerCase type → asciiLowerCase name' = asciiLowerCase name →
      getExerciseSteps toLowerCase type' name' = getExerciseSteps toLowerCase type name) ∧
    ((∀ s, isAscii s = true → toLowerCase s = asciiLowerCase s) →
      isAscii type = true → asciiLowerCase type = "other" →
      getExerciseSteps toLowerCase type name = defaultSteps) := by
  refine ⟨?_, ?_, ?_, ?_, ?_, ?_, ?_⟩
  · unfold getExerciseSteps
    simp only
    cases hl : exerciseInstructions.lookup (toLowerCase type) with
    | none => rfl
    | some exs =>
      simp only
      cases hf : findSteps (toLowerCase name) exs with
      | none => rfl
      | some steps =>
        obtain ⟨k, hk⟩ := findSteps_mem _ _ _ hf
        exact table_steps_length _ (lookup_mem _ _ _ hl) _ hk
  · intro exs hl
    refine ⟨?_, ?_⟩
    · intro pre k steps post he hpre hk
      unfold getExerciseSteps
      simp only [hl, he, findSteps_first _ pre k steps post hpre hk]
    · intro hnone
      unfold getExerciseSteps
      simp only [hl, (findSteps_none _ _).mpr hnone]
  · intro hl
    unfold getExerciseSteps
    simp only [hl]
  · intro h1 h2
    unfold getExerciseSteps
    simp only [h1, h2]
  · intro h
    unfold getExerciseSteps
    simp only [h, lookup_other]
  · intro hlow ht hn ht' hn' e1 e2
    unfold getExerciseSteps
    simp only [hlow _ ht, hlow _ hn, hlow _ ht', hlow _ hn', e1, e2]
  · intro hlow ht h
    unfold getExerciseSteps
    simp only [hlow _ ht, h, lookup_other]

/-- C30 (amended) with the lower-casing of ASCII: `CARDIO` / `Morning Running`
differ from `cardio` / `morning running` in letter case only and give the same
steps, and type `Other` gives the default steps. -/
theorem C30_exercise_steps_witness :
    getExerciseSteps asciiLowerCase "CARDIO" "Morning Running" =
      getExerciseSteps asciiLowerCase "cardio" "morning running" ∧
    getExerciseSteps asciiLowerCase "Other" "running" = defaultSteps :=
  ⟨(C30_exercise_steps asciiLowerCase "cardio" "morning running" "CARDIO"
      "Morning Running").2.2.2.2.2.1
      (fun _ _ => rfl) (by decide) (by decide) (by decide) (by decide) (by decide) (by decide),
   (C30_exercise_steps asciiLowerCase "Other" "running" "" "").2.2.2.2.2.2
      (fun _ _ => rfl) (by decide) (by decide)⟩

/-! ## Records of another user -/

theorem updateWorkout_other (id userId : Nat) (u : WorkoutUpdate) (db : List Workout)
    (h : ∀ w ∈ db, w.id = id → w.userId ≠ userId) :
    updateWorkout id userId u db = (none, db) := by
  induction db with
  | nil => rfl
  | cons x rest ih =>
    have hx : ¬ (x.id = id ∧ x.userId = userId) :=
      fun e => h x (List.mem_cons_self _ _) e.1 e.2
    unfold updateWorkout
    rw [if_neg hx, ih (fun w hw => h w (List.mem_cons_of_mem _ hw))]

theorem removeWorkout_other (id userId : Nat) (db : List Workout)
    (h : ∀ w ∈ db, w.id = id → w.userId ≠ userId) :
    removeWorkout id userId db = (none, db) := by
  induction db with
  | nil => rfl
  | cons x rest ih =>
    have hx : ¬ (x.id = id ∧ x.userId = userId) :=
      fun e => h x (List.mem_cons_self _ _) e.1 e.2
    unfold removeWorkout
    rw [if_neg hx, ih (fun w hw => h w (List.mem_cons_of_mem _ hw))]

theorem findWorkout_other (id userId : Nat) (db : List Workout)
    (h : ∀ w ∈ db, w.id = id → w.userId ≠ userId) :
    db.find? (fun w => decide (w.id = id ∧ w.userId = userId)) = none := by
  rw [List.find?_eq_none]
  intro w hw
  have hx : ¬ (w.id = id ∧ w.userId = userId) := fun e => h w hw e.1 e.2
  simpa using hx

theorem updateMeal_other (id userId : Nat) (mealType : String) (items : List FoodItem)
    (db : List Meal) (h : ∀ m ∈ db, m.id = id → m.userId ≠ userId) :
    findOneAndUpdate id userId mealType items db = (none, db) := by
  induction db with
  | nil => rfl
  | cons x rest ih =>
    have hx : ¬ (x.id = id ∧ x.userId = userId) :=
      fun e => h x (List.mem_cons_self _ _) e.1 e.2
    unfold findOneAndUpdate
    rw [if_neg hx, ih (fun w hw => h w (List.mem_cons_of_mem _ hw))]

theorem removeMeal_other (id userId : Nat) (db : List Meal)
    (h : ∀ m ∈ db, m.id = id → m.userId ≠ userId) :
    removeMeal id userId db = (none, db) := by
  induction db with
  | nil => rfl
  | cons x rest ih =>
    have hx : ¬ (x.id = id ∧ x.userId = userId) :=
      fun e => h x (List.mem_cons_self _ _) e.1 e.2
    unfold removeMeal
    rw [if_neg hx, ih (fun w hw => h w (List.mem_cons_of_mem _ hw))]

theorem findMeal_other (id userId : Nat) (db : List Meal)
    (h : ∀ m ∈ db, m.id = id → m.userId ≠ userId) :
    db.find? (fun m => decide (m.id = id ∧ m.userId = userId)) = none := by
  rw [List.find?_eq_none]
  intro m hm
  have hx : ¬ (m.id = id ∧ m.userId = userId) := fun e => h m hm e.1 e.2
  simpa using hx

/-- A query of user `B` finds the same records with and without the records
of another user `A`. -/
theorem filter_without_other {α : Type} (uid : α → Nat) (A B : Nat) (hAB : A ≠ B)
    (p : α → Bool) (hp : ∀ x, p x = true → uid x = B) (db : List α) :
    (db.filter (fun x => decide (uid x ≠ A))).filter p = db.filter p := by
  rw [List.filter_filter]
  apply List.filter_congr
  intro x _
  by_cases hx : p x = true
  · have : uid x ≠ A := by rw [hp x hx]; exact fun e => hAB e.symm
    simp [hx, this]
  · simp [hx]

theorem putWorkout_other (B id : Nat) (db : List Workout) (body : WorkoutBody)
    (h : ∀ w ∈ db, w.id = id → w.userId ≠ B) :
    (putWorkout B id db body).2 = db ∧
    ((putWorkout B id db body).1.status = 404 ∨ (putWorkout B id db body).1.status = 400 ∨
      (putWorkout B id db body).1.status = 500) ∧
    (body.duration ≠ NumInput.parsed none → body.calories ≠ NumInput.parsed none →
      validUpdate (updateDataOf body) = true → (putWorkout B id db body).1.status = 404) := by
  unfold putWorkout
  split
  · rename_i hnan
    refine ⟨rfl, Or.inr (Or.inr rfl), ?_⟩
    intro h1 h2 _
    rcases hnan with e | e
    · exact absurd e h1
    · exact absurd e h2
  · split
    · rw [updateWorkout_other id B _ db h]
      exact ⟨rfl, Or.inl rfl, fun _ _ _ => rfl⟩
    · rename_i hv
      refine ⟨rfl, Or.inr (Or.inl rfl), ?_⟩
      intro _ _ hv'
      exact absurd hv' hv

theorem putMeal_other (B id : Nat) (db : List Meal) (body : MealBody)
    (h : ∀ m ∈ db, m.id = id → m.userId ≠ B) :
    (putMeal B id db body).2 = db ∧
    ((putMeal B id db body).1.status = 404 ∨ (putMeal B id db body).1.status = 400) ∧
    (∀ items, acceptedItems body = some items →
      validMealPaths body.mealType (items.map toFoodItem) = true →
      (putMeal B id db body).1.status = 404) := by
  unfold putMeal
  cases ha : acceptedItems body with
  | none =>
    refine ⟨rfl, Or.inr rfl, ?_⟩
    intro items e
    exact Option.noConfusion e
  | some items =>
    simp only
    split
    · rw [updateMeal_other id B _ _ db h]
      refine ⟨rfl, Or.inl rfl, fun _ _ _ => rfl⟩
    · rename_i hv
      refine ⟨rfl, Or.inr rfl, ?_⟩
      intro items' e hv'
      simp only [Option.some.injEq] at e
      subst e
      exact absurd hv' hv

theorem findWorkoutsBetween_without (A B : Nat) (hAB : A ≠ B) (s e : Int) (db : List Workout) :
    findWorkoutsBetween B s e (db.filter (fun w => decide (w.userId ≠ A))) =
      findWorkoutsBetween B s e db := by
  unfold findWorkoutsBetween
  exact filter_without_other Workout.userId A B hAB _
    (by intro x hx; simp only [decide_eq_true_eq] at hx; exact hx.1) db

theorem findMealsBetween_without (A B : Nat) (hAB : A ≠ B) (s e : Int) (db : List Meal) :
    findMealsBetween B s e (db.filter (fun m => decide (m.userId ≠ A))) =
      findMealsBetween B s e db := by
  unfold findMealsBetween
  exact filter_without_other Meal.userId A B hAB _
    (by intro x hx; simp only [decide_eq_true_eq] at hx; exact hx.1) db

theorem listWorkouts_without (A B : Nat) (hAB : A ≠ B) (q : ListQuery) (db : List Workout) :
    listWorkouts B q (db.filter (fun w => decide (w.userId ≠ A))) = listWorkouts B q db := by
  unfold listWorkouts
  simp only
  rw [filter_without_other Workout.userId A B hAB _
    (by intro x hx; simp only [Bool.and_eq_true, decide_eq_true_eq] at hx; exact hx.1.1) db]

theorem listMeals_without (A B : Nat) (hAB : A ≠ B) (q : ListQuery) (db : List Meal) :
    listMeals B q (db.filter (fun m => decide (m.userId ≠ A))) = listMeals B q db := by
  unfold listMeals
  simp only
  rw [filter_without_other Meal.userId A B hAB _
    (by intro x hx; simp only [Bool.and_eq_true, decide_eq_true_eq] at hx; exact hx.1.1) db]

theorem streakOf_without (A B : Nat) (hAB : A ≠ B) (tz now : Int) (db : List Workout) :
    streakOf tz now B (db.filter (fun w => decide (w.userId ≠ A))) = streakOf tz now B db := by
  unfold streakOf
  rw [filter_without_other Workout.userId A B hAB _
    (by intro x hx; simp only [decide_eq_true_eq] at hx; exact hx) db]

theorem workoutStats_without (A B : Nat) (hAB : A ≠ B) (now : Int) (db : List Workout) :
    workoutStats now B (db.filter (fun w => decide (w.userId ≠ A))) = workoutStats now B db := by
  unfold workoutStats
  simp only
  rw [filter_without_other Workout.userId A B hAB _
    (by intro x hx; simp only [decide_eq_true_eq] at hx; exact hx.1) db]

theorem progressSummary_without (A B : Nat) (hAB : A ≠ B) (tz now : Int)
    (query : Option String) (wdb : List Workout) (mdb : List Meal) :
    progressSummary tz now B query (wdb.filter (fun w => decide (w.userId ≠ A)))
        (mdb.filter (fun m => decide (m.userId ≠ A))) =
      progressSummary tz now B query wdb mdb := by
  simp only [progressSummary, findWorkoutsBetween_without A B hAB,
    findMealsBetween_without A B hAB]

theorem nutritionBreakdown_without (A B : Nat) (hAB : A ≠ B) (tz now : Int)
    (query : Option String) (mdb : List Meal) :
    nutritionBreakdown tz now B query (mdb.filter (fun m => decide (m.userId ≠ A))) =
      nutritionBreakdown tz now B query mdb := by
  simp only [nutritionBreakdown, findMealsBetween_without A B hAB]

theorem workoutAnalytics_without (A B : Nat) (hAB : A ≠ B) (tz now : Int)
    (query : Option String) (wdb : List Workout) :
    workoutAnalytics tz now B query (wdb.filter (fun w => decide (w.userId ≠ A))) =
      workoutAnalytics tz now B query wdb := by
  simp only [workoutAnalytics, findWorkoutsBetween_without A B hAB]

/-- C26 (counterexample): user 2 sends `PUT /meals/7` for the meal 7 of user 1
with a body that has neither `mealType` nor `items`, and `PUT /workouts/7` for
the workout 7 of user 1 with a duration that parses to 0, or with a name of
three spaces: all are answered with status 400, not 404 (the stored records
are unchanged). -/
theorem C26_put_of_other_user_not_404 :
    (putWorkout 2 7 [{ runAt 1 (20000 * msPerDay) 300 with id := 7 }]
      { date := none, name := "   ", type := "", duration := NumInput.falsy,
        calories := NumInput.falsy, notes := none }).1.status = 400 ∧
    (putMeal 2 7 [{ mealAt 1 (20000 * msPerDay) 500 20 with id := 7 }]
      { date := none, mealType := "", items := none }).1.status = 400 ∧
    (putMeal 2 7 [{ mealAt 1 (20000 * msPerDay) 500 20 with id := 7 }]
      { date := none, mealType := "", items := none }).2 =
      [{ mealAt 1 (20000 * msPerDay) 500 20 with id := 7 }] ∧
    (putWorkout 2 7 [{ runAt 1 (20000 * msPerDay) 300 with id := 7 }]
      { date := none, name := "", type := "", duration := NumInput.parsed (some 0),
        calories := NumInput.falsy, notes := none }).1.status = 400 ∧
    ¬ (putMeal 2 7 [{ mealAt 1 (20000 * msPerDay) 500 20 with id := 7 }]
      { date := none, mealType := "", items := none }).1.status = 404 := by
  decide

/-- C26 (amended): for an id whose records are owned by user `A` and another
user `B`: a GET or DELETE of that id by `B` is answered with 404; a PUT by `B`
is answered with 404 when its body passes the checks and validators of the
handler, and with the error status of the body otherwise (400, or 500 for a
workout number that is `NaN`); in every case the collection is unchanged; and
the list, streak, stats, summary, nutrition and workout-analytics results of
`B` are the same with and without the records of `A`. -/
theorem C26_other_user_isolated (toLowerCase : String → String) (A B id : Nat) (hAB : A ≠ B)
    (tz now : Int)
    (query : Option String) (q : ListQuery) (wdb : List Workout) (mdb : List Meal)
    (wbody : WorkoutBody) (mbody : MealBody)
    (hw : ∀ w ∈ wdb, w.id = id → w.userId = A) (hm : ∀ m ∈ mdb, m.id = id → m.userId = A) :
    ((getWorkout toLowerCase B id wdb).status = 404 ∧ deleteWorkout B id wdb = (404, wdb) ∧
      (putWorkout B id wdb wbody).2 = wdb ∧
      ((putWorkout B id wdb wbody).1.status = 404 ∨ (putWorkout B id wdb wbody).1.status = 400 ∨
        (putWorkout B id wdb wbody).1.status = 500) ∧
      (wbody.duration ≠ NumInput.parsed none → wbody.calories ≠ NumInput.parsed none →
        validUpdate (updateDataOf wbody) = true → (putWorkout B id wdb wbody).1.status = 404)) ∧
    ((getMeal B id mdb).status = 404 ∧ deleteMeal B id mdb = (404, mdb) ∧
      (putMeal B id mdb mbody).2 = mdb ∧
      ((putMeal B id mdb mbody).1.status = 404 ∨ (putMeal B id mdb mbody).1.status = 400) ∧
      (∀ items, acceptedItems mbody = some items →
        validMealPaths mbody.mealType (items.map toFoodItem) = true →
        (putMeal B id mdb mbody).1.status = 404)) ∧
    (listWorkouts B q (wdb.filter (fun w => decide (w.userId ≠ A))) = listWorkouts B q wdb ∧
      listMeals B q (mdb.filter (fun m => decide (m.userId ≠ A))) = listMeals B q mdb ∧
      streakOf tz now B (wdb.filter (fun w => decide (w.userId ≠ A))) = streakOf tz now B wdb ∧
      workoutStats now B (wdb.filter (fun w => decide (w.userId ≠ A))) = workoutStats now B wdb ∧
      progressSummary tz now B query (wdb.filter (fun w => decide (w.userId ≠ A)))
          (mdb.filter (fun m => decide (m.userId ≠ A))) =
        progressSummary tz now B query wdb mdb ∧
      nutritionBreakdown tz now B query (mdb.filter (fun m => decide (m.userId ≠ A))) =
        nutritionBreakdown tz now B query mdb ∧
      workoutAnalytics tz now B query (wdb.filter (fun w => decide (w.userId ≠ A))) =
        workoutAnalytics tz now B query wdb) := by
  have hw' : ∀ w ∈ wdb, w.id = id → w.userId ≠ B := fun w h e => by rw [hw w h e]; exact hAB
  have hm' : ∀ m ∈ mdb, m.id = id → m.userId ≠ B := fun m h e => by rw [hm m h e]; exact hAB
  obtain ⟨p1, p2, p3⟩ := putWorkout_other B id wdb wbody hw'
  obtain ⟨m1, m2, m3⟩ := putMeal_other B id mdb mbody hm'
  refine ⟨⟨?_, ?_, p1, p2, p3⟩, ⟨?_, ?_, m1, m2, m3⟩, ?_⟩
  · unfold getWorkout
    rw [findWorkout_other id B wdb hw']
  · unfold deleteWorkout
    rw [removeWorkout_other id B wdb hw']
  · unfold getMeal
    rw [findMeal_other id B mdb hm']
  · unfold deleteMeal
    rw [removeMeal_other id B mdb hm']
  · exact ⟨listWorkouts_without A B hAB q wdb, listMeals_without A B hAB q mdb,
      streakOf_without A B hAB tz now wdb, workoutStats_without A B hAB now wdb,
      progressSummary_without A B hAB tz now query wdb mdb,
      nutritionBreakdown_without A B hAB tz now query mdb,
      workoutAnalytics_without A B hAB tz now query wdb⟩

/-- C26 (amended) at the workout 7 of user 1 and user 2: the DELETE of user 2
is answered with 404 and leaves the collection, and the streak of user 2 is
the same without the workout of user 1. -/
theorem C26_other_user_isolated_witness :
    deleteWorkout 2 7 [{ runAt 1 (20000 * msPerDay) 300 with id := 7 }] =
      (404, [{ runAt 1 (20000 * msPerDay) 300 with id := 7 }]) ∧
    streakOf 0 (20000 * msPerDay + 43200000) 2
        ([{ runAt 1 (20000 * msPerDay) 300 with id := 7 }].filter
          (fun w => decide (w.userId ≠ 1))) =
      streakOf 0 (20000 * msPerDay + 43200000) 2
        [{ runAt 1 (20000 * msPerDay) 300 with id := 7 }] :=
  ⟨(C26_other_user_isolated asciiLowerCase 1 2 7 (by decide) 0 (20000 * msPerDay + 43200000) none
      { startDate := none, endDate := none, type := none, limit := 20, skip := 0 }
      [{ runAt 1 (20000 * msPerDay) 300 with id := 7 }] []
      { date := none, name := "", type := "", duration := NumInput.falsy,
        calories := NumInput.falsy, notes := none }
      { date := none, mealType := "", items := none }
      (fun w hw _ => by
        rw [List.mem_singleton] at hw
        subst hw
        rfl)
      (fun _ h => absurd h (List.not_mem_nil _))).1.2.1,
   (C26_other_user_isolated asciiLowerCase 1 2 7 (by decide) 0 (20000 * msPerDay + 43200000) none
      { startDate := none, endDate := none, type := none, limit := 20, skip := 0 }
      [{ runAt 1 (20000 * msPerDay) 300 with id := 7 }] []
      { date := none, name := "", type := "", duration := NumInput.falsy,
        calories := NumInput.falsy, notes := none }
      { date := none, mealType := "", items := none }
      (fun w hw _ => by
        rw [List.mem_singleton] at hw
        subst hw
        rfl)
      (fun _ h => absurd h (List.not_mem_nil _))).2.2.2.2.1⟩

/-! ## A zone without changes -/

theorem setHoursZeroIn_fixedZone (tz t : Int) :
    setHoursZeroIn (fixedZone tz) t = setHoursZero tz t := by
  simp only [setHoursZeroIn, utcOf, localTime, fixedZone, offsetFrom, localOffsetFrom,
    setHoursZero]
  omega

theorem setDateAddIn_fixedZone (tz t n : Int) :
    setDateAddIn (fixedZone tz) t n = setDateAdd t n := by
  simp only [setDateAddIn, utcOf, localTime, fixedZone, offsetFrom, localOffsetFrom, setDateAdd]
  omega

theorem setMonthPrevIn_fixedZone (tz t : Int) :
    setMonthPrevIn (fixedZone tz) t = setMonthPrev tz t := by
  simp only [setMonthPrevIn, utcOf, localTime, fixedZone, offsetFrom, localOffsetFrom,
    setMonthPrev]

theorem localDay_fixedZone (tz t : Int) : localDay (fixedZone tz) t = dayOf tz t := by
  simp only [localDay, localTime, fixedZone, offsetFrom, dayOf]

theorem currentStreakLoopIn_fixedZone (tz : Int) (l : List Int) :
    ∀ (c : Int) (k : Nat),
      currentStreakLoopIn (fixedZone tz) c l k = currentStreakLoop c l k := by
  induction l with
  | nil => intro c k; rfl
  | cons x rest ih =>
    intro c k
    simp only [currentStreakLoopIn, currentStreakLoop, setDateAddIn_fixedZone, ih]
    have : setDateAdd x (-1) = setDatePrev x := by
      simp only [setDateAdd, setDatePrev]
      omega
    rw [this]

theorem workoutDatesIn_fixedZone (tz : Int) (l : List Int) :
    workoutDatesIn (fixedZone tz) l = workoutDates tz l := by
  simp only [workoutDatesIn, workoutDates, setHoursZeroIn_fixedZone]

/-- On a zone without changes the handler of `/streak` is the handler of a
clock with a constant offset. -/
theorem streakIn_fixedZone (tz now : Int) (stored : List Int) :
    streakIn (fixedZone tz) now stored = streak tz now stored := by
  unfold streakIn streak
  cases findWorkouts stored with
  | nil => rfl
  | cons m more =>
    simp only [sortedDatesIn, sortedDates, workoutDatesIn_fixedZone, setHoursZeroIn_fixedZone,
      currentStreakLoopIn_fixedZone]

theorem summaryStartIn_fixedZone (tz now : Int) (period : String) :
    summaryStartIn (fixedZone tz) now period = summaryStart tz now period := by
  simp only [summaryStartIn, summaryStart, setHoursZeroIn_fixedZone, setDateAddIn_fixedZone,
    setMonthPrevIn_fixedZone]

theorem nutritionStartIn_fixedZone (tz now : Int) (period : String) :
    nutritionStartIn (fixedZone tz) now period = nutritionStart tz now period := by
  simp only [nutritionStartIn, nutritionStart, setHoursZeroIn_fixedZone, setDateAddIn_fixedZone,
    setMonthPrevIn_fixedZone]

theorem initDatesIn_fixedZone (tz : Int) (fuel : Nat) :
    ∀ (c e : Int) (d : List DayBucket),
      initDatesIn (fixedZone tz) fuel c e d = initDates fuel c e d := by
  induction fuel with
  | zero => intro c e d; rfl
  | succ n ih =>
    intro c e d
    simp only [initDatesIn, initDates, setDateAddIn_fixedZone, ih]

/-- On a zone without changes the handler of `/summary` is the handler of a
clock with a constant offset. -/
theorem progressSummaryIn_fixedZone (tz now : Int) (userId : Nat) (query : Option String)
    (wdb : List Workout) (mdb : List Meal) :
    progressSummaryIn (fixedZone tz) now userId query wdb mdb =
      progressSummary tz now userId query wdb mdb := by
  simp only [progressSummaryIn, progressSummary, dailyDataOfIn, dailyDataOf,
    summaryStartIn_fixedZone, initDatesIn_fixedZone]

/-- On a zone without changes the handler of `/nutrition` is the handler of a
clock with a constant offset. -/
theorem nutritionBreakdownIn_fixedZone (tz now : Int) (userId : Nat) (query : Option String)
    (mdb : List Meal) :
    nutritionBreakdownIn (fixedZone tz) now userId query mdb =
      nutritionBreakdown tz now userId query mdb := by
  simp only [nutritionBreakdownIn, nutritionBreakdown, nutritionStartIn_fixedZone]

theorem zone_eq_fixedZone (z : Zone) (hz : z.changes = []) : z = fixedZone z.base := by
  cases z
  simp only [fixedZone] at *
  simp only [hz]


/-! ## The handlers across a change of the clock -/

/-- C3 (code defect): on a server in the zone America/New_York, at 12:00 on
12 March 2024, with a single workout made on 10 March at 01:00, the workout
day is two calendar days before today (`t - d1 > 1` day, for which the claim
gives 0), but the two local midnights are 47 hours apart, `Math.floor` of
their difference in days is 1 and the handler answers `currentStreak = 1`. -/
theorem C3_current_streak_across_clock_change :
    localDay newYork 1710259200000 - localDay newYork 1710050400000 = 2 ∧
    setHoursZeroIn newYork 1710259200000 - setHoursZeroIn newYork 1710050400000 =
      47 * 3600000 ∧
    daysDiff (setHoursZeroIn newYork 1710259200000) (setHoursZeroIn newYork 1710050400000) = 1 ∧
    (streakIn newYork 1710259200000 [1710050400000]).currentStreak = 1 := by
  decide

/-- C4 (code defect): on a server in the zone America/New_York, with workouts
on 9 March 2024 and 11 March 2024 only (09:00 each, request on 20 March at
12:00), no two workout days are consecutive, so the longest run has 1 day, but
the two local midnights are 47 hours apart and the handler answers
`longestStreak = 2`. -/
theorem C4_longest_streak_across_clock_change :
    localDay newYork 1710162000000 - localDay newYork 1709992800000 = 2 ∧
    setHoursZeroIn newYork 1710162000000 - setHoursZeroIn newYork 1709992800000 =
      47 * 3600000 ∧
    (streakIn newYork 1710950400000 [1709992800000, 1710162000000]).longestStreak = 2 := by
  decide

/-- C6 (code defect): on a server in the zone America/New_York, at 12:00 on
13 March 2024, with workouts today at 08:00 and on 10 March at 01:00 only, the
other workout day is 3 calendar days before today, but `checkDate` (12 March,
00:00) is 47 hours after the midnight of 10 March and the handler answers
`currentStreak = 2`, not 1. -/
theorem C6_gap_of_two_days_across_clock_change :
    localDay newYork 1710331200000 = localDay newYork 1710345600000 ∧
    localDay newYork 1710345600000 - localDay newYork 1710050400000 = 3 ∧
    setDateAddIn newYork (setHoursZeroIn newYork 1710331200000) (-1) -
      setHoursZeroIn newYork 1710050400000 = 47 * 3600000 ∧
    (streakIn newYork 1710345600000 [1710331200000, 1710050400000]).currentStreak = 2 := by
  decide

/-- C7 (code defect): on a server in the zone Europe/London, at 12:00 on
2 April 2024, with a single workout made on 31 March at 00:30, the day of the
most recent workout is two days before today (older than yesterday), but the
two local midnights are 47 hours apart and the handler answers
`currentStreak = 1`, not 0. -/
theorem C7_older_than_yesterday_across_clock_change :
    (streakIn london 1712055600000 [1711845000000]).lastWorkoutDate = some 1711845000000 ∧
    localDay london 1711845000000 = localDay london 1712055600000 - 2 ∧
    setHoursZeroIn london 1712055600000 - setHoursZeroIn london 1711845000000 = 47 * 3600000 ∧
    (streakIn london 1712055600000 [1711845000000]).currentStreak = 1 := by
  decide

/-- C12 (code defect): on a server in the zone Europe/London, at 12:00 on
2 April 2024, for period = week and a user without records, the window runs
over 8 local days (26 March to 2 April) but the summary has 7 buckets: the
local midnights of 31 March (00:00 UTC) and of 1 April (23:00 UTC on 31 March)
have the same UTC date, and the second assignment replaces the first. -/
theorem C12_week_of_seven_buckets :
    localDay london 1712055600000 -
      localDay london (progressSummaryIn london 1712055600000 1 (some "week") [] []).startDate
      + 1 = 8 ∧
    dateKey (setHoursZeroIn london 1711886400000) = dateKey (setHoursZeroIn london 1711972800000) ∧
    (progressSummaryIn london 1712055600000 1 (some "week") [] []).dailyData.map DayBucket.date =
      [19808, 19809, 19810, 19811, 19812, 19813, 19814] ∧
    (progressSummaryIn london 1712055600000 1 (some "week") [] []).dailyData.length = 7 := by
  decide

/-- C14 (code defect): on a server in the zone Europe/London, at 12:00 on
29 October 2024, for period = week, the 8 buckets have the dates 21 to 26
October, 28 October and 29 October: the date 27 October is missing (the local
midnight of 27 October is 23:00 UTC on 26 October, that of 28 October is 00:00
UTC on 28 October), so the dates are not consecutive. -/
theorem C14_gap_in_the_dates :
    (progressSummaryIn london 1730203200000 1 (some "week") [] []).dailyData.map DayBucket.date =
      [20017, 20018, 20019, 20020, 20021, 20022, 20024, 20025] ∧
    ¬ List.Chain' (fun a b => b = a + 1)
      ((progressSummaryIn london 1730203200000 1 (some "week") [] []).dailyData.map
        DayBucket.date) := by
  have h : (progressSummaryIn london 1730203200000 1 (some "week") [] []).dailyData.map
      DayBucket.date = [20017, 20018, 20019, 20020, 20021, 20022, 20024, 20025] := by
    decide
  refine ⟨h, ?_⟩
  rw [h]
  intro hc
  simp [List.chain'_cons] at hc


/-- C19 (code defect): on a server in the zone America/New_York, at 12:00 on
5 November 2024, for period = week and one meal of 210 g of protein made the
day before, the window starts at 12:00 on 29 October, 169 hours before the
request (the clock moved back on 3 November), so `days = Math.ceil(169 / 24)`
is 8 and `averages.protein = Math.round(210 / 8)` is 26, not 30. -/
theorem C19_week_of_eight_days :
    nutritionStartIn newYork 1730826000000 "week" = 1730217600000 ∧
    1730826000000 - nutritionStartIn newYork 1730826000000 "week" = 169 * 3600000 ∧
    ceilDays 1730826000000 (nutritionStartIn newYork 1730826000000 "week") = 8 ∧
    (nutritionBreakdownIn newYork 1730826000000 1 (some "week")
      [mealAt 1 1730739600000 1400 210]).totals.protein = 210 ∧
    (nutritionBreakdownIn newYork 1730826000000 1 (some "week")
      [mealAt 1 1730739600000 1400 210]).averages.protein = some 26 := by
  have hs : nutritionStartIn newYork 1730826000000 "week" = 1730217600000 := by decide
  have hq : (some "week" : Option String).getD "week" = "week" := rfl
  have hf : findMealsBetween 1 1730217600000 1730826000000 [mealAt 1 1730739600000 1400 210] =
      [mealAt 1 1730739600000 1400 210] := by decide
  have hd : ceilDays 1730826000000 1730217600000 = 8 := by decide
  refine ⟨hs, by decide, by decide, ?_, ?_⟩
  · simp only [nutritionBreakdownIn, hq, hs, hf, List.foldl, mealAt]
    norm_num
  · simp only [nutritionBreakdownIn, hq, hs, hf, hd, List.foldl, mealAt, roundDiv]
    norm_num


theorem month_window_fixedZone (tz now : Int) (userId : Nat) (wdb : List Workout)
    (mdb : List Meal) :
    ∃ L : Int, 28 ≤ L ∧ L ≤ 31 ∧
      L = localDay (fixedZone tz) now - prevMonthDay (localDay (fixedZone tz) now) ∧
      (progressSummaryIn (fixedZone tz) now userId (some "month") wdb mdb).startDate =
        midnightOf tz (localDay (fixedZone tz) now - L) ∧
      (progressSummaryIn (fixedZone tz) now userId (some "month") wdb mdb).startDate =
        setHoursZeroIn (fixedZone tz)
          (progressSummaryIn (fixedZone tz) now userId (some "month") wdb mdb).startDate ∧
      localDay (fixedZone tz)
          (progressSummaryIn (fixedZone tz) now userId (some "month") wdb mdb).startDate =
        localDay (fixedZone tz) now - L ∧
      ((progressSummaryIn (fixedZone tz) now userId (some "month") wdb mdb).dailyData.length : Int)
        = L + 1 ∧
      ((progressSummaryIn (fixedZone tz) now userId (some "month") wdb mdb).dailyData.length = 31
        ↔ L = 30) := by
  simp only [progressSummaryIn_fixedZone, localDay_fixedZone, setHoursZeroIn_fixedZone]
  obtain ⟨L, h1, h2, h3, h4, h5, h6, h7⟩ := const_offset_month_window tz now userId wdb mdb
  refine ⟨L, h1, h2, h3, h4, ?_, h5, h6, h7⟩
  rw [h4]
  simp only [midnightOf, setHoursZero, msPerDay]
  omega

/-- C15 (amended): on a server whose zone keeps one offset, for period = month
the window starts at the start of the local day that `setMonth(getMonth() - 1)`
gives: the day with the same number in the month before, between 28 and 31
days before today; the summary has one bucket more than that number of days,
so between 29 and 32 buckets, and 31 exactly when the window starts 30 days
before today. -/
theorem C15_month_window (z : Zone) (hz : z.changes = []) (now : Int) (userId : Nat)
    (wdb : List Workout) (mdb : List Meal) :
    ∃ L : Int, 28 ≤ L ∧ L ≤ 31 ∧
      L = localDay z now - prevMonthDay (localDay z now) ∧
      (progressSummaryIn z now userId (some "month") wdb mdb).startDate =
        midnightOf z.base (localDay z now - L) ∧
      (progressSummaryIn z now userId (some "month") wdb mdb).startDate =
        setHoursZeroIn z (progressSummaryIn z now userId (some "month") wdb mdb).startDate ∧
      localDay z (progressSummaryIn z now userId (some "month") wdb mdb).startDate =
        localDay z now - L ∧
      ((progressSummaryIn z now userId (some "month") wdb mdb).dailyData.length : Int) = L + 1 ∧
      ((progressSummaryIn z now userId (some "month") wdb mdb).dailyData.length = 31 ↔ L = 30) := by
  obtain ⟨tz, ch⟩ := z
  simp only at hz
  subst hz
  exact month_window_fixedZone tz now userId wdb mdb

/-- C15 (amended) on a server at UTC, at 12:00 on 15 March 2024: the zone has
no change and the statement holds there. -/
theorem C15_month_window_witness :
    (fixedZone 0).changes = [] ∧
    ∃ L : Int, 28 ≤ L ∧ L ≤ 31 ∧
      L = localDay (fixedZone 0) (19797 * msPerDay + 43200000) -
        prevMonthDay (localDay (fixedZone 0) (19797 * msPerDay + 43200000)) ∧
      (progressSummaryIn (fixedZone 0) (19797 * msPerDay + 43200000) 1 (some "month")
        [] []).startDate =
        midnightOf (fixedZone 0).base (localDay (fixedZone 0) (19797 * msPerDay + 43200000) - L) ∧
      (progressSummaryIn (fixedZone 0) (19797 * msPerDay + 43200000) 1 (some "month")
        [] []).startDate =
        setHoursZeroIn (fixedZone 0) (progressSummaryIn (fixedZone 0)
          (19797 * msPerDay + 43200000) 1 (some "month") [] []).startDate ∧
      localDay (fixedZone 0) (progressSummaryIn (fixedZone 0) (19797 * msPerDay + 43200000) 1
        (some "month") [] []).startDate =
        localDay (fixedZone 0) (19797 * msPerDay + 43200000) - L ∧
      ((progressSummaryIn (fixedZone 0) (19797 * msPerDay + 43200000) 1 (some "month")
        [] []).dailyData.length : Int) = L + 1 ∧
      ((progressSummaryIn (fixedZone 0) (19797 * msPerDay + 43200000) 1 (some "month")
        [] []).dailyData.length = 31 ↔ L = 30) :=
  ⟨rfl, C15_month_window (fixedZone 0) rfl (19797 * msPerDay + 43200000) 1 [] []⟩


end FitnessTracker
